import Mathlib

/-!
The packages of retcon: dialing, port scanning and banner grabbing

A shallow embedding of the Go packages `pkg/utils`, `pkg/proxy` and `pkg/recon`.

Conventions of the embedding.

* Go `string`s are Lean `String`s; a byte read from a connection is a `Char`, so that
  `string(buffer[:n])` is the identity on the sequence read.
* A Go `error` is a `GoError` (message and whether `errors.Is(err, io.EOF)` holds);
  a `(T, error)` result is an `Except GoError T` or a pair with an `Option GoError`.
* Effects are made explicit by state passing: every operation takes the state of the
  outside world and returns the new one.  The world records the calls that were made
  (dialer invocations, log records, closed connections, sleeps), so that "how many
  attempts" and "what was logged" are statements about the returned world.
* Goroutines are embedded as a step function over scheduler events; a schedule is a
  list of events.
-/

namespace Retcon

/-! ## Errors and connections -/

/-- A Go `error`: its message and whether `errors.Is(err, io.EOF)` holds. -/
structure GoError where
  msg : String
  isEOF : Bool
  deriving DecidableEq, Repr

/-- A `net.Conn`. `read bufferSize` is what the first `Read` on a buffer of that size
delivers: the bytes the peer has sent (only the part that fits is copied) and the error
the call returns. -/
structure Conn where
  id : Nat
  read : Nat → List Char × Option GoError

/-- The result of `n, err := conn.Read(buffer)` together with the buffer afterwards. -/
structure ReadResult where
  buffer : List Char
  n : Nat
  err : Option GoError

/-- The call `conn.Read(buffer)` with `buffer := make([]byte, bufferSize)`: at most
`bufferSize` bytes are copied to the front of the zeroed buffer and counted. -/
def Conn.Read (c : Conn) (bufferSize : Nat) : ReadResult :=
  let r := c.read bufferSize
  let n := min r.1.length bufferSize
  { buffer := r.1.take n ++ List.replicate (bufferSize - n) (Char.ofNat 0)
    n := n
    err := r.2 }

/-! ## The world seen by `pkg/utils` and `pkg/recon` -/

/-- A dialer `func(network, addr string) (net.Conn, error)`: a closure with state `σ`. -/
abbrev DialFn (σ : Type) := σ → String → String → Except GoError Conn × σ

/-- State of the outside world: the dialer closure's state, the dialer invocations made
so far, the records handed to `Logger.Log`, the lines printed through `log.Logger`, and
the connections closed. -/
structure World (σ : Type) where
  dstate : σ
  dials : List (String × String)
  log : List (String × String)
  lines : List String
  closed : List Nat

/-- The call `dialer(network, addr)`. -/
def World.dial {σ : Type} (call : DialFn σ) (w : World σ) (network addr : String) :
    Except GoError Conn × World σ :=
  let r := call w.dstate network addr
  (r.1, { w with dstate := r.2, dials := w.dials ++ [(network, addr)] })

/-- The call `logger.Log(level, message)`. -/
def World.Log {σ : Type} (w : World σ) (level message : String) : World σ :=
  { w with log := w.log ++ [(level, message)] }

/-- The call `logger.Println(message)` on a `*log.Logger`. -/
def World.Println {σ : Type} (w : World σ) (message : String) : World σ :=
  { w with lines := w.lines ++ [message] }

/-- The call `conn.Close()`. -/
def World.Close {σ : Type} (w : World σ) (c : Conn) : World σ :=
  { w with closed := w.closed ++ [c.id] }

/-- A world in which nothing has happened yet. -/
def World.fresh {σ : Type} (s : σ) : World σ :=
  { dstate := s, dials := [], log := [], lines := [], closed := [] }

/-! ## `pkg/utils` -/

namespace utils

def InfoLevel : String := "INFO"
def ErrorLevel : String := "ERROR"
def maxRetries : Nat := 3
def maxGoroutines : Nat := 1000

/-- The string `fmt.Sprintf("%s:%d", ip, port)`. -/
def hostPort (ip : String) (port : Int) : String :=
  ip ++ ":" ++ toString port

/-- Local variables of `GrabBanner` that live across loop iterations: the world, the
function-level `banner` and `err`, and the stack of deferred `conn.Close()` calls. -/
structure GrabState (σ : Type) where
  world : World σ
  banner : String
  err : Option GoError
  deferred : List Conn

/-- The loop `for i := 0; i < maxRetries; i++ { ... }` of `GrabBanner`, by the number of
iterations left.  `conn, err := dialer(...)` declares a new `err` in the scope of the loop
body, and `n, err := conn.Read(buffer)` assigns that one: the function-level `err` of
the state is not assigned in the loop. -/
def grabLoop {σ : Type} (call : DialFn σ) (addr : String) (bufferSize : Nat) :
    Nat → GrabState σ → GrabState σ
  | 0, st => st
  | k + 1, st =>
    match st.world.dial call "tcp" addr with
    | (Except.error e, w1) =>
      -- `continue`
      grabLoop call addr bufferSize k
        { st with world := w1.Log ErrorLevel ("Failed to connect to " ++ addr ++ ": " ++ e.msg) }
    | (Except.ok conn, w1) =>
      let deferred := conn :: st.deferred
      let r := conn.Read bufferSize
      match r.err with
      | some e =>
        if e.isEOF then
          let w2 := w1.Log InfoLevel ("Connection to " ++ addr ++ " closed by server")
          let banner := String.mk (r.buffer.take r.n)
          -- `break`
          { world := w2.Log InfoLevel ("Grabbed banner from " ++ addr ++ ": " ++ banner)
            banner := banner, err := st.err, deferred := deferred }
        else
          -- `continue`
          grabLoop call addr bufferSize k
            { world := w1.Log ErrorLevel ("Failed to read from " ++ addr ++ ": " ++ e.msg)
              banner := st.banner, err := st.err, deferred := deferred }
      | none =>
        let banner := String.mk (r.buffer.take r.n)
        -- `break`
        { world := w1.Log InfoLevel ("Grabbed banner from " ++ addr ++ ": " ++ banner)
          banner := banner, err := st.err, deferred := deferred }

/-- The function `GrabBanner(ctx, ip, port, bufferSize, dialer, logger)` for `bufferSize ≥ 0`.  The
context is only handed on to the dialer and is part of the dialer closure here.  The
deferred closes run when the function returns, last deferred first. -/
def GrabBanner {σ : Type} (call : DialFn σ) (ip : String) (port : Int) (bufferSize : Nat)
    (w : World σ) : (String × Option GoError) × World σ :=
  let addr := hostPort ip port
  let st := grabLoop call addr bufferSize maxRetries
    { world := w, banner := "", err := none, deferred := [] }
  let w1 := st.deferred.foldl World.Close st.world
  match st.err with
  | some e =>
    (("", some { msg := "failed to grab banner from " ++ addr ++ " after " ++
                   toString maxRetries ++ " attempts: " ++ e.msg
                 isEOF := e.isEOF }), w1)
  | none => ((st.banner, none), w1)

/-- The dialer state before attempt `j` (counted from 0) of a grab of `addr` that
starts in dialer state `s`. -/
def stateBefore {σ : Type} (call : DialFn σ) (addr : String) (s : σ) : Nat → σ
  | 0 => s
  | j + 1 => (call (stateBefore call addr s j) "tcp" addr).2

/-- What an attempt made in dialer state `s` ends in: `none` when the dial fails or
the read fails with an error other than end-of-stream, and otherwise the bytes
`buffer[:n]` of the read, which returned no error or end-of-stream. -/
def attemptBanner {σ : Type} (call : DialFn σ) (addr : String) (bufferSize : Nat) (s : σ) :
    Option String :=
  match (call s "tcp" addr).1 with
  | Except.error _ => none
  | Except.ok conn =>
    let r := conn.Read bufferSize
    match r.err with
    | some e => if e.isEOF then some (String.mk (r.buffer.take r.n)) else none
    | none => some (String.mk (r.buffer.take r.n))

end utils

/-! ## The world seen by `pkg/proxy` -/

/-- A call made by a proxy dialer to the outside. `start` is the clock (in nanoseconds)
when the call was made. -/
inductive NetEvent where
  /-- The call `net.DialTimeout(network, address, timeout)`. -/
  | dialTimeout (network address : String) (timeout : Int) (start : Int)
  /-- The call `proxy.SOCKS5(network, address, &proxy.Auth{user, password}, proxy.Direct)`. -/
  | socks5 (network address user password : String)
  /-- The call `dialer.Dial(network, target)` on a SOCKS5 dialer for proxy `address`. -/
  | socksDial (network address target : String) (start : Int)
  /-- The call `time.Sleep(d)`. -/
  | sleep (d : Int)
  /-- The call `fmt.Println(s)`. -/
  | println (s : String)
  /-- The call `conn.Close()`. -/
  | close (id : Nat)
  deriving DecidableEq, Repr

/-- The network and the clock. `connectOutcome k` is what the `k`-th underlying connect
(counted from 0) returns and how many nanoseconds it takes; `socksOutcome k` is the error,
if any, of the `k`-th call of `proxy.SOCKS5`.  `trace` lists the calls made so far. -/
structure Net where
  now : Int
  connectOutcome : Nat → Except GoError Conn × Nat
  socksOutcome : Nat → Option GoError
  connects : Nat
  socksCalls : Nat
  trace : List NetEvent

/-- The call `net.DialTimeout(network, address, timeout)`. -/
def Net.DialTimeout (w : Net) (network address : String) (timeout : Int) :
    Except GoError Conn × Net :=
  let r := w.connectOutcome w.connects
  (r.1, { w with now := w.now + r.2, connects := w.connects + 1
                 trace := w.trace ++ [NetEvent.dialTimeout network address timeout w.now] })

/-- The call `proxy.SOCKS5(network, address, auth, proxy.Direct)`; the dialer it returns
is represented by the arguments it was made from. -/
def Net.SOCKS5 (w : Net) (network address user password : String) : Option GoError × Net :=
  (w.socksOutcome w.socksCalls,
    { w with socksCalls := w.socksCalls + 1
             trace := w.trace ++ [NetEvent.socks5 network address user password] })

/-- The call `dialer.Dial(network, target)` on the SOCKS5 dialer for proxy `address`. -/
def Net.socksDial (w : Net) (network address target : String) : Except GoError Conn × Net :=
  let r := w.connectOutcome w.connects
  (r.1, { w with now := w.now + r.2, connects := w.connects + 1
                 trace := w.trace ++ [NetEvent.socksDial network address target w.now] })

/-- The call `time.Sleep(d)`. -/
def Net.Sleep (w : Net) (d : Int) : Net :=
  { w with now := w.now + d, trace := w.trace ++ [NetEvent.sleep d] }

/-- The call `fmt.Println(s)`. -/
def Net.Println (w : Net) (s : String) : Net :=
  { w with trace := w.trace ++ [NetEvent.println s] }

/-- The call `conn.Close()`. -/
def Net.Close (w : Net) (c : Conn) : Net :=
  { w with trace := w.trace ++ [NetEvent.close c.id] }

/-- Whether a call is an underlying connect. -/
def NetEvent.isConnect : NetEvent → Bool
  | NetEvent.dialTimeout _ _ _ _ => true
  | NetEvent.socksDial _ _ _ _ => true
  | _ => false

/-- Whether a call is a sleep of duration `d`. -/
def NetEvent.isSleep (d : Int) : NetEvent → Bool
  | NetEvent.sleep d1 => d1 == d
  | _ => false

/-- The address an underlying connect goes to (the proxy, for a SOCKS5 dial). -/
def NetEvent.destination : NetEvent → Option String
  | NetEvent.dialTimeout _ address _ _ => some address
  | NetEvent.socksDial _ address _ _ => some address
  | _ => none

/-- The clock at which an underlying connect was started. -/
def NetEvent.startedAt : NetEvent → Option Int
  | NetEvent.dialTimeout _ _ _ start => some start
  | NetEvent.socksDial _ _ _ start => some start
  | _ => none

/-! ## `pkg/proxy` -/

namespace proxy

def networkType : String := "tcp"
def defaultNetworkType : String := "tcp"
def maxRetries : Nat := 3

/-- The duration `time.Second`, in nanoseconds. -/
def second : Int := 1000000000

/-- The error `errors.New("proxy address cannot be empty")`. -/
def errEmptyProxyAddress : GoError :=
  { msg := "proxy address cannot be empty", isEOF := false }

/-- The error `fmt.Errorf("connection attempt timed out")`. -/
def errTimeout : GoError :=
  { msg := "connection attempt timed out", isEOF := false }

/-- The error `fmt.Errorf("failed to connect after %d attempts", maxRetries)`. -/
def errExhausted : GoError :=
  { msg := "failed to connect after " ++ toString maxRetries ++ " attempts", isEOF := false }

/-! ### `http_proxy.go` -/

structure HTTPProxyDialer where
  proxyAddr : String
  username : String
  password : String
  isConnected : Bool
  timeout : Int
  conn : Option Conn

/-- The function `NewHTTPProxy(proxyAddr, username, password)`; the function makes no call to the
outside and hands the world back as it got it. -/
def NewHTTPProxy (proxyAddr username password : String) (w : Net) :
    Except GoError HTTPProxyDialer × Net :=
  if proxyAddr = "" then
    (Except.error errEmptyProxyAddress, w)
  else
    (Except.ok
      { proxyAddr := proxyAddr, username := username, password := password
        isConnected := false, timeout := 30 * second, conn := none }, w)

/-- The loop `for { select { ... } }` of `HTTPProxyDialer.Dial`, with the local `retries`
and the deadline of `ctx`. `ctx.Done()` is ready when the clock has reached the deadline.
The loop is bounded by fuel; `none` is "out of fuel". -/
def HTTPProxyDialer.dialLoop (network : String) (deadline : Int) :
    Nat → Nat → HTTPProxyDialer → Net → Option (Except GoError Conn × HTTPProxyDialer × Net)
  | 0, _, _, _ => none
  | fuel + 1, retries, d, w =>
    if deadline ≤ w.now then
      some (Except.error errTimeout, d, w)
    else
      match w.DialTimeout network d.proxyAddr d.timeout with
      | (Except.ok c, w1) =>
        some (Except.ok c, { d with conn := some c, isConnected := true }, w1)
      | (Except.error _, w1) =>
        let d1 := { d with conn := none }
        let retries := retries + 1
        if retries ≥ maxRetries then
          some (Except.error errExhausted, d1, w1)
        else
          HTTPProxyDialer.dialLoop network deadline fuel retries d1
            ((w1.Println "Failed to connect, retrying...").Sleep (1 * second))

/-- The method `d.Dial(network, addr)`: `ctx` is `context.WithTimeout(context.Background(), d.timeout)`,
whose deadline is the clock at the call plus `d.timeout`.  The body of the Go function
does not mention its parameter `addr`. -/
def HTTPProxyDialer.Dial (d : HTTPProxyDialer) (network addr : String) (w : Net) :
    Option (Except GoError Conn × HTTPProxyDialer × Net) :=
  HTTPProxyDialer.dialLoop network (w.now + d.timeout) maxRetries 0 d w

def HTTPProxyDialer.SetCredentials (d : HTTPProxyDialer) (username password : String) :
    HTTPProxyDialer :=
  { d with username := username, password := password }

def HTTPProxyDialer.GetProxyAddress (d : HTTPProxyDialer) : String := d.proxyAddr

def HTTPProxyDialer.IsConnected (d : HTTPProxyDialer) : Bool := d.isConnected

def HTTPProxyDialer.Reconnect (d : HTTPProxyDialer) (w : Net) :
    Option (Option GoError × HTTPProxyDialer × Net) :=
  let w0 := match d.conn with
    | some c => w.Close c
    | none => w
  match d.Dial networkType d.proxyAddr w0 with
  | none => none
  | some (Except.error e, d1, w1) => some (some e, d1, w1)
  | some (Except.ok conn, d1, w1) => some (none, { d1 with conn := some conn }, w1)

def HTTPProxyDialer.SetTimeout (d : HTTPProxyDialer) (timeout : Int) : HTTPProxyDialer :=
  { d with timeout := timeout }

/-! ### `socks5_proxy.go` -/

structure SOCKS5ProxyDialer where
  proxyAddr : String
  username : String
  password : String
  timeout : Int
  isConnected : Bool
  conn : Option Conn

/-- The function `NewSOCKS5Proxy(proxyAddr, username, password)`; the function makes no call to the
outside and hands the world back as it got it. -/
def NewSOCKS5Proxy (proxyAddr username password : String) (w : Net) :
    Except GoError SOCKS5ProxyDialer × Net :=
  if proxyAddr = "" then
    (Except.error errEmptyProxyAddress, w)
  else
    (Except.ok
      { proxyAddr := proxyAddr, username := username, password := password
        timeout := 30 * second, isConnected := false, conn := none }, w)

def SOCKS5ProxyDialer.SetCredentials (d : SOCKS5ProxyDialer) (username password : String) :
    SOCKS5ProxyDialer :=
  { d with username := username, password := password }

def SOCKS5ProxyDialer.GetProxyAddress (d : SOCKS5ProxyDialer) : String := d.proxyAddr

def SOCKS5ProxyDialer.IsConnected (d : SOCKS5ProxyDialer) : Bool := d.isConnected

/-- The loop `for retries < maxRetries { ... }` of `SOCKS5ProxyDialer.Dial`, by the number
`maxRetries - retries` of iterations left (every path that goes round increments
`retries`), followed by the `return nil, fmt.Errorf(...)` after the loop. -/
def SOCKS5ProxyDialer.dialLoop (network addr : String) :
    Nat → SOCKS5ProxyDialer → Net → Except GoError Conn × SOCKS5ProxyDialer × Net
  | 0, d, w => (Except.error errExhausted, d, w)
  | left + 1, d, w =>
    match w.SOCKS5 network d.proxyAddr d.username d.password with
    | (some _, w1) =>
      SOCKS5ProxyDialer.dialLoop network addr left d (w1.Sleep second)
    | (none, w1) =>
      match w1.socksDial network d.proxyAddr addr with
      | (Except.error _, w2) =>
        SOCKS5ProxyDialer.dialLoop network addr left d (w2.Sleep second)
      | (Except.ok conn, w2) =>
        (Except.ok conn, { d with isConnected := true, conn := some conn }, w2)

def SOCKS5ProxyDialer.Dial (d : SOCKS5ProxyDialer) (network addr : String) (w : Net) :
    Except GoError Conn × SOCKS5ProxyDialer × Net :=
  SOCKS5ProxyDialer.dialLoop network addr maxRetries d w

def SOCKS5ProxyDialer.Reconnect (d : SOCKS5ProxyDialer) (w : Net) :
    Option GoError × SOCKS5ProxyDialer × Net :=
  let w0 := match d.conn with
    | some c => w.Close c
    | none => w
  match d.Dial defaultNetworkType d.proxyAddr w0 with
  | (Except.error e, d1, w1) => (some e, d1, w1)
  | (Except.ok conn, d1, w1) => (none, { d1 with conn := some conn, isConnected := false }, w1)

def SOCKS5ProxyDialer.SetTimeout (d : SOCKS5ProxyDialer) (timeout : Int) : SOCKS5ProxyDialer :=
  { d with timeout := timeout }

/-- The operations of a `SOCKS5ProxyDialer` that change it. -/
inductive Op where
  | Dial (network addr : String)
  | Reconnect
  | SetCredentials (username password : String)
  | SetTimeout (timeout : Int)
  deriving DecidableEq, Repr

/-- One operation on a dialer. -/
def SOCKS5ProxyDialer.apply (s : SOCKS5ProxyDialer × Net) : Op → SOCKS5ProxyDialer × Net
  | Op.Dial network addr => (s.1.Dial network addr s.2).2
  | Op.Reconnect => (s.1.Reconnect s.2).2
  | Op.SetCredentials username password => (s.1.SetCredentials username password, s.2)
  | Op.SetTimeout timeout => (s.1.SetTimeout timeout, s.2)

/-- A sequence of operations on a dialer, first to last. -/
def SOCKS5ProxyDialer.applyAll (s : SOCKS5ProxyDialer × Net) (ops : List Op) :
    SOCKS5ProxyDialer × Net :=
  ops.foldl SOCKS5ProxyDialer.apply s

end proxy

/-! ## Goroutines behind an admission gate

`Scan` and `GrabBanners` share one shape:

```
var wg sync.WaitGroup
sem := make(chan struct{}, capacity)
for <next item> {
    wg.Add(1)
    sem <- struct{}{}          // acquire a token
    go func(item) {
        defer wg.Done()
        defer func() { <-sem }() // release the token
        <body>
    }(item)
}
wg.Wait()
```

The embedding is a step function over scheduler events.  For `Scan`, whose goroutine makes
a single call of the dialer, the body of a goroutine takes effect in one step and the
deferred calls in a later step.  The goroutine of `GrabBanners` makes several calls of the
dialer; it is embedded call by call further down. -/

/-- Where a goroutine is: started with its body still to run, or with its body done
(on whichever `return`) and its deferred calls still to run. -/
inductive Phase where
  | spawned
  | returning
  deriving DecidableEq, Repr

/-- A scheduler event: the dispatching loop makes one iteration, the `k`-th live goroutine
runs its body, or the `k`-th live goroutine runs its deferred calls and exits. -/
inductive Event where
  | dispatch
  | run (k : Nat)
  | exit (k : Nat)
  deriving DecidableEq, Repr

/-- The program: the capacity of `sem`, the loop header (the next item and the loop
state after it, or `none` when the loop is over) and the body of the goroutine. -/
structure Gate (ι τ ω : Type) where
  capacity : Nat
  next : ι → Option (τ × ι)
  body : τ → ω → ω

/-- A state of the program: the state of the dispatching loop, the number of tokens in
`sem`, the counter of `wg`, the live goroutines and the outside world. -/
structure Sched (ι τ ω : Type) where
  iter : ι
  sem : Nat
  wg : Nat
  tasks : List (τ × Phase)
  world : ω

/-- The state at the loop header, right after `sem` was made. -/
def Sched.init {ι τ ω : Type} (it : ι) (w : ω) : Sched ι τ ω :=
  { iter := it, sem := 0, wg := 0, tasks := [], world := w }

/-- One event; `none` when the event cannot happen in this state.  The send `sem <- struct{}{}`
goes through only while the channel holds fewer than `capacity` tokens. -/
def Gate.step {ι τ ω : Type} (g : Gate ι τ ω) (s : Sched ι τ ω) : Event → Option (Sched ι τ ω)
  | Event.dispatch =>
    match g.next s.iter with
    | none => none
    | some (x, it) =>
      if s.sem < g.capacity then
        some { s with iter := it, wg := s.wg + 1, sem := s.sem + 1
                      tasks := s.tasks ++ [(x, Phase.spawned)] }
      else none
  | Event.run k =>
    match s.tasks.get? k with
    | some (x, Phase.spawned) =>
      some { s with tasks := s.tasks.set k (x, Phase.returning), world := g.body x s.world }
    | _ => none
  | Event.exit k =>
    match s.tasks.get? k with
    | some (_, Phase.returning) =>
      some { s with tasks := s.tasks.eraseIdx k, sem := s.sem - 1, wg := s.wg - 1 }
    | _ => none

/-- A schedule, event by event; `none` when one of its events cannot happen. -/
def Gate.exec {ι τ ω : Type} (g : Gate ι τ ω) : Sched ι τ ω → List Event → Option (Sched ι τ ω)
  | s, [] => some s
  | s, e :: es =>
    match g.step s e with
    | none => none
    | some s1 => Gate.exec g s1 es

/-- The function has returned: the loop is over and `wg.Wait()` has gone through. -/
def Gate.returned {ι τ ω : Type} (g : Gate ι τ ω) (s : Sched ι τ ω) : Bool :=
  (g.next s.iter).isNone && s.wg == 0

/-- The schedule that lets each goroutine finish before the next is dispatched. -/
def oneByOne (n : Nat) : List Event :=
  (List.replicate n [Event.dispatch, Event.run 0, Event.exit 0]).flatten

/-! ## `pkg/recon` -/

namespace recon

/-- The value of a Go `int` (64 bits, two's complement) that the integer `x` wraps to. -/
def wrapInt (x : Int) : Int :=
  (x + 2 ^ 63) % 2 ^ 64 - 2 ^ 63

/-- The struct `TCPRecon` (and `UDPRecon`, field for field). The dialer is passed to `Scan`
separately; `hasLogger` is `logger != nil`. -/
structure Recon where
  network : String
  ip : String
  scanDir : String
  hasLogger : Bool
  timeout : Int
  portRange : Int × Int
  concurrentScans : Int
  scanDelay : Int
  debug : Bool

abbrev TCPRecon := Recon
abbrev UDPRecon := Recon

/-- The duration `time.Second`, in nanoseconds. -/
def second : Int := 1000000000

/-- The function `NewTCPRecon(network, ip, dialer, scanDir, logger, debug)`. -/
def NewTCPRecon (network ip scanDir : String) (hasLogger debug : Bool) : TCPRecon :=
  { network := network, ip := ip, scanDir := scanDir, hasLogger := hasLogger
    timeout := 30 * second, portRange := (1, 65535), concurrentScans := 100
    scanDelay := 0, debug := debug }

/-- The function `NewUDPRecon(network, ip, dialer, scanDir, logger, debug)`. -/
def NewUDPRecon (network ip scanDir : String) (hasLogger debug : Bool) : UDPRecon :=
  { network := network, ip := ip, scanDir := scanDir, hasLogger := hasLogger
    timeout := 30 * second, portRange := (1, 65535), concurrentScans := 100
    scanDelay := 0, debug := debug }

def Recon.SetTimeout (r : Recon) (timeout : Int) : Recon :=
  { r with timeout := timeout }

def Recon.SetPortRange (r : Recon) (start stop : Int) : Recon :=
  { r with portRange := (start, stop) }

def Recon.SetConcurrentScans (r : Recon) (concurrentScans : Int) : Recon :=
  { r with concurrentScans := concurrentScans }

def Recon.SetScanDelay (r : Recon) (scanDelay : Int) : Recon :=
  { r with scanDelay := scanDelay }

/-- The method `r.DebugPrint(message)`. -/
def Recon.DebugPrint {σ : Type} (r : Recon) (w : World σ) (message : String) : World σ :=
  if r.debug && r.hasLogger then w.Println message else w

/-- The body of the goroutine of `Scan` for one port. -/
def Recon.probe {σ : Type} (call : DialFn σ) (r : Recon) (port : Int) (w : World σ) : World σ :=
  let addr := utils.hostPort r.ip port
  match w.dial call r.network addr with
  | (Except.error _, w1) => r.DebugPrint w1 ("Failed to connect to " ++ addr)
  | (Except.ok conn, w1) => (r.DebugPrint w1 ("Connected to " ++ addr)).Close conn

/-- The program of `Scan`: the loop `for i := r.portRange[0]; i <= r.portRange[1]; i++`
over a Go `int`, gated by `sem` of capacity `r.concurrentScans`. -/
def Recon.gate {σ : Type} (call : DialFn σ) (r : Recon) : Gate Int Int (World σ) :=
  { capacity := r.concurrentScans.toNat
    next := fun i => if i ≤ r.portRange.2 then some (i, wrapInt (i + 1)) else none
    body := Recon.probe call r }

/-- The method `r.Scan()` under a schedule: the state the schedule leads to, `none` when the schedule
cannot happen or `make(chan struct{}, r.concurrentScans)` panics on a negative size.
The call has returned (with `nil`) in a state where `Gate.returned` holds. -/
def Recon.Scan {σ : Type} (call : DialFn σ) (r : Recon) (w : World σ) (es : List Event) :
    Option (Sched Int Int (World σ)) :=
  if r.concurrentScans < 0 then none
  else (Recon.gate call r).exec (Sched.init r.portRange.1 w) es

/-- The ports `start, start + 1, ..., stop`. -/
def portsOf (start stop : Int) : List Int :=
  (List.range (stop + 1 - start).toNat).map (fun (k : Nat) => start + (k : Int))

end recon

namespace utils

/-- The body of the goroutine of `GrabBanners` for one host, run without interruption:
one call of `GrabBanner`, then the record of what it returned. -/
def grabTask {σ : Type} (call : DialFn σ) (port : Int) (bufferSize : Nat) (ip : String)
    (w : World σ) : World σ :=
  match GrabBanner call ip port bufferSize w with
  | ((_, some err), w1) =>
    w1.Log ErrorLevel ("Failed to grab banner from " ++ ip ++ ": " ++ err.msg)
  | ((banner, none), w1) =>
    w1.Log InfoLevel ("Grabbed banner from " ++ ip ++ ": " ++ banner)

end utils

/-! ## Reading the script of the network -/

namespace proxy

/-- Whether the `k`-th underlying connect from world `w` on fails. -/
def connectFails (w : Net) (k : Nat) : Bool :=
  match (w.connectOutcome (w.connects + k)).1 with
  | Except.error _ => true
  | Except.ok _ => false

/-- The clock when the `k`-th attempt of a `Dial` called in world `w` starts, provided the
attempts before it failed: each earlier attempt takes the time of its connect and is
followed by a sleep of one second. -/
def attemptStart (w : Net) : Nat → Int
  | 0 => w.now
  | k + 1 => attemptStart w k + ((w.connectOutcome (w.connects + k)).2 : Int) + second

/-- The calls made between world `w` and the later world `w1`. -/
def callsSince (w w1 : Net) : List NetEvent :=
  w1.trace.drop w.trace.length

end proxy

namespace proxy

/-- The world after the first `k` attempts of an HTTP `Dial` called in world `w` have
failed, each followed by the `fmt.Println` and the sleep of one second. -/
def failedWorld (network address : String) (timeout : Int) (w : Net) : Nat → Net
  | 0 => w
  | k + 1 =>
    (((failedWorld network address timeout w k).DialTimeout network address timeout).2.Println
      "Failed to connect, retrying...").Sleep second

/-- The dialer after `k` failed attempts of an HTTP `Dial`: a failed `net.DialTimeout`
has assigned `nil` to `d.conn`. -/
def HTTPProxyDialer.afterFailures (d : HTTPProxyDialer) : Nat → HTTPProxyDialer
  | 0 => d
  | _ + 1 => { d with conn := none }

/-- The calls of the first `k` attempts of an HTTP `Dial` called in world `w`, all of
which failed and were followed by the `fmt.Println` and the sleep of one second. -/
def retryCalls (network address : String) (timeout : Int) (w : Net) : Nat → List NetEvent
  | 0 => []
  | k + 1 =>
    retryCalls network address timeout w k ++
      [NetEvent.dialTimeout network address timeout (attemptStart w k),
       NetEvent.println "Failed to connect, retrying...", NetEvent.sleep second]

end proxy

namespace proxy

/-- The world after the first `k` attempts of a SOCKS5 `Dial` called in world `w` have
failed in their connect, each followed by the sleep of one second. -/
def socksFailedWorld (network address user password target : String) (w : Net) : Nat → Net
  | 0 => w
  | k + 1 =>
    ((((socksFailedWorld network address user password target w k).SOCKS5
      network address user password).2.socksDial network address target).2).Sleep second

/-- The calls of the first `k` attempts of a SOCKS5 `Dial` called in world `w`, all of
which failed in their connect and were followed by the sleep of one second. -/
def socksRetryCalls (network address user password target : String) (w : Net) :
    Nat → List NetEvent
  | 0 => []
  | k + 1 =>
    socksRetryCalls network address user password target w k ++
      [NetEvent.socks5 network address user password,
       NetEvent.socksDial network address target (attemptStart w k),
       NetEvent.sleep second]

end proxy

/-! ## Reading the states of a gated program -/

/-- The items of the goroutines whose body has not run yet. -/
def pendingOf {τ : Type} : List (τ × Phase) → List τ
  | [] => []
  | (x, Phase.spawned) :: ts => x :: pendingOf ts
  | (_, Phase.returning) :: ts => pendingOf ts

/-- The loop header hands out the items `xs`, in this order, on the way from loop state
`it` to loop state `it1`. -/
inductive Gate.Yields {ι τ ω : Type} (g : Gate ι τ ω) : ι → List τ → ι → Prop where
  | done (it : ι) : Gate.Yields g it [] it
  | more {it it1 it2 : ι} {x : τ} {xs : List τ} :
      g.next it = some (x, it1) → Gate.Yields g it1 xs it2 → Gate.Yields g it (x :: xs) it2

/-- The bodies of the goroutines for `xs` run one after the other, first to last. -/
def Gate.runAll {ι τ ω : Type} (g : Gate ι τ ω) (xs : List τ) (w : ω) : ω :=
  xs.foldl (fun w x => g.body x w) w

/-- What holds in every state a schedule leads to from the state `Sched.init it0 w0`: the
tokens in `sem` and the counter of `wg` both count the live goroutines, which are at most
`capacity`; and the bodies that have run (`ran`, in the order they ran) together with the
goroutines still to run their body are the items handed out so far. -/
def Gate.Inv {ι τ ω : Type} (g : Gate ι τ ω) (it0 : ι) (w0 : ω) (s : Sched ι τ ω) : Prop :=
  s.sem = s.tasks.length ∧ s.wg = s.tasks.length ∧ s.tasks.length ≤ g.capacity ∧
  ∃ disp ran : List τ, g.Yields it0 disp s.iter ∧ s.world = g.runAll ran w0 ∧
    List.Perm (ran ++ pendingOf s.tasks) disp

namespace recon

/-- The record `Scan` hands to `DebugPrint` for a port, by whether the dial succeeded. -/
def outcomeRecord (ip : String) (port : Int) (reachable : Bool) : String :=
  if reachable then "Connected to " ++ utils.hostPort ip port
  else "Failed to connect to " ++ utils.hostPort ip port

end recon

/-! ## Attempts and delays of the two proxy dialers, side by side -/

/-- Whether a call opens an attempt of a `Dial`: each pass through the loop of the HTTP
dialer makes one `net.DialTimeout`, each pass through the loop of the SOCKS5 dialer starts
with one `proxy.SOCKS5`. -/
def NetEvent.startsAttempt : NetEvent → Bool
  | NetEvent.dialTimeout _ _ _ _ => true
  | NetEvent.socks5 _ _ _ _ => true
  | _ => false

namespace proxy

/-- One pass through the body of the loop of `SOCKS5ProxyDialer.Dial`, up to its outcome:
the connection, or `none` when `proxy.SOCKS5` or `dialer.Dial` returned an error. -/
def SOCKS5ProxyDialer.attempt (d : SOCKS5ProxyDialer) (network addr : String) (w : Net) :
    Option Conn × Net :=
  match w.SOCKS5 network d.proxyAddr d.username d.password with
  | (some _, w1) => (none, w1)
  | (none, w1) =>
    match w1.socksDial network d.proxyAddr addr with
    | (Except.error _, w2) => (none, w2)
    | (Except.ok conn, w2) => (some conn, w2)

/-- The world in which attempt `k` (counted from 0) of a SOCKS5 `Dial` called in world `w`
starts, the attempts before it having failed and each been followed by the sleep. -/
def SOCKS5ProxyDialer.attemptWorld (d : SOCKS5ProxyDialer) (network addr : String) (w : Net) :
    Nat → Net
  | 0 => w
  | k + 1 =>
    ((d.attempt network addr (SOCKS5ProxyDialer.attemptWorld d network addr w k)).2).Sleep second

/-- The outcome of attempt `k` of a SOCKS5 `Dial` called in world `w`, the attempts before
it having failed. -/
def SOCKS5ProxyDialer.outcome (d : SOCKS5ProxyDialer) (network addr : String) (w : Net)
    (k : Nat) : Option Conn :=
  (d.attempt network addr (d.attemptWorld network addr w k)).1

/-- The outcome of attempt `k` of an HTTP `Dial` called in world `w`, the attempts before
it having failed: the connection, or `none` when `net.DialTimeout` returned an error. -/
def HTTPProxyDialer.outcome (d : HTTPProxyDialer) (network : String) (w : Net) (k : Nat) :
    Option Conn :=
  match ((failedWorld network d.proxyAddr d.timeout w k).DialTimeout
    network d.proxyAddr d.timeout).1 with
  | Except.ok c => some c
  | Except.error _ => none

/-- The number of attempts made between world `w` and the later world `w1`. -/
def attemptsSince (w w1 : Net) : Nat :=
  (callsSince w w1).countP NetEvent.startsAttempt

/-- The number of sleeps of one second made between world `w` and the later world `w1`. -/
def delaysSince (w w1 : Net) : Nat :=
  (callsSince w w1).countP (NetEvent.isSleep second)

end proxy

/-! ## The goroutines of `GrabBanners`, call by call

A goroutine of `GrabBanners` makes up to three calls of the dialer and several calls of
the logger, and the goroutines of different hosts take turns between these calls.  Here a
goroutine is what it still has to do: its next call to the outside and what follows. -/

/-- What is left of a goroutine: nothing, or its next call to the outside (the dialer,
`logger.Log`, `conn.Close`) and what follows it. What follows a call of the dialer depends
on what the dialer returns. -/
inductive Routine where
  | done
  | dial (network addr : String) (next : Except GoError Conn → Routine)
  | log (level message : String) (next : Routine)
  | close (c : Conn) (next : Routine)

/-- A goroutine run on its own, from its next call to its end. -/
def Routine.run {σ : Type} (call : DialFn σ) : Routine → World σ → World σ
  | Routine.done, w => w
  | Routine.dial network addr next, w =>
    Routine.run call (next (w.dial call network addr).1) (w.dial call network addr).2
  | Routine.log level message next, w => Routine.run call next (w.Log level message)
  | Routine.close c next, w => Routine.run call next (w.Close c)

/-- The number of calls a goroutine makes when run on its own. -/
def Routine.calls {σ : Type} (call : DialFn σ) : Routine → World σ → Nat
  | Routine.done, _ => 0
  | Routine.dial network addr next, w =>
    Routine.calls call (next (w.dial call network addr).1) (w.dial call network addr).2 + 1
  | Routine.log level message next, w => Routine.calls call next (w.Log level message) + 1
  | Routine.close c next, w => Routine.calls call next (w.Close c) + 1

/-- A scheduler event of `GrabBanners`: the dispatching loop makes one iteration, the
`k`-th live goroutine makes its next call, or the `k`-th live goroutine, having nothing
left to do, runs its deferred `<-sem` and `wg.Done()` and exits. -/
inductive Move where
  | dispatch
  | call (k : Nat)
  | exit (k : Nat)
  deriving DecidableEq, Repr

/-- A state of `GrabBanners`: the hosts still to dispatch, the number of tokens in `sem`,
the counter of `wg`, the live goroutines (each with its host) and the outside world. -/
structure Pool (σ : Type) where
  iter : List String
  sem : Nat
  wg : Nat
  tasks : List (String × Routine)
  world : World σ

/-- The state at the loop header, right after `sem` was made. -/
def Pool.init {σ : Type} (ips : List String) (w : World σ) : Pool σ :=
  { iter := ips, sem := 0, wg := 0, tasks := [], world := w }

/-- One event; `none` when the event cannot happen in this state.  `spawn ip` is the
goroutine started for host `ip`.  The send `sem <- struct{}{}` goes through only while
the channel holds fewer than `capacity` tokens. -/
def Pool.step {σ : Type} (call : DialFn σ) (capacity : Nat) (spawn : String → Routine)
    (s : Pool σ) : Move → Option (Pool σ)
  | Move.dispatch =>
    match s.iter with
    | [] => none
    | ip :: rest =>
      if s.sem < capacity then
        some { s with iter := rest, wg := s.wg + 1, sem := s.sem + 1
                      tasks := s.tasks ++ [(ip, spawn ip)] }
      else none
  | Move.call k =>
    match s.tasks.get? k with
    | some (ip, Routine.dial network addr next) =>
      some { s with tasks := s.tasks.set k (ip, next (s.world.dial call network addr).1)
                    world := (s.world.dial call network addr).2 }
    | some (ip, Routine.log level message next) =>
      some { s with tasks := s.tasks.set k (ip, next), world := s.world.Log level message }
    | some (ip, Routine.close c next) =>
      some { s with tasks := s.tasks.set k (ip, next), world := s.world.Close c }
    | _ => none
  | Move.exit k =>
    match s.tasks.get? k with
    | some (_, Routine.done) =>
      some { s with tasks := s.tasks.eraseIdx k, sem := s.sem - 1, wg := s.wg - 1 }
    | _ => none

/-- A schedule, event by event; `none` when one of its events cannot happen. -/
def Pool.exec {σ : Type} (call : DialFn σ) (capacity : Nat) (spawn : String → Routine) :
    Pool σ → List Move → Option (Pool σ)
  | s, [] => some s
  | s, e :: es =>
    match Pool.step call capacity spawn s e with
    | none => none
    | some s1 => Pool.exec call capacity spawn s1 es

/-- The function has returned: the loop is over and `wg.Wait()` has gone through. -/
def Pool.returned {σ : Type} (s : Pool σ) : Bool :=
  s.iter.isEmpty && s.wg == 0

/-- The schedule that lets the goroutine of each host run to its end before the next host
is dispatched. -/
def Pool.solo {σ : Type} (call : DialFn σ) (spawn : String → Routine) :
    List String → World σ → List Move
  | [], _ => []
  | ip :: rest, w =>
    Move.dispatch :: (List.replicate (Routine.calls call (spawn ip) w) (Move.call 0) ++
      Move.exit 0 :: Pool.solo call spawn rest (Routine.run call (spawn ip) w))

namespace utils

/-- The loop of `GrabBanner` call by call, by the number of iterations left, with the
locals `banner`, `err` (the function-level one) and the deferred closes; `after` is what
follows the loop. -/
def grabLoopCalls (addr : String) (bufferSize : Nat)
    (after : String → Option GoError → List Conn → Routine) :
    Nat → String → Option GoError → List Conn → Routine
  | 0, banner, err, deferred => after banner err deferred
  | k + 1, banner, err, deferred =>
    Routine.dial "tcp" addr (fun res =>
      match res with
      | Except.error e =>
        -- `continue`
        Routine.log ErrorLevel ("Failed to connect to " ++ addr ++ ": " ++ e.msg)
          (grabLoopCalls addr bufferSize after k banner err deferred)
      | Except.ok conn =>
        match (conn.Read bufferSize).err with
        | some e =>
          if e.isEOF then
            -- `break`
            Routine.log InfoLevel ("Connection to " ++ addr ++ " closed by server")
              (Routine.log InfoLevel ("Grabbed banner from " ++ addr ++ ": " ++
                  String.mk ((conn.Read bufferSize).buffer.take (conn.Read bufferSize).n))
                (after (String.mk ((conn.Read bufferSize).buffer.take (conn.Read bufferSize).n))
                  err (conn :: deferred)))
          else
            -- `continue`
            Routine.log ErrorLevel ("Failed to read from " ++ addr ++ ": " ++ e.msg)
              (grabLoopCalls addr bufferSize after k banner err (conn :: deferred))
        | none =>
          -- `break`
          Routine.log InfoLevel ("Grabbed banner from " ++ addr ++ ": " ++
              String.mk ((conn.Read bufferSize).buffer.take (conn.Read bufferSize).n))
            (after (String.mk ((conn.Read bufferSize).buffer.take (conn.Read bufferSize).n))
              err (conn :: deferred)))

/-- The deferred `conn.Close()` calls, last deferred first, and what follows them. -/
def closeAll : List Conn → Routine → Routine
  | [], next => next
  | c :: cs, next => Routine.close c (closeAll cs next)

/-- The function `GrabBanner` call by call; `ret banner err` is what the caller does with
the values returned. -/
def GrabBannerCalls (ip : String) (port : Int) (bufferSize : Nat)
    (ret : String → Option GoError → Routine) : Routine :=
  grabLoopCalls (hostPort ip port) bufferSize
    (fun banner err deferred =>
      closeAll deferred
        (match err with
        | some e =>
          ret "" (some { msg := "failed to grab banner from " ++ hostPort ip port ++ " after " ++
                           toString maxRetries ++ " attempts: " ++ e.msg
                         isEOF := e.isEOF })
        | none => ret banner none))
    maxRetries "" none []

/-- The goroutine of `GrabBanners` for one host, call by call. -/
def grabRoutine (port : Int) (bufferSize : Nat) (ip : String) : Routine :=
  GrabBannerCalls ip port bufferSize (fun banner err =>
    match err with
    | some e =>
      Routine.log ErrorLevel ("Failed to grab banner from " ++ ip ++ ": " ++ e.msg) Routine.done
    | none =>
      Routine.log InfoLevel ("Grabbed banner from " ++ ip ++ ": " ++ banner) Routine.done)

/-- The function `GrabBanners(ctx, ips, port, bufferSize, dialer, logger)` under a
schedule: the state the schedule leads to, `none` when the schedule cannot happen.  The
slot pool `sem` has capacity `maxGoroutines`. -/
def GrabBanners {σ : Type} (call : DialFn σ) (ips : List String) (port : Int)
    (bufferSize : Nat) (w : World σ) (es : List Move) : Option (Pool σ) :=
  Pool.exec call maxGoroutines (grabRoutine port bufferSize) (Pool.init ips w) es

end utils

/-! ## What a goroutine is bound to do, whatever the others do -/

/-- Whatever the dialer's state at each of its calls, the goroutine makes exactly `n` more
calls of the dialer, each of them `dialer(ctx, "tcp", addr)`. -/
inductive Routine.DialsLeft {σ : Type} (call : DialFn σ) (addr : String) : Nat → Routine → Prop where
  | done : Routine.DialsLeft call addr 0 Routine.done
  | log {n : Nat} {level message : String} {next : Routine} :
      Routine.DialsLeft call addr n next →
      Routine.DialsLeft call addr n (Routine.log level message next)
  | close {n : Nat} {c : Conn} {next : Routine} :
      Routine.DialsLeft call addr n next →
      Routine.DialsLeft call addr n (Routine.close c next)
  | dial {n : Nat} {next : Except GoError Conn → Routine} :
      (∀ st : σ, Routine.DialsLeft call addr n (next (call st "tcp" addr).1)) →
      Routine.DialsLeft call addr (n + 1) (Routine.dial "tcp" addr next)

/-- Whatever the dialer's state at each of its calls, the goroutine hands the record `rec`
to `logger.Log` before it ends. -/
inductive Routine.Delivers {σ : Type} (call : DialFn σ) (rec : String × String) : Routine → Prop where
  | now {next : Routine} : Routine.Delivers call rec (Routine.log rec.1 rec.2 next)
  | log {level message : String} {next : Routine} :
      Routine.Delivers call rec next →
      Routine.Delivers call rec (Routine.log level message next)
  | close {c : Conn} {next : Routine} :
      Routine.Delivers call rec next →
      Routine.Delivers call rec (Routine.close c next)
  | dial {network addr : String} {next : Except GoError Conn → Routine} :
      (∀ st : σ, Routine.Delivers call rec (next (call st network addr).1)) →
      Routine.Delivers call rec (Routine.dial network addr next)

namespace utils

/-- The dials one call of `GrabBanner` makes for host `h`, when host `bad` fails at every
attempt and every other host yields its banner at the first: three for `bad`, one for any
other host. -/
def dialsFor (port : Int) (bad h : String) : List (String × String) :=
  if h = bad then List.replicate 3 ("tcp", hostPort h port) else [("tcp", hostPort h port)]

end utils

/-- The slot accounting of `GrabBanners`: the tokens in `sem` and the counter of `wg` both
count the live goroutines, which are at most `capacity`. -/
def Pool.Counted {σ : Type} (capacity : Nat) (s : Pool σ) : Prop :=
  s.sem = s.tasks.length ∧ s.wg = s.tasks.length ∧ s.tasks.length ≤ capacity

/-- The calls of the dialer a live goroutine still has to make, read off by running it on
its own from dialer state `st`. -/
def Pool.pending {σ : Type} (call : DialFn σ) (st : σ) (t : String × Routine) :
    List (String × String) :=
  (Routine.run call t.2 (World.fresh st)).dials

/-- What holds in every state a schedule leads to from `Pool.init ips w0`, when the
goroutine of each host `h` is bound to make the dials `expected h`, all to `addr h`, and
the goroutine of each host in `good` is bound to deliver `record h`: the dials made so far
(`nd`) and those the live goroutines still have to make are together the dials expected
of the hosts dispatched so far (`disp`); and each good host dispatched has its record in
the log, or a live goroutine that is bound to deliver it. -/
def Pool.Inv {σ : Type} (call : DialFn σ) (addr : String → String)
    (expected : String → List (String × String)) (good : String → Prop)
    (record : String → String × String) (ips : List String) (w0 : World σ) (s : Pool σ) :
    Prop :=
  (∀ t, t ∈ s.tasks → ∃ n, Routine.DialsLeft call (addr t.1) n t.2) ∧
  ∃ disp nd : List _, ips = disp ++ s.iter ∧ s.world.dials = w0.dials ++ nd ∧
    List.Perm (nd ++ (s.tasks.map (Pool.pending call w0.dstate)).flatten)
      (disp.map expected).flatten ∧
    ∀ h, h ∈ disp → good h →
      record h ∈ s.world.log ∨ ∃ t, t ∈ s.tasks ∧ Routine.Delivers call (record h) t.2

/-! ## Concrete dialers and connections used as examples -/

namespace examples

/-- A dialer that refuses every connection. -/
def refusing : DialFn Unit :=
  fun s _ _ => (Except.error { msg := "connection refused", isEOF := false }, s)

/-- A connection that the peer closes at once: no bytes, end-of-stream. -/
def closedAtOnce : Conn :=
  { id := 0, read := fun _ => ([], some { msg := "EOF", isEOF := true }) }

/-- A dialer that always connects to a peer that closes at once. -/
def closing : DialFn Unit :=
  fun s _ _ => (Except.ok closedAtOnce, s)

end examples

namespace examples

/-- A network on which every connect is refused after 5 ms. -/
def deadNet : Net :=
  { now := 0
    connectOutcome := fun _ => (Except.error { msg := "connection refused", isEOF := false }, 5000000)
    socksOutcome := fun _ => none
    connects := 0, socksCalls := 0, trace := [] }

/-- The dialer `NewHTTPProxy("10.0.0.9:3128", "", "")` returns. -/
def httpDialer : proxy.HTTPProxyDialer :=
  { proxyAddr := "10.0.0.9:3128", username := "", password := "", isConnected := false
    timeout := 30 * proxy.second, conn := none }

/-- The dialer `NewSOCKS5Proxy("10.0.0.9:1080", "", "")` returns. -/
def socksDialer : proxy.SOCKS5ProxyDialer :=
  { proxyAddr := "10.0.0.9:1080", username := "", password := "", timeout := 30 * proxy.second
    isConnected := false, conn := none }

end examples

namespace examples

/-- A connection to a peer that sends nothing. -/
def quiet : Conn :=
  { id := 7, read := fun _ => ([], none) }

/-- A network on which every connect succeeds after 5 ms. -/
def liveNet : Net :=
  { now := 0
    connectOutcome := fun _ => (Except.ok quiet, 5000000)
    socksOutcome := fun _ => none
    connects := 0, socksCalls := 0, trace := [] }

end examples

namespace examples

/-- A dialer on which only `127.0.0.1:80` accepts connections. -/
def onlyPort80 : DialFn Unit :=
  fun s _ addr =>
    if addr = "127.0.0.1:80" then (Except.ok quiet, s)
    else (Except.error { msg := "connection refused", isEOF := false }, s)

/-- A scan of port 80 of `127.0.0.1` with a logger and debugging off, as `main` sets it
up. -/
def silentScan : recon.TCPRecon :=
  ((recon.NewTCPRecon "tcp" "127.0.0.1" "." true false).SetPortRange 80 80).SetConcurrentScans 10

/-- A scan of ports 1 to 100 of `127.0.0.1`, 10 at a time, with a logger and debugging
on. -/
def debugScan : recon.TCPRecon :=
  ((recon.NewTCPRecon "tcp" "127.0.0.1" "." true true).SetPortRange 1 100).SetConcurrentScans 10

end examples

namespace examples

/-- A connection on which the peer greets with `SSH-2.0`. -/
def greeting : Conn :=
  { id := 1, read := fun _ => ("SSH-2.0".toList, none) }

/-- A dialer on which `10.0.0.2:22` refuses every connection and every other address
greets. -/
def oneDown : DialFn Unit :=
  fun s _ addr =>
    if addr = "10.0.0.2:22" then
      (Except.error { msg := "connection refused", isEOF := false }, s)
    else (Except.ok greeting, s)

end examples

namespace examples

/-- A connection on which every read fails with "connection reset by peer". -/
def resetConn : Conn :=
  { id := 2, read := fun _ => ([], some { msg := "connection reset by peer", isEOF := false }) }

/-- A dialer that always connects to a peer that resets the connection on read. -/
def resetting : DialFn Unit :=
  fun s _ _ => (Except.ok resetConn, s)

end examples

/-! # Theorems -/

namespace utils

theorem stateBefore_shift {σ : Type} (call : DialFn σ) (addr : String) (s : σ) (j : Nat) :
    stateBefore call addr s (j + 1) = stateBefore call addr (call s "tcp" addr).2 j := by
  induction j with
  | zero => rfl
  | succ j ih => rw [stateBefore, ih]; rfl

/-- One iteration of the loop whose attempt fails: the loop goes on with the dialer
state advanced, one more dial recorded, and `banner` and `err` untouched. -/
theorem grabLoop_fail {σ : Type} (call : DialFn σ) (addr : String) (bufferSize k : Nat)
    (st : GrabState σ)
    (h : attemptBanner call addr bufferSize st.world.dstate = none) :
    ∃ st1 : GrabState σ,
      grabLoop call addr bufferSize (k + 1) st = grabLoop call addr bufferSize k st1 ∧
      st1.world.dstate = (call st.world.dstate "tcp" addr).2 ∧
      st1.world.dials = st.world.dials ++ [("tcp", addr)] ∧
      st1.banner = st.banner ∧ st1.err = st.err := by
  unfold attemptBanner at h
  rw [grabLoop]
  simp only [World.dial]
  cases hc : (call st.world.dstate "tcp" addr).1 with
  | error e =>
    rw [hc] at h
    exact ⟨_, rfl, rfl, rfl, rfl, rfl⟩
  | ok conn =>
    rw [hc] at h
    simp only at h ⊢
    cases he : (conn.Read bufferSize).err with
    | none => rw [he] at h; simp at h
    | some e =>
      rw [he] at h
      simp only at h ⊢
      by_cases hE : e.isEOF = true
      · simp [hE] at h
      · simp only [hE]
        exact ⟨_, rfl, rfl, rfl, rfl, rfl⟩

end utils

namespace utils

/-- One iteration of the loop whose attempt is good: the loop stops with the attempt's
bytes as banner, one more dial recorded and `err` untouched. -/
theorem grabLoop_good {σ : Type} (call : DialFn σ) (addr : String) (bufferSize k : Nat)
    (st : GrabState σ) (b : String)
    (h : attemptBanner call addr bufferSize st.world.dstate = some b) :
    (grabLoop call addr bufferSize (k + 1) st).banner = b ∧
    (grabLoop call addr bufferSize (k + 1) st).err = st.err ∧
    (grabLoop call addr bufferSize (k + 1) st).world.dials
      = st.world.dials ++ [("tcp", addr)] := by
  unfold attemptBanner at h
  rw [grabLoop]
  simp only [World.dial]
  cases hc : (call st.world.dstate "tcp" addr).1 with
  | error e => rw [hc] at h; simp at h
  | ok conn =>
    rw [hc] at h
    simp only at h ⊢
    cases he : (conn.Read bufferSize).err with
    | none =>
      rw [he] at h
      simp only [Option.some.injEq] at h
      subst h
      exact ⟨rfl, rfl, rfl⟩
    | some e =>
      rw [he] at h
      simp only at h ⊢
      by_cases hE : e.isEOF = true
      · simp only [hE, if_true, Option.some.injEq] at h
        subst h
        rw [if_pos hE]
        exact ⟨rfl, rfl, rfl⟩
      · simp [hE] at h

/-- While attempts fail the loop only consumes iterations. -/
theorem grabLoop_all_fail {σ : Type} (call : DialFn σ) (addr : String) (bufferSize : Nat) :
    ∀ (k : Nat) (st : GrabState σ),
      (∀ j, j < k →
        attemptBanner call addr bufferSize (stateBefore call addr st.world.dstate j) = none) →
      (grabLoop call addr bufferSize k st).banner = st.banner ∧
      (grabLoop call addr bufferSize k st).err = st.err ∧
      (grabLoop call addr bufferSize k st).world.dials
        = st.world.dials ++ List.replicate k ("tcp", addr) := by
  intro k
  induction k with
  | zero => intro st _; simp [grabLoop]
  | succ k ih =>
    intro st h
    obtain ⟨st1, e1, hs, hd, hb, he⟩ :=
      grabLoop_fail call addr bufferSize k st (h 0 (Nat.succ_pos k))
    have h1 : ∀ j, j < k →
        attemptBanner call addr bufferSize (stateBefore call addr st1.world.dstate j) = none := by
      intro j hj
      rw [hs, ← stateBefore_shift]
      exact h (j + 1) (Nat.succ_lt_succ hj)
    obtain ⟨r1, r2, r3⟩ := ih st1 h1
    rw [e1, r1, r2, r3, hb, he, hd]
    refine ⟨rfl, rfl, ?_⟩
    rw [List.append_assoc, List.replicate_succ]
    rfl

/-- The loop stops at the first good attempt. -/
theorem grabLoop_first_good {σ : Type} (call : DialFn σ) (addr : String) (bufferSize : Nat)
    (b : String) :
    ∀ (m k : Nat) (st : GrabState σ), m < k →
      (∀ j, j < m →
        attemptBanner call addr bufferSize (stateBefore call addr st.world.dstate j) = none) →
      attemptBanner call addr bufferSize (stateBefore call addr st.world.dstate m) = some b →
      (grabLoop call addr bufferSize k st).banner = b ∧
      (grabLoop call addr bufferSize k st).err = st.err ∧
      (grabLoop call addr bufferSize k st).world.dials
        = st.world.dials ++ List.replicate (m + 1) ("tcp", addr) := by
  intro m
  induction m with
  | zero =>
    intro k st hk _ hg
    obtain ⟨k, rfl⟩ := Nat.exists_eq_succ_of_ne_zero (Nat.pos_iff_ne_zero.mp hk)
    exact grabLoop_good call addr bufferSize k st b hg
  | succ m ih =>
    intro k st hk hf hg
    obtain ⟨k, rfl⟩ := Nat.exists_eq_succ_of_ne_zero (Nat.not_eq_zero_of_lt hk)
    obtain ⟨st1, e1, hs, hd, _, he⟩ :=
      grabLoop_fail call addr bufferSize k st (hf 0 (Nat.succ_pos m))
    have h1 : ∀ j, j < m →
        attemptBanner call addr bufferSize (stateBefore call addr st1.world.dstate j) = none := by
      intro j hj
      rw [hs, ← stateBefore_shift]
      exact hf (j + 1) (Nat.succ_lt_succ hj)
    have h2 : attemptBanner call addr bufferSize (stateBefore call addr st1.world.dstate m)
        = some b := by
      rw [hs, ← stateBefore_shift]; exact hg
    obtain ⟨r1, r2, r3⟩ := ih k st1 (Nat.lt_of_succ_lt_succ hk) h1 h2
    rw [e1, r1, r2, r3, he, hd]
    refine ⟨rfl, rfl, ?_⟩
    rw [List.append_assoc, List.replicate_succ]
    rfl

/-- Closing connections leaves the record of dials alone. -/
theorem foldl_Close_dials {σ : Type} (cs : List Conn) (w : World σ) :
    (cs.foldl World.Close w).dials = w.dials := by
  induction cs generalizing w with
  | nil => rfl
  | cons c cs ih => rw [List.foldl_cons, ih]; rfl

/-- The function-level `err` of `GrabBanner` is never assigned by the loop. -/
theorem grabLoop_err {σ : Type} (call : DialFn σ) (addr : String) (bufferSize : Nat) :
    ∀ (k : Nat) (st : GrabState σ), (grabLoop call addr bufferSize k st).err = st.err := by
  intro k
  induction k with
  | zero => intro st; rfl
  | succ k ih =>
    intro st
    rw [grabLoop]
    split
    · rw [ih]
    · simp only
      split
      · split
        · rfl
        · rw [ih]
      · rfl

end utils

namespace utils

/-- A read fills at most the buffer: `n ≤ bufferSize`, and `buffer[:n]` has `n` bytes. -/
theorem Read_bounds (c : Conn) (bufferSize : Nat) :
    (c.Read bufferSize).n ≤ bufferSize ∧
    (String.mk ((c.Read bufferSize).buffer.take (c.Read bufferSize).n)).length
      = (c.Read bufferSize).n := by
  constructor
  · exact Nat.min_le_right _ _
  · show (((c.Read bufferSize).buffer.take (c.Read bufferSize).n)).length = _
    simp only [Conn.Read, List.length_take, List.length_append, List.length_replicate]
    omega

/-- The error `GrabBanner` returns is nil on every input: the loop never assigns the
function-level `err`, so the test `if err != nil` after the loop never holds. -/
theorem GrabBanner_error_is_nil {σ : Type} (call : DialFn σ) (ip : String) (port : Int)
    (bufferSize : Nat) (w : World σ) : (GrabBanner call ip port bufferSize w).1.2 = none := by
  have h := grabLoop_err call (hostPort ip port) bufferSize maxRetries
    { world := w, banner := "", err := none, deferred := [] }
  simp only [GrabBanner, h]

/-- C1 (what the code does where the claim fails): when each of the 3 attempts fails to
dial or fails its read with an error other than end-of-stream, `GrabBanner` makes exactly
3 dials, and returns the empty banner with a nil error, not `BannerGrabExhausted`. -/
theorem GrabBanner_exhausted_returns_nil_error {σ : Type} (call : DialFn σ) (ip : String)
    (port : Int) (bufferSize : Nat) (w : World σ)
    (h : ∀ j, j < maxRetries →
      attemptBanner call (hostPort ip port) bufferSize
        (stateBefore call (hostPort ip port) w.dstate j) = none) :
    (GrabBanner call ip port bufferSize w).1 = ("", none) ∧
    (GrabBanner call ip port bufferSize w).2.dials
      = w.dials ++ List.replicate 3 ("tcp", hostPort ip port) := by
  obtain ⟨r1, r2, r3⟩ := grabLoop_all_fail call (hostPort ip port) bufferSize maxRetries
    { world := w, banner := "", err := none, deferred := [] } h
  constructor
  · simp only [GrabBanner, r2, r1]
  · simp only [GrabBanner, r2, foldl_Close_dials, r3]
    rfl

theorem GrabBanner_exhausted_returns_nil_error_witness :
    (∀ j, j < maxRetries →
      attemptBanner examples.resetting (hostPort "10.0.0.1" 22) 64
        (stateBefore examples.resetting (hostPort "10.0.0.1" 22) (World.fresh ()).dstate j)
        = none) ∧
    (GrabBanner examples.resetting "10.0.0.1" 22 64 (World.fresh ())).1 = ("", none) ∧
    (GrabBanner examples.resetting "10.0.0.1" 22 64 (World.fresh ())).2.dials
      = (World.fresh ()).dials ++ List.replicate 3 ("tcp", hostPort "10.0.0.1" 22) :=
  have h : ∀ j, j < maxRetries →
      attemptBanner examples.resetting (hostPort "10.0.0.1" 22) 64
        (stateBefore examples.resetting (hostPort "10.0.0.1" 22) (World.fresh ()).dstate j)
        = none := fun _ _ => rfl
  ⟨h, GrabBanner_exhausted_returns_nil_error examples.resetting "10.0.0.1" 22 64
    (World.fresh ()) h⟩

/-- C2: if attempt `m + 1` (of at most 3) is the first whose dial succeeds and whose read
returns no error or end-of-stream, then `GrabBanner` returns the first `n` bytes of that
read, `n` being the count the read returned (`n ≤ bufferSize`), with a nil error, after
exactly `m + 1` dials; when that read returned zero bytes the banner is empty. -/
theorem GrabBanner_first_good_attempt {σ : Type} (call : DialFn σ) (ip : String)
    (port : Int) (bufferSize : Nat) (w : World σ) (m : Nat) (conn : Conn)
    (hm : m < maxRetries)
    (hbad : ∀ j, j < m →
      attemptBanner call (hostPort ip port) bufferSize
        (stateBefore call (hostPort ip port) w.dstate j) = none)
    (hdial : (call (stateBefore call (hostPort ip port) w.dstate m) "tcp"
      (hostPort ip port)).1 = Except.ok conn)
    (hread : ∀ e, (conn.Read bufferSize).err = some e → e.isEOF = true) :
    (GrabBanner call ip port bufferSize w).1
      = (String.mk ((conn.Read bufferSize).buffer.take (conn.Read bufferSize).n), none) ∧
    (GrabBanner call ip port bufferSize w).1.1.length = (conn.Read bufferSize).n ∧
    (conn.Read bufferSize).n ≤ bufferSize ∧
    ((conn.Read bufferSize).n = 0 → (GrabBanner call ip port bufferSize w).1 = ("", none)) ∧
    (GrabBanner call ip port bufferSize w).2.dials
      = w.dials ++ List.replicate (m + 1) ("tcp", hostPort ip port) := by
  have hg : attemptBanner call (hostPort ip port) bufferSize
      (stateBefore call (hostPort ip port) w.dstate m)
      = some (String.mk ((conn.Read bufferSize).buffer.take (conn.Read bufferSize).n)) := by
    unfold attemptBanner
    rw [hdial]
    simp only
    cases he : (conn.Read bufferSize).err with
    | none => rfl
    | some e => simp only [hread e he, if_true]
  obtain ⟨r1, r2, r3⟩ := grabLoop_first_good call (hostPort ip port) bufferSize _ m maxRetries
    { world := w, banner := "", err := none, deferred := [] } hm hbad hg
  have hres : (GrabBanner call ip port bufferSize w).1
      = (String.mk ((conn.Read bufferSize).buffer.take (conn.Read bufferSize).n), none) := by
    simp only [GrabBanner, r2, r1]
  have hlen := (Read_bounds conn bufferSize).2
  refine ⟨hres, ?_, (Read_bounds conn bufferSize).1, ?_, ?_⟩
  · rw [hres]; exact hlen
  · intro h0
    rw [hres, h0, List.take_zero]
  · simp only [GrabBanner, r2, foldl_Close_dials, r3]

theorem GrabBanner_first_good_attempt_witness :
    (GrabBanner examples.closing "10.0.0.1" 22 64 (World.fresh ())).1 = ("", none) ∧
    (GrabBanner examples.closing "10.0.0.1" 22 64 (World.fresh ())).2.dials
      = [("tcp", hostPort "10.0.0.1" 22)] :=
  have h := GrabBanner_first_good_attempt examples.closing "10.0.0.1" 22 64 (World.fresh ())
    0 examples.closedAtOnce (by decide) (fun _ hj => absurd hj (Nat.not_lt_zero _)) rfl
    (fun e he => by cases he; rfl)
  ⟨h.2.2.2.1 rfl, h.2.2.2.2⟩

end utils

namespace proxy

/-! ### The loop of `HTTPProxyDialer.Dial`, one iteration at a time -/

theorem http_loop_timeout (network : String) (deadline : Int) (fuel retries : Nat)
    (d : HTTPProxyDialer) (w : Net) (h : deadline ≤ w.now) :
    HTTPProxyDialer.dialLoop network deadline (fuel + 1) retries d w
      = some (Except.error errTimeout, d, w) := by
  rw [HTTPProxyDialer.dialLoop, if_pos h]

theorem http_loop_ok (network : String) (deadline : Int) (fuel retries : Nat)
    (d : HTTPProxyDialer) (w : Net) (c : Conn) (h : ¬ deadline ≤ w.now)
    (hc : (w.connectOutcome w.connects).1 = Except.ok c) :
    HTTPProxyDialer.dialLoop network deadline (fuel + 1) retries d w
      = some (Except.ok c, { d with conn := some c, isConnected := true },
          (w.DialTimeout network d.proxyAddr d.timeout).2) := by
  rw [HTTPProxyDialer.dialLoop, if_neg h]
  simp only [Net.DialTimeout, hc]

theorem http_loop_last (network : String) (deadline : Int) (fuel retries : Nat)
    (d : HTTPProxyDialer) (w : Net) (h : ¬ deadline ≤ w.now)
    (hc : connectFails w 0 = true) (hr : retries + 1 ≥ maxRetries) :
    HTTPProxyDialer.dialLoop network deadline (fuel + 1) retries d w
      = some (Except.error errExhausted, { d with conn := none },
          (w.DialTimeout network d.proxyAddr d.timeout).2) := by
  rw [HTTPProxyDialer.dialLoop, if_neg h]
  unfold connectFails at hc
  simp only [Nat.add_zero] at hc
  simp only [Net.DialTimeout]
  cases hx : (w.connectOutcome w.connects).1 with
  | ok c => rw [hx] at hc; simp at hc
  | error e => simp only [if_pos hr]

theorem http_loop_retry (network : String) (deadline : Int) (fuel retries : Nat)
    (d : HTTPProxyDialer) (w : Net) (h : ¬ deadline ≤ w.now)
    (hc : connectFails w 0 = true) (hr : ¬ retries + 1 ≥ maxRetries) :
    HTTPProxyDialer.dialLoop network deadline (fuel + 1) retries d w
      = HTTPProxyDialer.dialLoop network deadline fuel (retries + 1) { d with conn := none }
          (((w.DialTimeout network d.proxyAddr d.timeout).2.Println
            "Failed to connect, retrying...").Sleep second) := by
  rw [HTTPProxyDialer.dialLoop, if_neg h, one_mul]
  unfold connectFails at hc
  simp only [Nat.add_zero] at hc
  simp only [Net.DialTimeout]
  cases hx : (w.connectOutcome w.connects).1 with
  | ok c => rw [hx] at hc; simp at hc
  | error e => simp only [if_neg hr]

/-- The world after a failed attempt of the HTTP dialer and the sleep that follows. -/
theorem http_after_retry (network address : String) (timeout : Int) (w : Net) :
    (((w.DialTimeout network address timeout).2.Println
        "Failed to connect, retrying...").Sleep second)
      = { w with
          now := w.now + ((w.connectOutcome w.connects).2 : Int) + second
          connects := w.connects + 1
          trace := w.trace ++ [NetEvent.dialTimeout network address timeout w.now,
            NetEvent.println "Failed to connect, retrying...", NetEvent.sleep second] } := by
  simp [Net.DialTimeout, Net.Println, Net.Sleep]

end proxy

namespace proxy

theorem connectFails_after_retry (network address : String) (timeout : Int) (w : Net) (k : Nat) :
    connectFails (((w.DialTimeout network address timeout).2.Println
        "Failed to connect, retrying...").Sleep second) k = connectFails w (k + 1) := by
  simp only [connectFails, http_after_retry]
  rw [Nat.add_assoc, Nat.add_comm 1 k]

theorem attemptStart_after_retry (network address : String) (timeout : Int) (w : Net) (k : Nat) :
    attemptStart (((w.DialTimeout network address timeout).2.Println
        "Failed to connect, retrying...").Sleep second) k = attemptStart w (k + 1) := by
  induction k with
  | zero => simp only [attemptStart, http_after_retry, Nat.add_zero]
  | succ k ih =>
    rw [attemptStart, ih, attemptStart.eq_2 w (k + 1)]
    simp only [http_after_retry]
    rw [Nat.add_assoc, Nat.add_comm 1 k]

theorem attemptStart_mono (w : Net) (k : Nat) : attemptStart w k ≤ attemptStart w (k + 1) := by
  rw [attemptStart]
  have : (0 : Int) ≤ ((w.connectOutcome (w.connects + k)).2 : Int) := Int.natCast_nonneg _
  unfold second
  omega

/-- The loop of the HTTP dialer started with `retries < maxRetries` and enough fuel
returns. -/
theorem http_loop_total (network : String) (deadline : Int) :
    ∀ (fuel retries : Nat) (d : HTTPProxyDialer) (w : Net),
      retries < maxRetries → maxRetries - retries ≤ fuel →
      ∃ r, HTTPProxyDialer.dialLoop network deadline fuel retries d w = some r := by
  intro fuel
  induction fuel with
  | zero => intro retries d w h1 h2; omega
  | succ fuel ih =>
    intro retries d w h1 h2
    by_cases hd : deadline ≤ w.now
    · exact ⟨_, http_loop_timeout network deadline fuel retries d w hd⟩
    · cases hc : (w.connectOutcome w.connects).1 with
      | ok c => exact ⟨_, http_loop_ok network deadline fuel retries d w c hd hc⟩
      | error e =>
        have hf : connectFails w 0 = true := by simp [connectFails, hc]
        by_cases hr : retries + 1 ≥ maxRetries
        · exact ⟨_, http_loop_last network deadline fuel retries d w hd hf hr⟩
        · rw [http_loop_retry network deadline fuel retries d w hd hf hr]
          exact ih _ _ _ (by omega) (by omega)

/-- What the loop of the HTTP dialer does to the world, whatever the network answers: the
calls it makes are appended to the trace; every underlying connect among them goes to the
proxy address and was started before the deadline; there are at most
`maxRetries - retries` of them. -/
theorem http_loop_calls (network : String) (deadline : Int) :
    ∀ (fuel retries : Nat) (d : HTTPProxyDialer) (w : Net)
      (r : Except GoError Conn × HTTPProxyDialer × Net),
      retries < maxRetries →
      HTTPProxyDialer.dialLoop network deadline fuel retries d w = some r →
      ∃ evs : List NetEvent, r.2.2.trace = w.trace ++ evs ∧
        r.2.2.connects = w.connects + evs.countP NetEvent.isConnect ∧
        evs.countP NetEvent.isConnect ≤ maxRetries - retries ∧
        ∀ e, e ∈ evs → e.isConnect = true →
          e.destination = some d.proxyAddr ∧ ∃ t, e.startedAt = some t ∧ t < deadline := by
  intro fuel
  induction fuel with
  | zero => intro retries d w r _ h; simp [HTTPProxyDialer.dialLoop] at h
  | succ fuel ih =>
    intro retries d w r h1 h
    by_cases hd : deadline ≤ w.now
    · rw [http_loop_timeout network deadline fuel retries d w hd] at h
      cases h
      exact ⟨[], by simp, by simp, by simp, by simp⟩
    · have hone : ∀ e, e ∈ [NetEvent.dialTimeout network d.proxyAddr d.timeout w.now] →
          e.isConnect = true →
          e.destination = some d.proxyAddr ∧ ∃ t, e.startedAt = some t ∧ t < deadline := by
        intro e he _
        rw [List.mem_singleton] at he
        subst he
        exact ⟨rfl, w.now, rfl, by omega⟩
      cases hc : (w.connectOutcome w.connects).1 with
      | ok c =>
        rw [http_loop_ok network deadline fuel retries d w c hd hc] at h
        cases h
        refine ⟨[NetEvent.dialTimeout network d.proxyAddr d.timeout w.now], rfl, ?_, ?_, hone⟩
        · simp [Net.DialTimeout, NetEvent.isConnect]
        · simp [NetEvent.isConnect]; omega
      | error e =>
        have hf : connectFails w 0 = true := by simp [connectFails, hc]
        by_cases hr : retries + 1 ≥ maxRetries
        · rw [http_loop_last network deadline fuel retries d w hd hf hr] at h
          cases h
          refine ⟨[NetEvent.dialTimeout network d.proxyAddr d.timeout w.now], rfl, ?_, ?_, hone⟩
          · simp [Net.DialTimeout, NetEvent.isConnect]
          · simp [NetEvent.isConnect]; omega
        · rw [http_loop_retry network deadline fuel retries d w hd hf hr] at h
          obtain ⟨evs, e1, e2, e3, e4⟩ := ih _ _ _ r (by omega) h
          refine ⟨[NetEvent.dialTimeout network d.proxyAddr d.timeout w.now,
            NetEvent.println "Failed to connect, retrying...", NetEvent.sleep second]
              ++ evs, ?_, ?_, ?_, ?_⟩
          · rw [e1, http_after_retry]; simp
          · rw [e2, http_after_retry]
            simp [List.countP_cons, NetEvent.isConnect]
            omega
          · simp [List.countP_cons, NetEvent.isConnect]
            omega
          · intro e he hce
            rw [List.mem_append] at he
            cases he with
            | inl he =>
              simp only [List.mem_cons, List.mem_singleton, List.not_mem_nil, or_false] at he
              rcases he with he | he | he
              · exact hone e (by rw [he]; exact List.mem_singleton.mpr rfl) hce
              · subst he; simp [NetEvent.isConnect] at hce
              · subst he; simp [NetEvent.isConnect] at hce
            | inr he => exact e4 e he hce

end proxy

namespace proxy

theorem failedWorld_shift (network address : String) (timeout : Int) (w : Net) (k : Nat) :
    failedWorld network address timeout w (k + 1)
      = failedWorld network address timeout
          (((w.DialTimeout network address timeout).2.Println
            "Failed to connect, retrying...").Sleep second) k := by
  induction k with
  | zero => rfl
  | succ k ih => rw [failedWorld, ih]; rfl

/-- The world after `k` failed attempts: clock, script position and trace. -/
theorem failedWorld_eq (network address : String) (timeout : Int) (w : Net) (k : Nat) :
    failedWorld network address timeout w k
      = { w with now := attemptStart w k, connects := w.connects + k
                 trace := w.trace ++ retryCalls network address timeout w k } := by
  induction k with
  | zero => simp [failedWorld, attemptStart, retryCalls]
  | succ k ih =>
    rw [failedWorld, http_after_retry, ih]
    simp [attemptStart, retryCalls, Nat.add_assoc]

theorem connectFails_failedWorld (network address : String) (timeout : Int) (w : Net)
    (k j : Nat) :
    connectFails (failedWorld network address timeout w k) j = connectFails w (k + j) := by
  rw [failedWorld_eq]
  simp only [connectFails, Nat.add_assoc]

theorem afterFailures_shift (d : HTTPProxyDialer) (k : Nat) :
    HTTPProxyDialer.afterFailures { d with conn := none } k = d.afterFailures (k + 1) := by
  cases k <;> rfl

/-- While attempts fail before the deadline and retries are left, the loop of the HTTP
dialer goes round. -/
theorem http_loop_fails (network : String) (deadline : Int) :
    ∀ (k fuel retries : Nat) (d : HTTPProxyDialer) (w : Net),
      retries + k < maxRetries →
      (∀ j, j < k → connectFails w j = true) →
      (∀ j, j < k → attemptStart w j < deadline) →
      HTTPProxyDialer.dialLoop network deadline (fuel + k) retries d w
        = HTTPProxyDialer.dialLoop network deadline fuel (retries + k) (d.afterFailures k)
            (failedWorld network d.proxyAddr d.timeout w k) := by
  intro k
  induction k with
  | zero => intro fuel retries d w _ _ _; rfl
  | succ k ih =>
    intro fuel retries d w hr hf hd
    have h0 : ¬ deadline ≤ w.now := by
      have := hd 0 (Nat.succ_pos k)
      simp only [attemptStart] at this
      omega
    rw [← Nat.add_assoc, http_loop_retry network deadline (fuel + k) retries d w h0
      (hf 0 (Nat.succ_pos k)) (by omega)]
    rw [ih fuel (retries + 1) _ _ (by omega)]
    · rw [afterFailures_shift, failedWorld_shift]
      have : retries + 1 + k = retries + (k + 1) := by omega
      rw [this]
    · intro j hj
      rw [connectFails_after_retry]
      exact hf (j + 1) (Nat.succ_lt_succ hj)
    · intro j hj
      rw [attemptStart_after_retry]
      exact hd (j + 1) (Nat.succ_lt_succ hj)

theorem afterFailures_proxyAddr (d : HTTPProxyDialer) (k : Nat) :
    (d.afterFailures k).proxyAddr = d.proxyAddr ∧ (d.afterFailures k).timeout = d.timeout ∧
    (d.afterFailures k).isConnected = d.isConnected := by
  cases k <;> exact ⟨rfl, rfl, rfl⟩

/-- Attempt `k + 1` is the first that succeeds, and the deadline has not elapsed when it
starts: the HTTP dialer returns its connection after exactly `k + 1` connects. -/
theorem http_loop_first_ok (network : String) (deadline : Int) (k fuel : Nat)
    (d : HTTPProxyDialer) (w : Net) (c : Conn)
    (hk : k < maxRetries)
    (hf : ∀ j, j < k → connectFails w j = true)
    (hc : (w.connectOutcome (w.connects + k)).1 = Except.ok c)
    (hd : attemptStart w k < deadline) :
    HTTPProxyDialer.dialLoop network deadline (fuel + 1 + k) 0 d w
      = some (Except.ok c, { d with conn := some c, isConnected := true },
          { w with now := attemptStart w k + ((w.connectOutcome (w.connects + k)).2 : Int)
                   connects := w.connects + (k + 1)
                   trace := w.trace ++ retryCalls network d.proxyAddr d.timeout w k ++
                     [NetEvent.dialTimeout network d.proxyAddr d.timeout (attemptStart w k)] }) := by
  have hmono : ∀ j, j < k → attemptStart w j < deadline := by
    intro j hj
    have : ∀ n, j ≤ n → attemptStart w j ≤ attemptStart w n := by
      intro n hn
      induction n, hn using Nat.le_induction with
      | base => exact le_refl _
      | succ n _ ih => exact le_trans ih (attemptStart_mono w n)
    exact lt_of_le_of_lt (this k (Nat.le_of_lt hj)) hd
  rw [http_loop_fails network deadline k (fuel + 1) 0 d w (by omega) hf hmono]
  obtain ⟨p1, p2, _⟩ := afterFailures_proxyAddr d k
  rw [http_loop_ok network deadline fuel (0 + k) _ _ c]
  · rw [failedWorld_eq, p1, p2]
    cases k <;> simp [HTTPProxyDialer.afterFailures, Net.DialTimeout, Nat.add_assoc]
  · rw [failedWorld_eq]; simp only; omega
  · rw [failedWorld_eq]; exact hc

end proxy

namespace proxy

/-- All `maxRetries` attempts fail and the deadline has not elapsed when the last one
starts: the HTTP dialer gives up after exactly `maxRetries` connects. -/
theorem http_loop_exhausted (network : String) (deadline : Int) (fuel : Nat)
    (d : HTTPProxyDialer) (w : Net)
    (hf : ∀ j, j < maxRetries → connectFails w j = true)
    (hd : attemptStart w 2 < deadline) :
    HTTPProxyDialer.dialLoop network deadline (fuel + 1 + 2) 0 d w
      = some (Except.error errExhausted, { d with conn := none },
          { w with now := attemptStart w 2 + ((w.connectOutcome (w.connects + 2)).2 : Int)
                   connects := w.connects + 3
                   trace := w.trace ++ retryCalls network d.proxyAddr d.timeout w 2 ++
                     [NetEvent.dialTimeout network d.proxyAddr d.timeout (attemptStart w 2)] }) := by
  have h1 : attemptStart w 0 ≤ attemptStart w 1 := attemptStart_mono w 0
  have h2 : attemptStart w 1 ≤ attemptStart w 2 := attemptStart_mono w 1
  have hmono : ∀ j, j < 2 → attemptStart w j < deadline := by
    intro j hj
    interval_cases j <;> omega
  rw [http_loop_fails network deadline 2 (fuel + 1) 0 d w (by decide)
    (fun j hj => hf j (by unfold maxRetries; omega)) hmono]
  rw [http_loop_last network deadline fuel (0 + 2)]
  · rw [failedWorld_eq]
    simp [HTTPProxyDialer.afterFailures, Net.DialTimeout]
  · rw [failedWorld_eq]; simp only; omega
  · rw [connectFails_failedWorld]; exact hf 2 (by decide)
  · decide

/-- The first `k` attempts fail and the deadline has elapsed when attempt `k + 1` would
start: the HTTP dialer returns the timeout error after exactly `k` connects. -/
theorem http_loop_deadline (network : String) (deadline : Int) (k fuel : Nat)
    (d : HTTPProxyDialer) (w : Net)
    (hk : k < maxRetries)
    (hf : ∀ j, j < k → connectFails w j = true)
    (hd : ∀ j, j < k → attemptStart w j < deadline)
    (hlate : deadline ≤ attemptStart w k) :
    HTTPProxyDialer.dialLoop network deadline (fuel + 1 + k) 0 d w
      = some (Except.error errTimeout, d.afterFailures k,
          { w with now := attemptStart w k, connects := w.connects + k
                   trace := w.trace ++ retryCalls network d.proxyAddr d.timeout w k }) := by
  rw [http_loop_fails network deadline k (fuel + 1) 0 d w (by omega) hf hd]
  rw [http_loop_timeout, failedWorld_eq]
  rw [failedWorld_eq]
  exact hlate

/-! ### The loop of `SOCKS5ProxyDialer.Dial`, one iteration at a time -/

theorem socks_after_retry (network address user password target : String) (w : Net) :
    (((w.SOCKS5 network address user password).2.socksDial network address target).2).Sleep
        second
      = { w with
          now := w.now + ((w.connectOutcome w.connects).2 : Int) + second
          connects := w.connects + 1
          socksCalls := w.socksCalls + 1
          trace := w.trace ++ [NetEvent.socks5 network address user password,
            NetEvent.socksDial network address target w.now, NetEvent.sleep second] } := by
  simp [Net.SOCKS5, Net.socksDial, Net.Sleep]

theorem socks_loop_retry (network addr : String) (left : Nat) (d : SOCKS5ProxyDialer)
    (w : Net) (hs : w.socksOutcome w.socksCalls = none) (hc : connectFails w 0 = true) :
    SOCKS5ProxyDialer.dialLoop network addr (left + 1) d w
      = SOCKS5ProxyDialer.dialLoop network addr left d
          ((((w.SOCKS5 network d.proxyAddr d.username d.password).2.socksDial
            network d.proxyAddr addr).2).Sleep second) := by
  rw [SOCKS5ProxyDialer.dialLoop]
  unfold connectFails at hc
  simp only [Nat.add_zero] at hc
  simp only [Net.SOCKS5, hs, Net.socksDial]
  cases hx : (w.connectOutcome w.connects).1 with
  | ok c => rw [hx] at hc; simp at hc
  | error e => rfl

theorem socks_loop_ok (network addr : String) (left : Nat) (d : SOCKS5ProxyDialer)
    (w : Net) (c : Conn) (hs : w.socksOutcome w.socksCalls = none)
    (hc : (w.connectOutcome w.connects).1 = Except.ok c) :
    SOCKS5ProxyDialer.dialLoop network addr (left + 1) d w
      = (Except.ok c, { d with isConnected := true, conn := some c },
          ((w.SOCKS5 network d.proxyAddr d.username d.password).2.socksDial
            network d.proxyAddr addr).2) := by
  rw [SOCKS5ProxyDialer.dialLoop]
  simp only [Net.SOCKS5, hs, Net.socksDial, hc]

theorem connectFails_socks_retry (network address user password target : String) (w : Net)
    (k : Nat) :
    connectFails ((((w.SOCKS5 network address user password).2.socksDial
        network address target).2).Sleep second) k = connectFails w (k + 1) := by
  simp only [connectFails, socks_after_retry]
  rw [Nat.add_assoc, Nat.add_comm 1 k]

theorem attemptStart_socks_retry (network address user password target : String) (w : Net)
    (k : Nat) :
    attemptStart ((((w.SOCKS5 network address user password).2.socksDial
        network address target).2).Sleep second) k = attemptStart w (k + 1) := by
  induction k with
  | zero => simp only [attemptStart, socks_after_retry, Nat.add_zero]
  | succ k ih =>
    rw [attemptStart, ih, attemptStart.eq_2 w (k + 1)]
    simp only [socks_after_retry]
    rw [Nat.add_assoc, Nat.add_comm 1 k]

theorem socksFailedWorld_shift (network address user password target : String) (w : Net)
    (k : Nat) :
    socksFailedWorld network address user password target w (k + 1)
      = socksFailedWorld network address user password target
          ((((w.SOCKS5 network address user password).2.socksDial
            network address target).2).Sleep second) k := by
  induction k with
  | zero => rfl
  | succ k ih => rw [socksFailedWorld, ih]; rfl

theorem socksFailedWorld_eq (network address user password target : String) (w : Net)
    (k : Nat) :
    socksFailedWorld network address user password target w k
      = { w with now := attemptStart w k, connects := w.connects + k
                 socksCalls := w.socksCalls + k
                 trace := w.trace ++ socksRetryCalls network address user password target w k } := by
  induction k with
  | zero => simp [socksFailedWorld, attemptStart, socksRetryCalls]
  | succ k ih =>
    rw [socksFailedWorld, socks_after_retry, ih]
    simp [attemptStart, socksRetryCalls, Nat.add_assoc]

/-- While the connects of the attempts fail, the loop of the SOCKS5 dialer goes round. -/
theorem socks_loop_fails (network addr : String) :
    ∀ (k left : Nat) (d : SOCKS5ProxyDialer) (w : Net),
      (∀ j, j < k → w.socksOutcome (w.socksCalls + j) = none) →
      (∀ j, j < k → connectFails w j = true) →
      SOCKS5ProxyDialer.dialLoop network addr (left + k) d w
        = SOCKS5ProxyDialer.dialLoop network addr left d
            (socksFailedWorld network d.proxyAddr d.username d.password addr w k) := by
  intro k
  induction k with
  | zero => intro left d w _ _; rfl
  | succ k ih =>
    intro left d w hs hf
    rw [← Nat.add_assoc, socks_loop_retry network addr (left + k) d w
      (hs 0 (Nat.succ_pos k)) (hf 0 (Nat.succ_pos k))]
    rw [ih left d _]
    · rw [socksFailedWorld_shift]
    · intro j hj
      have := hs (j + 1) (Nat.succ_lt_succ hj)
      simp only [socks_after_retry]
      rw [Nat.add_assoc, Nat.add_comm 1 j]
      exact this
    · intro j hj
      rw [connectFails_socks_retry]
      exact hf (j + 1) (Nat.succ_lt_succ hj)

end proxy

namespace proxy

theorem callsSince_append (w w1 : Net) (evs : List NetEvent) (h : w1.trace = w.trace ++ evs) :
    callsSince w w1 = evs := by
  rw [callsSince, h, List.drop_left]

theorem countP_retryCalls (network address : String) (timeout : Int) (w : Net) (k : Nat) :
    (retryCalls network address timeout w k).countP NetEvent.isConnect = k ∧
    (retryCalls network address timeout w k).countP (NetEvent.isSleep second) = k := by
  induction k with
  | zero => exact ⟨rfl, rfl⟩
  | succ k ih =>
    rw [retryCalls, List.countP_append, List.countP_append, ih.1, ih.2]
    simp [List.countP_cons, NetEvent.isConnect, NetEvent.isSleep]

theorem countP_socksRetryCalls (network address user password target : String) (w : Net)
    (k : Nat) :
    (socksRetryCalls network address user password target w k).countP NetEvent.isConnect = k ∧
    (socksRetryCalls network address user password target w k).countP
      (NetEvent.isSleep second) = k := by
  induction k with
  | zero => exact ⟨rfl, rfl⟩
  | succ k ih =>
    rw [socksRetryCalls, List.countP_append, List.countP_append, ih.1, ih.2]
    simp [List.countP_cons, NetEvent.isConnect, NetEvent.isSleep]

/-- What `SOCKS5ProxyDialer.Dial` does to the dialer: on success it sets the flag and
tracks the connection, on failure it leaves the dialer as it was. -/
theorem socks_loop_dialer (network addr : String) :
    ∀ (left : Nat) (d : SOCKS5ProxyDialer) (w : Net),
      (∀ c, (SOCKS5ProxyDialer.dialLoop network addr left d w).1 = Except.ok c →
        (SOCKS5ProxyDialer.dialLoop network addr left d w).2.1
          = { d with isConnected := true, conn := some c }) ∧
      (∀ e, (SOCKS5ProxyDialer.dialLoop network addr left d w).1 = Except.error e →
        (SOCKS5ProxyDialer.dialLoop network addr left d w).2.1 = d) := by
  intro left
  induction left with
  | zero =>
    intro d w
    constructor
    · intro c h; simp [SOCKS5ProxyDialer.dialLoop] at h
    · intro e _; rfl
  | succ left ih =>
    intro d w
    rw [SOCKS5ProxyDialer.dialLoop]
    split
    · exact ih d _
    · split
      · exact ih d _
      · constructor
        · intro c h
          simp only [Except.ok.injEq] at h
          subst h
          rfl
        · intro e h
          simp at h

end proxy

namespace proxy

/-- C3: `NewHTTPProxy` and `NewSOCKS5Proxy` return an error exactly when `proxyAddr` is
empty; they make no call to the outside (the world is handed back unchanged, so no dial
is attempted); with a non-empty address they return a dialer holding the given address,
username and password, with `isConnected = false` and a timeout of 30 seconds. -/
theorem NewProxy_rejects_exactly_empty_address (proxyAddr username password : String)
    (w : Net) :
    ((∃ e, (NewHTTPProxy proxyAddr username password w).1 = Except.error e) ↔ proxyAddr = "") ∧
    (NewHTTPProxy proxyAddr username password w).2 = w ∧
    (NewHTTPProxy proxyAddr username password w).1
      = (if proxyAddr = "" then
          Except.error { msg := "proxy address cannot be empty", isEOF := false }
        else Except.ok
          { proxyAddr := proxyAddr, username := username, password := password
            isConnected := false, timeout := 30 * 1000000000, conn := none }) ∧
    ((∃ e, (NewSOCKS5Proxy proxyAddr username password w).1 = Except.error e)
      ↔ proxyAddr = "") ∧
    (NewSOCKS5Proxy proxyAddr username password w).2 = w ∧
    (NewSOCKS5Proxy proxyAddr username password w).1
      = (if proxyAddr = "" then
          Except.error { msg := "proxy address cannot be empty", isEOF := false }
        else Except.ok
          { proxyAddr := proxyAddr, username := username, password := password
            timeout := 30 * 1000000000, isConnected := false, conn := none }) := by
  by_cases h : proxyAddr = ""
  · simp [NewHTTPProxy, NewSOCKS5Proxy, h, errEmptyProxyAddress]
  · simp [NewHTTPProxy, NewSOCKS5Proxy, h, second]

/-- C4: when every underlying connect fails (and, for the HTTP dialer, the deadline has
not elapsed when the third attempt starts), `Dial` makes exactly 3 connects with a sleep
of one second after the first and after the second, and returns no connection and the
error "failed to connect after 3 attempts"; when attempt `k + 1` (`k < 3`) is the first to
succeed (and, for the HTTP dialer, the deadline has not elapsed when it starts), `Dial`
returns that connection after exactly `k + 1` connects and `k` sleeps of one second.
For the SOCKS5 dialer the setting up of the SOCKS5 capability is taken to succeed. -/
theorem Dial_gives_up_after_three_attempts (network addr : String) (w : Net)
    (dh : HTTPProxyDialer) (ds : SOCKS5ProxyDialer) :
    ((∀ j, j < 3 → connectFails w j = true) → attemptStart w 2 < w.now + dh.timeout →
      ∃ d1 w1, dh.Dial network addr w
          = some (Except.error { msg := "failed to connect after 3 attempts", isEOF := false },
              d1, w1) ∧
        w1.connects = w.connects + 3 ∧
        callsSince w w1
          = [NetEvent.dialTimeout network dh.proxyAddr dh.timeout (attemptStart w 0),
             NetEvent.println "Failed to connect, retrying...", NetEvent.sleep 1000000000,
             NetEvent.dialTimeout network dh.proxyAddr dh.timeout (attemptStart w 1),
             NetEvent.println "Failed to connect, retrying...", NetEvent.sleep 1000000000,
             NetEvent.dialTimeout network dh.proxyAddr dh.timeout (attemptStart w 2)]) ∧
    (∀ k c, k < 3 → (∀ j, j < k → connectFails w j = true) →
      (w.connectOutcome (w.connects + k)).1 = Except.ok c →
      attemptStart w k < w.now + dh.timeout →
      ∃ d1 w1, dh.Dial network addr w = some (Except.ok c, d1, w1) ∧
        w1.connects = w.connects + (k + 1) ∧
        (callsSince w w1).countP NetEvent.isConnect = k + 1 ∧
        (callsSince w w1).countP (NetEvent.isSleep 1000000000) = k) ∧
    ((∀ j, j < 3 → w.socksOutcome (w.socksCalls + j) = none) →
      (∀ j, j < 3 → connectFails w j = true) →
      ∃ d1 w1, ds.Dial network addr w
          = (Except.error { msg := "failed to connect after 3 attempts", isEOF := false },
              d1, w1) ∧
        w1.connects = w.connects + 3 ∧
        callsSince w w1
          = [NetEvent.socks5 network ds.proxyAddr ds.username ds.password,
             NetEvent.socksDial network ds.proxyAddr addr (attemptStart w 0),
             NetEvent.sleep 1000000000,
             NetEvent.socks5 network ds.proxyAddr ds.username ds.password,
             NetEvent.socksDial network ds.proxyAddr addr (attemptStart w 1),
             NetEvent.sleep 1000000000,
             NetEvent.socks5 network ds.proxyAddr ds.username ds.password,
             NetEvent.socksDial network ds.proxyAddr addr (attemptStart w 2),
             NetEvent.sleep 1000000000]) ∧
    (∀ k c, k < 3 → (∀ j, j < k + 1 → w.socksOutcome (w.socksCalls + j) = none) →
      (∀ j, j < k → connectFails w j = true) →
      (w.connectOutcome (w.connects + k)).1 = Except.ok c →
      ∃ d1 w1, ds.Dial network addr w = (Except.ok c, d1, w1) ∧
        w1.connects = w.connects + (k + 1) ∧
        (callsSince w w1).countP NetEvent.isConnect = k + 1 ∧
        (callsSince w w1).countP (NetEvent.isSleep 1000000000) = k) := by
  refine ⟨?_, ?_, ?_, ?_⟩
  · intro hf hd
    refine ⟨_, _, http_loop_exhausted network (w.now + dh.timeout) 0 dh w hf hd, rfl, ?_⟩
    rw [callsSince_append w _ _ (List.append_assoc _ _ _)]
    rfl
  · intro k c hk hf hc hd
    have hfu : maxRetries = 2 - k + 1 + k := by unfold maxRetries; omega
    have hstep := http_loop_first_ok network (w.now + dh.timeout) k (2 - k) dh w c hk hf hc hd
    rw [← hfu] at hstep
    refine ⟨_, _, hstep, rfl, ?_, ?_⟩
    · rw [callsSince_append w _ _ (List.append_assoc _ _ _), List.countP_append,
        (countP_retryCalls _ _ _ _ _).1]
      rfl
    · rw [callsSince_append w _ _ (List.append_assoc _ _ _), List.countP_append]
      exact (countP_retryCalls _ _ _ _ _).2
  · intro hs hf
    have hstep : ds.Dial network addr w
        = (Except.error errExhausted, ds,
            { w with now := attemptStart w 3, connects := w.connects + 3
                     socksCalls := w.socksCalls + 3
                     trace := w.trace ++
                       socksRetryCalls network ds.proxyAddr ds.username ds.password addr w 3 }) := by
      unfold SOCKS5ProxyDialer.Dial
      have : maxRetries = 0 + 3 := rfl
      rw [this, socks_loop_fails network addr 3 0 ds w hs hf, socksFailedWorld_eq]
      rfl
    refine ⟨ds, _, hstep, rfl, ?_⟩
    rw [callsSince_append w _ _ rfl]
    rfl
  · intro k c hk hs hf hc
    have hfu : maxRetries = 2 - k + 1 + k := by unfold maxRetries; omega
    have hstep : ds.Dial network addr w
        = (Except.ok c, { ds with isConnected := true, conn := some c },
            { w with now := attemptStart w k + ((w.connectOutcome (w.connects + k)).2 : Int)
                     connects := w.connects + (k + 1)
                     socksCalls := w.socksCalls + (k + 1)
                     trace := w.trace ++
                       (socksRetryCalls network ds.proxyAddr ds.username ds.password addr w k ++
                         [NetEvent.socks5 network ds.proxyAddr ds.username ds.password,
                          NetEvent.socksDial network ds.proxyAddr addr (attemptStart w k)]) }) := by
      unfold SOCKS5ProxyDialer.Dial
      rw [hfu, socks_loop_fails network addr k (2 - k + 1) ds w
        (fun j hj => hs j (Nat.lt_succ_of_lt hj)) hf]
      rw [socks_loop_ok network addr (2 - k) ds _ c]
      · rw [socksFailedWorld_eq]
        simp [Net.SOCKS5, Net.socksDial, Nat.add_assoc]
      · rw [socksFailedWorld_eq]; exact hs k (Nat.lt_succ_self k)
      · rw [socksFailedWorld_eq]; exact hc
    refine ⟨_, _, hstep, rfl, ?_, ?_⟩
    · rw [callsSince_append w _ _ rfl, List.countP_append,
        (countP_socksRetryCalls _ _ _ _ _ _ _).1]
      rfl
    · rw [callsSince_append w _ _ rfl, List.countP_append]
      exact (countP_socksRetryCalls _ _ _ _ _ _ _).2

end proxy

namespace proxy

theorem Dial_gives_up_after_three_attempts_witness :
    ∃ d1 w1, examples.httpDialer.Dial "tcp" "example.org:80" examples.deadNet
        = some (Except.error { msg := "failed to connect after 3 attempts", isEOF := false },
            d1, w1) ∧
      w1.connects = examples.deadNet.connects + 3 ∧
      callsSince examples.deadNet w1
        = [NetEvent.dialTimeout "tcp" examples.httpDialer.proxyAddr examples.httpDialer.timeout
             (attemptStart examples.deadNet 0),
           NetEvent.println "Failed to connect, retrying...", NetEvent.sleep 1000000000,
           NetEvent.dialTimeout "tcp" examples.httpDialer.proxyAddr examples.httpDialer.timeout
             (attemptStart examples.deadNet 1),
           NetEvent.println "Failed to connect, retrying...", NetEvent.sleep 1000000000,
           NetEvent.dialTimeout "tcp" examples.httpDialer.proxyAddr examples.httpDialer.timeout
             (attemptStart examples.deadNet 2)] :=
  (Dial_gives_up_after_three_attempts "tcp" "example.org:80" examples.deadNet
    examples.httpDialer examples.socksDialer).1 (fun _ _ => rfl) (by decide)

/-- The number of attempt starts among the first three that precede the deadline. -/
theorem starts_before_deadline (w : Net) (deadline : Int) :
    ((List.range 3).filter (fun k => decide (attemptStart w k < deadline))).length
      = if deadline ≤ attemptStart w 0 then 0
        else if deadline ≤ attemptStart w 1 then 1
        else if deadline ≤ attemptStart w 2 then 2 else 3 := by
  have h1 : attemptStart w 0 ≤ attemptStart w 1 := attemptStart_mono w 0
  have h2 : attemptStart w 1 ≤ attemptStart w 2 := attemptStart_mono w 1
  have hr : List.range 3 = [0, 1, 2] := rfl
  rw [hr]
  by_cases c0 : deadline ≤ attemptStart w 0
  · have a0 : ¬ attemptStart w 0 < deadline := by omega
    have a1 : ¬ attemptStart w 1 < deadline := by omega
    have a2 : ¬ attemptStart w 2 < deadline := by omega
    simp [List.filter_cons, a0, a1, a2, c0]
  · by_cases c1 : deadline ≤ attemptStart w 1
    · have a0 : attemptStart w 0 < deadline := by omega
      have a1 : ¬ attemptStart w 1 < deadline := by omega
      have a2 : ¬ attemptStart w 2 < deadline := by omega
      simp [List.filter_cons, a0, a1, a2, c0, c1]
    · by_cases c2 : deadline ≤ attemptStart w 2
      · have a0 : attemptStart w 0 < deadline := by omega
        have a1 : attemptStart w 1 < deadline := by omega
        have a2 : ¬ attemptStart w 2 < deadline := by omega
        simp [List.filter_cons, a0, a1, a2, c0, c1, c2]
      · have a0 : attemptStart w 0 < deadline := by omega
        have a1 : attemptStart w 1 < deadline := by omega
        have a2 : attemptStart w 2 < deadline := by omega
        simp [List.filter_cons, a0, a1, a2, c0, c1, c2]

/-- C8: in `HTTPProxyDialer.Dial`, with the clock of the world: (1) whenever the loop
reaches the start of an attempt with the deadline elapsed, the call returns no connection
and the error "connection attempt timed out" and makes no further call; (2) the call
always returns, after at most 3 connects, each started before the deadline (the clock at
the call plus the timeout); (3) when the connects fail, the number of connects made is the
number of the three attempt starts that precede the deadline, and with fewer than three
the result is the timeout error; (4) after `SetTimeout` with a timeout of zero or less,
`Dial` makes no call at all and returns the timeout error. -/
theorem HTTP_Dial_stops_at_deadline (d : HTTPProxyDialer) (network addr : String) (w : Net) :
    (∀ (deadline : Int) (fuel retries : Nat) (d1 : HTTPProxyDialer) (w1 : Net),
      deadline ≤ w1.now →
      HTTPProxyDialer.dialLoop network deadline (fuel + 1) retries d1 w1
        = some (Except.error { msg := "connection attempt timed out", isEOF := false },
            d1, w1)) ∧
    (∃ r, d.Dial network addr w = some r ∧
      (callsSince w r.2.2).countP NetEvent.isConnect ≤ 3 ∧
      ∀ e, e ∈ callsSince w r.2.2 → e.isConnect = true →
        ∃ t, e.startedAt = some t ∧ t < w.now + d.timeout) ∧
    ((∀ j, j < 3 → connectFails w j = true) →
      ∃ r, d.Dial network addr w = some r ∧
        (callsSince w r.2.2).countP NetEvent.isConnect
          = ((List.range 3).filter
              (fun k => decide (attemptStart w k < w.now + d.timeout))).length ∧
        ((callsSince w r.2.2).countP NetEvent.isConnect < 3 →
          r.1 = Except.error { msg := "connection attempt timed out", isEOF := false })) ∧
    (∀ t : Int, t ≤ 0 →
      (d.SetTimeout t).Dial network addr w
        = some (Except.error { msg := "connection attempt timed out", isEOF := false },
            d.SetTimeout t, w)) := by
  refine ⟨?_, ?_, ?_, ?_⟩
  · intro deadline fuel retries d1 w1 h
    exact http_loop_timeout network deadline fuel retries d1 w1 h
  · obtain ⟨r, hr⟩ := http_loop_total network (w.now + d.timeout) maxRetries 0 d w
      (by decide) (by decide)
    obtain ⟨evs, e1, _, e3, e4⟩ :=
      http_loop_calls network (w.now + d.timeout) maxRetries 0 d w r (by decide) hr
    refine ⟨r, hr, ?_, ?_⟩
    · rw [callsSince_append w _ _ e1]; exact e3
    · intro e he hc
      rw [callsSince_append w _ _ e1] at he
      exact (e4 e he hc).2
  · intro hf
    rw [starts_before_deadline]
    have hf2 : ∀ k, k ≤ 2 → ∀ j, j < k → connectFails w j = true :=
      fun k hk j hj => hf j (by omega)
    by_cases c0 : w.now + d.timeout ≤ attemptStart w 0
    · refine ⟨_, http_loop_deadline network _ 0 2 d w (by decide) (hf2 0 (by omega))
        (fun j hj => absurd hj (Nat.not_lt_zero j)) c0, ?_, fun _ => rfl⟩
      rw [callsSince_append w _ _ rfl, (countP_retryCalls _ _ _ _ _).1, if_pos c0]
    · by_cases c1 : w.now + d.timeout ≤ attemptStart w 1
      · refine ⟨_, http_loop_deadline network _ 1 1 d w (by decide) (hf2 1 (by omega))
          ?_ c1, ?_, fun _ => rfl⟩
        · intro j hj
          obtain rfl : j = 0 := by omega
          omega
        · rw [callsSince_append w _ _ rfl, (countP_retryCalls _ _ _ _ _).1, if_neg c0,
            if_pos c1]
      · have h1 : attemptStart w 0 ≤ attemptStart w 1 := attemptStart_mono w 0
        by_cases c2 : w.now + d.timeout ≤ attemptStart w 2
        · refine ⟨_, http_loop_deadline network _ 2 0 d w (by decide) (hf2 2 (by omega))
            ?_ c2, ?_, fun _ => rfl⟩
          · intro j hj
            interval_cases j <;> omega
          · rw [callsSince_append w _ _ rfl, (countP_retryCalls _ _ _ _ _).1, if_neg c0,
              if_neg c1, if_pos c2]
        · refine ⟨_, http_loop_exhausted network _ 0 d w hf (by omega), ?_, ?_⟩
          · rw [callsSince_append w _ _ (List.append_assoc _ _ _), List.countP_append,
              (countP_retryCalls _ _ _ _ _).1, if_neg c0, if_neg c1, if_neg c2]
            rfl
          · intro h
            rw [callsSince_append w _ _ (List.append_assoc _ _ _), List.countP_append,
              (countP_retryCalls _ _ _ _ _).1] at h
            simp [NetEvent.isConnect] at h
  · intro t ht
    have : w.now + (d.SetTimeout t).timeout ≤ w.now := by
      show w.now + t ≤ w.now
      omega
    exact http_loop_timeout network _ 2 0 (d.SetTimeout t) w this

/-- C9: `Dial(network, addr1)` and `Dial(network, addr2)` on an HTTP dialer in the same
world are the same computation: the same result, the same dialer and the same world
afterwards, hence the same sequence of underlying connects; the call returns, and every
underlying connect it makes goes to the configured `proxyAddr`. -/
theorem HTTP_Dial_ignores_addr (d : HTTPProxyDialer) (network addr1 addr2 : String)
    (w : Net) :
    d.Dial network addr1 w = d.Dial network addr2 w ∧
    ∃ r, d.Dial network addr1 w = some r ∧
      ∀ e, e ∈ callsSince w r.2.2 → e.isConnect = true →
        e.destination = some d.proxyAddr := by
  refine ⟨rfl, ?_⟩
  obtain ⟨r, hr⟩ := http_loop_total network (w.now + d.timeout) maxRetries 0 d w
    (by decide) (by decide)
  obtain ⟨evs, e1, _, _, e4⟩ :=
    http_loop_calls network (w.now + d.timeout) maxRetries 0 d w r (by decide) hr
  refine ⟨r, hr, ?_⟩
  intro e he hc
  rw [callsSince_append w _ _ e1] at he
  exact (e4 e he hc).1

end proxy

namespace proxy

/-- An operation other than `Reconnect` keeps the flag of a connected dialer. -/
theorem socks_apply_keeps_flag (s : SOCKS5ProxyDialer × Net) (op : Op)
    (hop : op ≠ Op.Reconnect) (h : s.1.isConnected = true) :
    (SOCKS5ProxyDialer.apply s op).1.isConnected = true := by
  cases op with
  | Dial network addr =>
    show (s.1.Dial network addr s.2).2.1.isConnected = true
    obtain ⟨h1, h2⟩ := socks_loop_dialer network addr maxRetries s.1 s.2
    unfold SOCKS5ProxyDialer.Dial
    cases hr : (SOCKS5ProxyDialer.dialLoop network addr maxRetries s.1 s.2).1 with
    | ok c => rw [h1 c hr]
    | error e => rw [h2 e hr]; exact h
  | Reconnect => exact absurd rfl hop
  | SetCredentials username password => exact h
  | SetTimeout timeout => exact h

/-- A sequence of operations without `Reconnect` keeps the flag of a connected dialer. -/
theorem socks_applyAll_keeps_flag (ops : List Op) :
    ∀ s : SOCKS5ProxyDialer × Net, Op.Reconnect ∉ ops → s.1.isConnected = true →
      (SOCKS5ProxyDialer.applyAll s ops).1.isConnected = true := by
  unfold SOCKS5ProxyDialer.applyAll
  induction ops with
  | nil => intro s _ h; exact h
  | cons op ops ih =>
    intro s hn h
    rw [List.foldl_cons]
    refine ih _ (fun hm => hn (List.mem_cons_of_mem _ hm)) ?_
    exact socks_apply_keeps_flag s op (fun e => hn (e ▸ List.mem_cons_self _ _)) h

/-- C10: for a `SOCKS5ProxyDialer`, (1) a successful `Dial` sets `isConnected` to true and
tracks the connection it returns; (2) once the flag is true, no `Dial` (successful or
failed), `SetCredentials` or `SetTimeout` resets it; (3) it stays true along any sequence
of operations without a `Reconnect`; (4) an operation that takes the flag from true to
false is a `Reconnect`; (5) a `Reconnect` that succeeds leaves the flag false. -/
theorem SOCKS5_flag_reset_only_by_Reconnect (d : SOCKS5ProxyDialer) (w : Net) :
    (∀ network addr c, (d.Dial network addr w).1 = Except.ok c →
      (d.Dial network addr w).2.1.isConnected = true ∧
      (d.Dial network addr w).2.1.conn = some c) ∧
    (∀ op, op ≠ Op.Reconnect → d.isConnected = true →
      (SOCKS5ProxyDialer.apply (d, w) op).1.isConnected = true) ∧
    (∀ ops : List Op, Op.Reconnect ∉ ops → d.isConnected = true →
      (SOCKS5ProxyDialer.applyAll (d, w) ops).1.isConnected = true) ∧
    (∀ op, d.isConnected = true →
      (SOCKS5ProxyDialer.apply (d, w) op).1.isConnected = false → op = Op.Reconnect) ∧
    ((d.Reconnect w).1 = none → (d.Reconnect w).2.1.isConnected = false) := by
  refine ⟨?_, ?_, ?_, ?_, ?_⟩
  · intro network addr c hc
    have h1 := (socks_loop_dialer network addr maxRetries d w).1 c hc
    unfold SOCKS5ProxyDialer.Dial
    rw [h1]
    exact ⟨rfl, rfl⟩
  · intro op hop h
    exact socks_apply_keeps_flag (d, w) op hop h
  · intro ops hn h
    exact socks_applyAll_keeps_flag ops (d, w) hn h
  · intro op h hfalse
    by_contra hop
    rw [socks_apply_keeps_flag (d, w) op hop h] at hfalse
    exact Bool.noConfusion hfalse
  · intro h
    unfold SOCKS5ProxyDialer.Reconnect at h ⊢
    generalize (match d.conn with
      | some c => w.Close c
      | none => w) = w0 at h ⊢
    simp only at h ⊢
    revert h
    rcases d.Dial defaultNetworkType d.proxyAddr w0 with ⟨res, d1, w1⟩
    cases res with
    | error e => intro h; exact Option.noConfusion h
    | ok c => intro _; rfl

end proxy

/-! ### Goroutines behind an admission gate: the invariant -/

theorem pendingOf_append_spawned {τ : Type} (ts : List (τ × Phase)) (x : τ) :
    pendingOf (ts ++ [(x, Phase.spawned)]) = pendingOf ts ++ [x] := by
  induction ts with
  | nil => rfl
  | cons t ts ih =>
    obtain ⟨y, p⟩ := t
    cases p
    · show y :: pendingOf (ts ++ [(x, Phase.spawned)]) = y :: (pendingOf ts ++ [x])
      rw [ih]
    · show pendingOf (ts ++ [(x, Phase.spawned)]) = pendingOf ts ++ [x]
      exact ih

theorem pendingOf_set {τ : Type} (x : τ) :
    ∀ (ts : List (τ × Phase)) (k : Nat), ts.get? k = some (x, Phase.spawned) →
      List.Perm (pendingOf ts) (x :: pendingOf (ts.set k (x, Phase.returning))) := by
  intro ts
  induction ts with
  | nil => intro k h; simp at h
  | cons t ts ih =>
    intro k h
    cases k with
    | zero =>
      simp only [List.get?_cons_zero, Option.some.injEq] at h
      subst h
      simp only [List.set_cons_zero, pendingOf]
      exact List.Perm.refl _
    | succ k =>
      simp only [List.get?_cons_succ] at h
      obtain ⟨y, p⟩ := t
      cases p
      · simp only [List.set_cons_succ, pendingOf]
        exact ((ih k h).cons y).trans (List.Perm.swap x y _)
      · simp only [List.set_cons_succ, pendingOf]
        exact ih k h

theorem pendingOf_eraseIdx {τ : Type} (x : τ) :
    ∀ (ts : List (τ × Phase)) (k : Nat), ts.get? k = some (x, Phase.returning) →
      pendingOf (ts.eraseIdx k) = pendingOf ts ∧ (ts.eraseIdx k).length + 1 = ts.length := by
  intro ts
  induction ts with
  | nil => intro k h; simp at h
  | cons t ts ih =>
    intro k h
    cases k with
    | zero =>
      simp only [List.get?_cons_zero, Option.some.injEq] at h
      subst h
      simp only [List.eraseIdx_cons_zero, pendingOf, List.length_cons, and_self]
    | succ k =>
      simp only [List.get?_cons_succ] at h
      obtain ⟨y, p⟩ := t
      obtain ⟨h1, h2⟩ := ih k h
      cases p
      · simp only [List.eraseIdx_cons_succ, pendingOf, h1, List.length_cons, h2, and_self]
      · simp only [List.eraseIdx_cons_succ, pendingOf, h1, List.length_cons, h2, and_self]

theorem Yields_snoc {ι τ ω : Type} (g : Gate ι τ ω) {it0 it it1 : ι} {xs : List τ} {x : τ}
    (h : g.Yields it0 xs it) (hn : g.next it = some (x, it1)) :
    g.Yields it0 (xs ++ [x]) it1 := by
  induction h with
  | done it => exact Gate.Yields.more hn (Gate.Yields.done it1)
  | more h1 _ ih => exact Gate.Yields.more h1 (ih hn)

theorem runAll_snoc {ι τ ω : Type} (g : Gate ι τ ω) (xs : List τ) (x : τ) (w : ω) :
    g.runAll (xs ++ [x]) w = g.body x (g.runAll xs w) := by
  simp [Gate.runAll, List.foldl_append]

/-- Every event keeps the invariant. -/
theorem Inv_step {ι τ ω : Type} (g : Gate ι τ ω) (it0 : ι) (w0 : ω) (s s1 : Sched ι τ ω)
    (e : Event) (hinv : g.Inv it0 w0 s) (hstep : g.step s e = some s1) : g.Inv it0 w0 s1 := by
  obtain ⟨hsem, hwg, hcap, disp, ran, hy, hw, hp⟩ := hinv
  cases e with
  | dispatch =>
    simp only [Gate.step] at hstep
    cases hn : g.next s.iter with
    | none => rw [hn] at hstep; simp at hstep
    | some p =>
      obtain ⟨x, it⟩ := p
      rw [hn] at hstep
      simp only at hstep
      by_cases hlt : s.sem < g.capacity
      · rw [if_pos hlt] at hstep
        simp only [Option.some.injEq] at hstep
        subst hstep
        refine ⟨?_, ?_, ?_, disp ++ [x], ran, Yields_snoc g hy hn, hw, ?_⟩
        · simp [hsem]
        · simp [hwg]
        · simp only [List.length_append, List.length_singleton]; omega
        · simp only [pendingOf_append_spawned]
          rw [← List.append_assoc]
          exact List.Perm.append_right _ hp
      · rw [if_neg hlt] at hstep; simp at hstep
  | run k =>
    simp only [Gate.step] at hstep
    cases hk : s.tasks.get? k with
    | none => rw [hk] at hstep; simp at hstep
    | some t =>
      obtain ⟨x, p⟩ := t
      rw [hk] at hstep
      cases p with
      | returning => simp at hstep
      | spawned =>
        simp only [Option.some.injEq] at hstep
        subst hstep
        refine ⟨?_, ?_, ?_, disp, ran ++ [x], hy, ?_, ?_⟩
        · simp [hsem]
        · simp [hwg]
        · simp only [List.length_set]; exact hcap
        · simp only [runAll_snoc, hw]
        · have h1 := pendingOf_set x s.tasks k hk
          refine List.Perm.trans ?_ hp
          rw [List.append_assoc]
          exact List.Perm.append_left _ h1.symm
  | exit k =>
    simp only [Gate.step] at hstep
    cases hk : s.tasks.get? k with
    | none => rw [hk] at hstep; simp at hstep
    | some t =>
      obtain ⟨x, p⟩ := t
      rw [hk] at hstep
      cases p with
      | spawned => simp at hstep
      | returning =>
        simp only [Option.some.injEq] at hstep
        subst hstep
        obtain ⟨h1, h2⟩ := pendingOf_eraseIdx x s.tasks k hk
        refine ⟨?_, ?_, ?_, disp, ran, hy, hw, ?_⟩
        · simp only; omega
        · simp only; omega
        · simp only; omega
        · simp only [h1]; exact hp

/-- The invariant holds in every state a schedule leads to. -/
theorem Inv_exec {ι τ ω : Type} (g : Gate ι τ ω) (it0 : ι) (w0 : ω) :
    ∀ (es : List Event) (s s1 : Sched ι τ ω), g.Inv it0 w0 s → g.exec s es = some s1 →
      g.Inv it0 w0 s1 := by
  intro es
  induction es with
  | nil =>
    intro s s1 hinv h
    simp only [Gate.exec, Option.some.injEq] at h
    subst h
    exact hinv
  | cons e es ih =>
    intro s s1 hinv h
    simp only [Gate.exec] at h
    cases hs : g.step s e with
    | none => rw [hs] at h; simp at h
    | some s2 =>
      rw [hs] at h
      exact ih s2 s1 (Inv_step g it0 w0 s s2 e hinv hs) h

theorem Inv_init {ι τ ω : Type} (g : Gate ι τ ω) (it0 : ι) (w0 : ω) :
    g.Inv it0 w0 (Sched.init it0 w0) :=
  ⟨rfl, rfl, Nat.zero_le _, [], [], Gate.Yields.done it0, rfl, List.Perm.refl _⟩

/-! ### Goroutines behind an admission gate: the end, and the way there -/

/-- In a state where the function has returned, every item the loop handed out has had
its body run exactly once: the bodies that ran are a rearrangement of the items. -/
theorem Inv_returned {ι τ ω : Type} (g : Gate ι τ ω) (it0 : ι) (w0 : ω) (s : Sched ι τ ω)
    (hinv : g.Inv it0 w0 s) (hret : g.returned s = true) :
    ∃ disp ran : List τ, g.Yields it0 disp s.iter ∧ g.next s.iter = none ∧
      s.world = g.runAll ran w0 ∧ List.Perm ran disp := by
  obtain ⟨_, hwg, _, disp, ran, hy, hw, hp⟩ := hinv
  simp only [Gate.returned, Bool.and_eq_true, Option.isNone_iff_eq_none, beq_iff_eq] at hret
  have ht : s.tasks = [] := List.eq_nil_of_length_eq_zero (by omega)
  rw [ht] at hp
  simp only [pendingOf, List.append_nil] at hp
  exact ⟨disp, ran, hy, hret.1, hw, hp⟩

/-- With a capacity of at least one, no state a schedule leads to is stuck before the
function has returned. -/
theorem Inv_progress {ι τ ω : Type} (g : Gate ι τ ω) (it0 : ι) (w0 : ω) (s : Sched ι τ ω)
    (hcap : 0 < g.capacity) (hinv : g.Inv it0 w0 s) (hret : g.returned s = false) :
    ∃ e s1, g.step s e = some s1 := by
  obtain ⟨hsem, hwg, _, _⟩ := hinv
  cases ht : s.tasks with
  | nil =>
    rw [ht] at hsem hwg
    simp only [List.length_nil] at hsem hwg
    cases hn : g.next s.iter with
    | none => simp [Gate.returned, hn, hwg] at hret
    | some p =>
      obtain ⟨x, it⟩ := p
      refine ⟨Event.dispatch, Sched.mk it (s.sem + 1) (s.wg + 1)
        (s.tasks ++ [(x, Phase.spawned)]) s.world, ?_⟩
      simp only [Gate.step, hn]
      rw [if_pos (by omega)]
  | cons t ts =>
    obtain ⟨x, p⟩ := t
    cases p with
    | spawned =>
      exact ⟨Event.run 0, Sched.mk s.iter s.sem s.wg (s.tasks.set 0 (x, Phase.returning))
        (g.body x s.world), by simp [Gate.step, ht]⟩
    | returning =>
      exact ⟨Event.exit 0, Sched.mk s.iter (s.sem - 1) (s.wg - 1) (s.tasks.eraseIdx 0)
        s.world, by simp [Gate.step, ht]⟩

/-- With a capacity of at least one, letting each goroutine finish before the next is
dispatched is a schedule, and the function returns at its end. -/
theorem exec_oneByOne {ι τ ω : Type} (g : Gate ι τ ω) (hcap : 0 < g.capacity)
    {it it1 : ι} {xs : List τ} (hy : g.Yields it xs it1) (w : ω) :
    g.exec (Sched.init it w) (oneByOne xs.length)
      = some (Sched.init it1 (g.runAll xs w)) := by
  induction hy generalizing w with
  | done it => rfl
  | @more ita itb itc x xs hn _ ih =>
    have h1 : g.step (Sched.init ita w) Event.dispatch
        = some { iter := itb, sem := 1, wg := 1, tasks := [(x, Phase.spawned)], world := w } := by
      simp only [Gate.step, hn, Sched.init]
      rw [if_pos hcap]
      rfl
    have h2 : g.step { iter := itb, sem := 1, wg := 1, tasks := [(x, Phase.spawned)], world := w }
        (Event.run 0)
        = some { iter := itb, sem := 1, wg := 1, tasks := [(x, Phase.returning)]
                 world := g.body x w } := rfl
    have h3 : g.step { iter := itb, sem := 1, wg := 1, tasks := [(x, Phase.returning)]
                       world := g.body x w } (Event.exit 0)
        = some (Sched.init itb (g.body x w)) := rfl
    show g.exec (Sched.init ita w)
      (Event.dispatch :: Event.run 0 :: Event.exit 0 :: oneByOne xs.length) = _
    simp only [Gate.exec, h1, h2, h3]
    exact ih (g.body x w)

theorem returned_init {ι τ ω : Type} (g : Gate ι τ ω) (it : ι) (w : ω)
    (h : g.next it = none) : g.returned (Sched.init it w) = true := by
  simp [Gate.returned, Sched.init, h]

namespace recon

theorem wrapInt_eq (x : Int) (h1 : -2 ^ 63 ≤ x) (h2 : x < 2 ^ 63) : wrapInt x = x := by
  unfold wrapInt
  rw [Int.emod_eq_of_lt (by omega) (by omega)]
  omega

theorem portsOf_nil (lo hi : Int) (h : hi < lo) : portsOf lo hi = [] := by
  unfold portsOf
  have : (hi + 1 - lo).toNat = 0 := by omega
  rw [this]
  rfl

theorem portsOf_cons (lo hi : Int) (h : lo ≤ hi) :
    portsOf lo hi = lo :: portsOf (lo + 1) hi := by
  unfold portsOf
  have : (hi + 1 - lo).toNat = (hi + 1 - (lo + 1)).toNat + 1 := by omega
  rw [this, List.range_succ_eq_map, List.map_cons, List.map_map]
  congr 1
  · simp
  · apply List.map_congr_left
    intro k _
    simp only [Function.comp_apply, Nat.cast_succ]
    omega

theorem mem_portsOf (lo hi p : Int) : p ∈ portsOf lo hi ↔ lo ≤ p ∧ p ≤ hi := by
  unfold portsOf
  simp only [List.mem_map, List.mem_range]
  constructor
  · rintro ⟨k, hk, rfl⟩
    omega
  · rintro ⟨h1, h2⟩
    exact ⟨(p - lo).toNat, by omega, by omega⟩

theorem nodup_portsOf (lo hi : Int) : (portsOf lo hi).Nodup := by
  unfold portsOf
  refine List.Nodup.map ?_ (List.nodup_range _)
  intro a b h
  simp only at h
  omega

/-- The loop of `Scan` hands out the ports of the range, in order, as long as the counter
does not overflow. -/
theorem gate_Yields_final {σ : Type} (call : DialFn σ) (r : Recon)
    (hhi : r.portRange.2 < 2 ^ 63 - 1) {lo i : Int} {xs : List Int}
    (hy : (Recon.gate call r).Yields lo xs i) (hlo : -2 ^ 63 ≤ lo)
    (hn : (Recon.gate call r).next i = none) : xs = portsOf lo r.portRange.2 := by
  induction hy with
  | done it =>
    simp only [Recon.gate] at hn
    by_cases h : it ≤ r.portRange.2
    · rw [if_pos h] at hn; exact Option.noConfusion hn
    · exact (portsOf_nil _ _ (by omega)).symm
  | @more ita itb itc x xs h1 _ ih =>
    simp only [Recon.gate] at h1
    by_cases h : ita ≤ r.portRange.2
    · rw [if_pos h] at h1
      simp only [Option.some.injEq, Prod.mk.injEq] at h1
      obtain ⟨rfl, rfl⟩ := h1
      rw [wrapInt_eq _ (by omega) (by omega)] at ih
      rw [portsOf_cons _ _ h, ih (by omega) hn]
    · rw [if_neg h] at h1; exact Option.noConfusion h1

theorem gate_Yields_exists {σ : Type} (call : DialFn σ) (r : Recon)
    (hhi : r.portRange.2 < 2 ^ 63 - 1) :
    ∀ (n : Nat) (lo : Int), -2 ^ 63 ≤ lo → (r.portRange.2 + 1 - lo).toNat = n →
      ∃ it, (Recon.gate call r).Yields lo (portsOf lo r.portRange.2) it ∧
        (Recon.gate call r).next it = none := by
  intro n
  induction n with
  | zero =>
    intro lo _ hn
    refine ⟨lo, ?_, ?_⟩
    · rw [portsOf_nil _ _ (by omega)]; exact Gate.Yields.done lo
    · simp only [Recon.gate]
      rw [if_neg (by omega)]
  | succ n ih =>
    intro lo hlo hn
    have hle : lo ≤ r.portRange.2 := by omega
    obtain ⟨it, h1, h2⟩ := ih (lo + 1) (by omega) (by omega)
    refine ⟨it, ?_, h2⟩
    rw [portsOf_cons _ _ hle]
    refine Gate.Yields.more ?_ h1
    simp only [Recon.gate]
    rw [if_pos hle, wrapInt_eq _ (by omega) (by omega)]

/-- What one probe does to the world: one dial of the port's address and, when debugging
is on and a logger is set, one record that says whether the dial succeeded. -/
theorem probe_world {σ : Type} (call : DialFn σ) (r : Recon) (p : Int) (w : World σ)
    (ok : Bool)
    (hok : (∃ c, (call w.dstate r.network (utils.hostPort r.ip p)).1 = Except.ok c)
      ↔ ok = true) :
    (Recon.probe call r p w).dials = w.dials ++ [(r.network, utils.hostPort r.ip p)] ∧
    (Recon.probe call r p w).lines
      = w.lines ++ (if (r.debug && r.hasLogger) = true then [outcomeRecord r.ip p ok] else []) ∧
    (Recon.probe call r p w).log = w.log := by
  unfold Recon.probe
  simp only [World.dial]
  cases hc : (call w.dstate r.network (utils.hostPort r.ip p)).1 with
  | error e =>
    have hf : ok = false := by
      cases ok with
      | false => rfl
      | true =>
        obtain ⟨c, h⟩ := hok.mpr rfl
        rw [hc] at h
        exact Except.noConfusion h
    subst hf
    simp only [Recon.DebugPrint, outcomeRecord]
    by_cases hd : (r.debug && r.hasLogger) = true
    · simp [hd, World.Println]
    · simp [hd]
  | ok c =>
    have ht : ok = true := hok.mp ⟨c, hc⟩
    subst ht
    simp only [Recon.DebugPrint, outcomeRecord]
    by_cases hd : (r.debug && r.hasLogger) = true
    · simp [hd, World.Println, World.Close]
    · simp [hd, World.Close]

/-- What the probes of a list of ports, run one after the other, do to the world. -/
theorem runAll_world {σ : Type} (call : DialFn σ) (r : Recon) (S : Int → Bool) :
    ∀ (ran : List Int) (w : World σ),
      (∀ (st : σ) (p : Int), p ∈ ran →
        ((∃ c, (call st r.network (utils.hostPort r.ip p)).1 = Except.ok c) ↔ S p = true)) →
      ((Recon.gate call r).runAll ran w).dials
        = w.dials ++ ran.map (fun p => (r.network, utils.hostPort r.ip p)) ∧
      ((Recon.gate call r).runAll ran w).lines
        = w.lines ++ (if (r.debug && r.hasLogger) = true
            then ran.map (fun p => outcomeRecord r.ip p (S p)) else []) ∧
      ((Recon.gate call r).runAll ran w).log = w.log := by
  intro ran
  induction ran with
  | nil => intro w _; simp [Gate.runAll]
  | cons p ps ih =>
    intro w h
    obtain ⟨h1, h2, h3⟩ := probe_world call r p w (S p) (h w.dstate p (List.mem_cons_self _ _))
    obtain ⟨i1, i2, i3⟩ := ih (Recon.probe call r p w)
      (fun st q hq => h st q (List.mem_cons_of_mem _ hq))
    have hstep : (Recon.gate call r).runAll (p :: ps) w
        = (Recon.gate call r).runAll ps (Recon.probe call r p w) := rfl
    rw [hstep, i1, i2, i3, h1, h2, h3]
    refine ⟨by simp, ?_, rfl⟩
    by_cases hd : (r.debug && r.hasLogger) = true
    · simp [hd]
    · simp [hd]

end recon

namespace recon

/-- C5 (counterexample): a scan of port 80 of `127.0.0.1` with debugging off, against a
dialer that accepts port 80, dials the port and returns, and has yielded no record at all:
there is no "Connected to 127.0.0.1:80". -/
theorem Scan_without_debug_yields_no_record :
    ∃ s, examples.silentScan.Scan examples.onlyPort80 (World.fresh ()) (oneByOne 1) = some s ∧
      (Recon.gate examples.onlyPort80 examples.silentScan).returned s = true ∧
      (∃ c, (examples.onlyPort80 () "tcp" (utils.hostPort "127.0.0.1" 80)).1 = Except.ok c) ∧
      s.world.dials = [("tcp", "127.0.0.1:80")] ∧
      "Connected to 127.0.0.1:80" ∉ s.world.lines ∧
      s.world.lines = [] ∧ s.world.log = [] := by
  refine ⟨_, rfl, rfl, ⟨examples.quiet, rfl⟩, rfl, ?_, rfl, rfl⟩
  intro h
  exact List.not_mem_nil _ h

end recon

namespace recon

/-- C5 (amended): for a host, a port range that a Go `int` counter runs through without
overflow, a positive concurrency limit and a dialer that accepts exactly the ports of `S`
in the range, `Scan` (of `TCPRecon` and of `UDPRecon`, which are the same code) can always
go on until it returns, and whenever it has returned, under whatever schedule, it has
invoked the dialer exactly once on `host:port` for each port of the range and on no other
address (the dials it made are a rearrangement of the addresses of the range); when
debugging is on and a logger is set it has printed exactly one record per port,
"Connected to host:port" for the ports in `S` and "Failed to connect to host:port" for the
others; otherwise it has printed nothing. -/
theorem Scan_probes_each_port_once {σ : Type} (call : DialFn σ) (r : Recon) (w : World σ)
    (S : Finset Int)
    (hconc : 0 < r.concurrentScans)
    (hlo : -2 ^ 63 ≤ r.portRange.1) (hhi : r.portRange.2 < 2 ^ 63 - 1)
    (hS : ∀ (st : σ) (p : Int), r.portRange.1 ≤ p → p ≤ r.portRange.2 →
      ((∃ c, (call st r.network (utils.hostPort r.ip p)).1 = Except.ok c) ↔ p ∈ S)) :
    (∃ s, r.Scan call w (oneByOne (portsOf r.portRange.1 r.portRange.2).length) = some s ∧
      (Recon.gate call r).returned s = true) ∧
    (∀ es s, r.Scan call w es = some s → (Recon.gate call r).returned s = false →
      ∃ e s1, (Recon.gate call r).step s e = some s1) ∧
    (∀ es s, r.Scan call w es = some s → (Recon.gate call r).returned s = true →
      List.Perm (s.world.dials.drop w.dials.length)
        ((portsOf r.portRange.1 r.portRange.2).map
          (fun p => (r.network, utils.hostPort r.ip p))) ∧
      List.Perm (s.world.lines.drop w.lines.length)
        (if (r.debug && r.hasLogger) = true then
          (portsOf r.portRange.1 r.portRange.2).map (fun p =>
            if p ∈ S then "Connected to " ++ utils.hostPort r.ip p
            else "Failed to connect to " ++ utils.hostPort r.ip p)
        else [])) := by
  have hneg : ¬ r.concurrentScans < 0 := by omega
  have hcap : 0 < (Recon.gate call r).capacity := by
    show 0 < r.concurrentScans.toNat
    omega
  have hinv : ∀ es s, r.Scan call w es = some s →
      (Recon.gate call r).Inv r.portRange.1 w s := by
    intro es s h
    unfold Recon.Scan at h
    rw [if_neg hneg] at h
    exact Inv_exec _ _ _ es _ s (Inv_init _ _ _) h
  refine ⟨?_, ?_, ?_⟩
  · obtain ⟨it, h1, h2⟩ := gate_Yields_exists call r hhi _ r.portRange.1 hlo rfl
    refine ⟨Sched.init it ((Recon.gate call r).runAll (portsOf r.portRange.1 r.portRange.2) w),
      ?_, returned_init _ it _ h2⟩
    unfold Recon.Scan
    rw [if_neg hneg]
    exact exec_oneByOne _ hcap h1 w
  · intro es s h hret
    exact Inv_progress _ _ _ s hcap (hinv es s h) hret
  · intro es s h hret
    obtain ⟨disp, ran, hy, hn, hw, hp⟩ := Inv_returned _ _ _ s (hinv es s h) hret
    have hd := gate_Yields_final call r hhi hy hlo hn
    subst hd
    have hmem : ∀ (st : σ) (p : Int), p ∈ ran →
        ((∃ c, (call st r.network (utils.hostPort r.ip p)).1 = Except.ok c)
          ↔ decide (p ∈ S) = true) := by
      intro st p hpr
      have := (mem_portsOf _ _ p).mp (hp.subset hpr)
      rw [decide_eq_true_iff]
      exact hS st p this.1 this.2
    obtain ⟨h1, h2, _⟩ := runAll_world call r (fun p => decide (p ∈ S)) ran w hmem
    refine ⟨?_, ?_⟩
    · rw [hw, h1, List.drop_left]
      exact hp.map _
    · rw [hw, h2, List.drop_left]
      by_cases hdb : (r.debug && r.hasLogger) = true
      · rw [if_pos hdb, if_pos hdb]
        have hrec : (fun p => outcomeRecord r.ip p (decide (p ∈ S)))
            = (fun p => if p ∈ S then "Connected to " ++ utils.hostPort r.ip p
                else "Failed to connect to " ++ utils.hostPort r.ip p) := by
          funext p
          by_cases hp : p ∈ S
          · simp [outcomeRecord, hp]
          · simp [outcomeRecord, hp]
        rw [hrec]
        exact hp.map _
      · rw [if_neg hdb, if_neg hdb]

theorem Scan_probes_each_port_once_witness :
    (∃ s, examples.debugScan.Scan examples.onlyPort80 (World.fresh ())
        (oneByOne (portsOf 1 100).length) = some s ∧
      (Recon.gate examples.onlyPort80 examples.debugScan).returned s = true) ∧
    (∀ es s, examples.debugScan.Scan examples.onlyPort80 (World.fresh ()) es = some s →
      (Recon.gate examples.onlyPort80 examples.debugScan).returned s = true →
      List.Perm s.world.dials
        ((portsOf 1 100).map (fun p => ("tcp", utils.hostPort "127.0.0.1" p))) ∧
      List.Perm s.world.lines
        ((portsOf 1 100).map (fun p =>
          if p ∈ ({80} : Finset Int) then "Connected to " ++ utils.hostPort "127.0.0.1" p
          else "Failed to connect to " ++ utils.hostPort "127.0.0.1" p))) := by
  have h := Scan_probes_each_port_once examples.onlyPort80 examples.debugScan (World.fresh ())
    {80} (by decide) (by decide) (by decide)
    (by
      intro st p h1 h2
      have h1 : (1 : Int) ≤ p := h1
      have h2 : p ≤ (100 : Int) := h2
      rw [Finset.mem_singleton]
      constructor
      · rintro ⟨c, hc⟩
        by_contra hne
        revert hc
        interval_cases p <;> first | exact absurd rfl hne | exact fun hc => Except.noConfusion hc
      · rintro rfl
        exact ⟨examples.quiet, rfl⟩)
  exact ⟨h.1, h.2.2⟩

end recon

namespace utils

/-! ### `GrabBanner` call by call is `GrabBanner` -/

theorem run_closeAll {σ : Type} (call : DialFn σ) (cs : List Conn) (next : Routine)
    (w : World σ) :
    Routine.run call (closeAll cs next) w = Routine.run call next (cs.foldl World.Close w) := by
  induction cs generalizing w with
  | nil => rfl
  | cons c cs ih => exact ih (w.Close c)

/-- The loop of `GrabBanner` run call by call on its own is the loop of `GrabBanner`. -/
theorem run_grabLoopCalls {σ : Type} (call : DialFn σ) (addr : String) (bufferSize : Nat)
    (after : String → Option GoError → List Conn → Routine) :
    ∀ (k : Nat) (st : GrabState σ),
      Routine.run call (grabLoopCalls addr bufferSize after k st.banner st.err st.deferred)
          st.world
        = Routine.run call
            (after (grabLoop call addr bufferSize k st).banner
              (grabLoop call addr bufferSize k st).err
              (grabLoop call addr bufferSize k st).deferred)
            (grabLoop call addr bufferSize k st).world := by
  intro k
  induction k with
  | zero => intro st; rfl
  | succ k ih =>
    intro st
    rw [grabLoopCalls, grabLoop, Routine.run]
    simp only [World.dial]
    cases (call st.world.dstate "tcp" addr).1 with
    | error e =>
      simp only [Routine.run]
      exact ih (GrabState.mk
        (World.Log (World.mk (call st.world.dstate "tcp" addr).2
          (st.world.dials ++ [("tcp", addr)]) st.world.log st.world.lines st.world.closed)
          ErrorLevel ("Failed to connect to " ++ addr ++ ": " ++ e.msg))
        st.banner st.err st.deferred)
    | ok conn =>
      simp only
      cases (conn.Read bufferSize).err with
      | none => rfl
      | some e =>
        simp only
        by_cases hE : e.isEOF = true
        · rw [if_pos hE, if_pos hE]
          rfl
        · rw [if_neg hE, if_neg hE]
          simp only [Routine.run]
          exact ih (GrabState.mk
            (World.Log (World.mk (call st.world.dstate "tcp" addr).2
              (st.world.dials ++ [("tcp", addr)]) st.world.log st.world.lines st.world.closed)
              ErrorLevel ("Failed to read from " ++ addr ++ ": " ++ e.msg))
            st.banner st.err (conn :: st.deferred))

/-- The function `GrabBanner` run call by call on its own is `GrabBanner`: the caller goes
on with the values `GrabBanner` returns, in the world it leaves. -/
theorem run_GrabBannerCalls {σ : Type} (call : DialFn σ) (ip : String) (port : Int)
    (bufferSize : Nat) (ret : String → Option GoError → Routine) (w : World σ) :
    Routine.run call (GrabBannerCalls ip port bufferSize ret) w
      = Routine.run call
          (ret (GrabBanner call ip port bufferSize w).1.1
            (GrabBanner call ip port bufferSize w).1.2)
          (GrabBanner call ip port bufferSize w).2 := by
  unfold GrabBannerCalls
  have h := run_grabLoopCalls call (hostPort ip port) bufferSize
    (fun banner err deferred =>
      closeAll deferred
        (match err with
        | some e =>
          ret "" (some (GoError.mk ("failed to grab banner from " ++ hostPort ip port ++
            " after " ++ toString maxRetries ++ " attempts: " ++ e.msg) e.isEOF))
        | none => ret banner none))
    maxRetries (GrabState.mk w "" none [])
  simp only at h
  rw [h, run_closeAll]
  unfold GrabBanner
  simp only
  cases (grabLoop call (hostPort ip port) bufferSize maxRetries
    (GrabState.mk w "" none [])).err with
  | none => rfl
  | some e => rfl

/-- The goroutine of `GrabBanners` for a host, run call by call on its own, is one call of
`GrabBanner` followed by the record of its result. -/
theorem run_grabRoutine {σ : Type} (call : DialFn σ) (port : Int) (bufferSize : Nat)
    (ip : String) (w : World σ) :
    Routine.run call (grabRoutine port bufferSize ip) w = grabTask call port bufferSize ip w := by
  unfold grabRoutine grabTask
  rw [run_GrabBannerCalls]
  rcases GrabBanner call ip port bufferSize w with ⟨⟨banner, err⟩, w1⟩
  cases err with
  | none => rfl
  | some e => rfl

end utils

/-! ### Lists of live goroutines -/

theorem flatten_map_set_cons {α β : Type} (f : α → List β) (x : β) (t t1 : α)
    (hf : f t = x :: f t1) :
    ∀ (ts : List α) (k : Nat), ts.get? k = some t →
      List.Perm (ts.map f).flatten (x :: ((ts.set k t1).map f).flatten) := by
  intro ts
  induction ts with
  | nil => intro k h; simp at h
  | cons a ts ih =>
    intro k h
    cases k with
    | zero =>
      simp only [List.get?_cons_zero, Option.some.injEq] at h
      subst h
      simp only [List.set_cons_zero, List.map_cons, List.flatten_cons, hf, List.cons_append]
      exact List.Perm.refl _
    | succ k =>
      simp only [List.get?_cons_succ] at h
      simp only [List.set_cons_succ, List.map_cons, List.flatten_cons]
      exact ((ih k h).append_left (f a)).trans List.perm_middle

theorem flatten_map_set_same {α β : Type} (f : α → List β) (t t1 : α) (hf : f t = f t1) :
    ∀ (ts : List α) (k : Nat), ts.get? k = some t →
      ((ts.set k t1).map f).flatten = (ts.map f).flatten := by
  intro ts
  induction ts with
  | nil => intro k h; simp at h
  | cons a ts ih =>
    intro k h
    cases k with
    | zero =>
      simp only [List.get?_cons_zero, Option.some.injEq] at h
      subst h
      simp only [List.set_cons_zero, List.map_cons, List.flatten_cons, hf]
    | succ k =>
      simp only [List.get?_cons_succ] at h
      simp only [List.set_cons_succ, List.map_cons, List.flatten_cons, ih k h]

theorem flatten_map_eraseIdx {α β : Type} (f : α → List β) (t : α) (hf : f t = []) :
    ∀ (ts : List α) (k : Nat), ts.get? k = some t →
      ((ts.eraseIdx k).map f).flatten = (ts.map f).flatten ∧
      (ts.eraseIdx k).length + 1 = ts.length := by
  intro ts
  induction ts with
  | nil => intro k h; simp at h
  | cons a ts ih =>
    intro k h
    cases k with
    | zero =>
      simp only [List.get?_cons_zero, Option.some.injEq] at h
      subst h
      simp [hf]
    | succ k =>
      simp only [List.get?_cons_succ] at h
      obtain ⟨h1, h2⟩ := ih k h
      simp only [List.eraseIdx_cons_succ, List.map_cons, List.flatten_cons, h1,
        List.length_cons, h2, and_self]

theorem mem_set_or_eq {α : Type} (t t1 : α) :
    ∀ (ts : List α) (k : Nat), ts.get? k = some t →
      t1 ∈ ts.set k t1 ∧ ∀ x, x ∈ ts → x ∈ ts.set k t1 ∨ x = t := by
  intro ts
  induction ts with
  | nil => intro k h; simp at h
  | cons a ts ih =>
    intro k h
    cases k with
    | zero =>
      simp only [List.get?_cons_zero, Option.some.injEq] at h
      subst h
      refine ⟨by simp, ?_⟩
      intro x hx
      rcases List.mem_cons.mp hx with rfl | hx
      · exact Or.inr rfl
      · exact Or.inl (by simp [hx])
    | succ k =>
      simp only [List.get?_cons_succ] at h
      obtain ⟨h1, h2⟩ := ih k h
      refine ⟨by simp [h1], ?_⟩
      intro x hx
      rcases List.mem_cons.mp hx with rfl | hx
      · exact Or.inl (by simp)
      · rcases h2 x hx with h3 | h3
        · exact Or.inl (by simp [h3])
        · exact Or.inr h3

theorem mem_eraseIdx_or_eq {α : Type} (t : α) :
    ∀ (ts : List α) (k : Nat), ts.get? k = some t →
      ∀ x, x ∈ ts → x ∈ ts.eraseIdx k ∨ x = t := by
  intro ts
  induction ts with
  | nil => intro k h; simp at h
  | cons a ts ih =>
    intro k h
    cases k with
    | zero =>
      simp only [List.get?_cons_zero, Option.some.injEq] at h
      subst h
      intro x hx
      rcases List.mem_cons.mp hx with rfl | hx
      · exact Or.inr rfl
      · exact Or.inl (by simpa using hx)
    | succ k =>
      simp only [List.get?_cons_succ] at h
      intro x hx
      rcases List.mem_cons.mp hx with rfl | hx
      · exact Or.inl (by simp)
      · rcases ih k h x hx with h3 | h3
        · exact Or.inl (by simp [h3])
        · exact Or.inr h3

theorem mem_of_get? {α : Type} (t : α) :
    ∀ (ts : List α) (k : Nat), ts.get? k = some t → t ∈ ts := by
  intro ts
  induction ts with
  | nil => intro k h; simp at h
  | cons a ts ih =>
    intro k h
    cases k with
    | zero =>
      simp only [List.get?_cons_zero, Option.some.injEq] at h
      subst h
      exact List.mem_cons_self _ _
    | succ k =>
      simp only [List.get?_cons_succ] at h
      exact List.mem_cons_of_mem _ (ih k h)

/-! ### What a goroutine is bound to do -/

/-- A goroutine bound to make `n` dials of `addr` makes them when run on its own. -/
theorem run_dials {σ : Type} (call : DialFn σ) (addr : String) {n : Nat} {p : Routine}
    (h : Routine.DialsLeft call addr n p) :
    ∀ w : World σ, (Routine.run call p w).dials = w.dials ++ List.replicate n ("tcp", addr) := by
  induction h with
  | done => intro w; simp [Routine.run]
  | log _ ih => intro w; rw [Routine.run, ih]; rfl
  | close _ ih => intro w; rw [Routine.run, ih]; rfl
  | @dial n next _ ih =>
    intro w
    rw [Routine.run]
    have h1 : (w.dial call "tcp" addr).1 = (call w.dstate "tcp" addr).1 := rfl
    rw [h1, ih w.dstate]
    simp only [World.dial, List.replicate_succ, List.append_assoc, List.singleton_append]

theorem pending_eq {σ : Type} (call : DialFn σ) (addr : String) (st : σ) (ip : String)
    {n : Nat} {p : Routine} (h : Routine.DialsLeft call addr n p) :
    Pool.pending call st (ip, p) = List.replicate n ("tcp", addr) := by
  unfold Pool.pending
  rw [run_dials call addr h]
  rfl

namespace proxy

theorem NewProxy_rejects_exactly_empty_address_witness :
    (NewHTTPProxy "" "user" "secret" examples.deadNet).1
      = Except.error { msg := "proxy address cannot be empty", isEOF := false } ∧
    (NewHTTPProxy "" "user" "secret" examples.deadNet).2 = examples.deadNet ∧
    (NewSOCKS5Proxy "10.0.0.9:1080" "" "" examples.deadNet).1 = Except.ok examples.socksDialer :=
  have h1 := NewProxy_rejects_exactly_empty_address "" "user" "secret" examples.deadNet
  have h2 := NewProxy_rejects_exactly_empty_address "10.0.0.9:1080" "" "" examples.deadNet
  ⟨h1.2.2.1, h1.2.1, h2.2.2.2.2.2⟩

theorem HTTP_Dial_stops_at_deadline_witness :
    (∃ r, (examples.httpDialer.SetTimeout 1500000000).Dial "tcp" "example.org:80"
        examples.deadNet = some r ∧
      (callsSince examples.deadNet r.2.2).countP NetEvent.isConnect = 2 ∧
      r.1 = Except.error { msg := "connection attempt timed out", isEOF := false }) ∧
    (examples.httpDialer.SetTimeout 0).Dial "tcp" "example.org:80" examples.deadNet
      = some (Except.error { msg := "connection attempt timed out", isEOF := false },
          examples.httpDialer.SetTimeout 0, examples.deadNet) := by
  have h := HTTP_Dial_stops_at_deadline (examples.httpDialer.SetTimeout 1500000000) "tcp"
    "example.org:80" examples.deadNet
  have h0 := HTTP_Dial_stops_at_deadline examples.httpDialer "tcp" "example.org:80"
    examples.deadNet
  obtain ⟨r, hr, hc, ht⟩ := h.2.2.1 (fun _ _ => rfl)
  have hcount : ((List.range 3).filter (fun k => decide (attemptStart examples.deadNet k
      < examples.deadNet.now + (examples.httpDialer.SetTimeout 1500000000).timeout))).length
      = 2 := by decide
  rw [hcount] at hc
  exact ⟨⟨r, hr, hc, ht (by omega)⟩, h0.2.2.2 0 (le_refl 0)⟩

theorem HTTP_Dial_ignores_addr_witness :
    examples.httpDialer.Dial "tcp" "example.org:80" examples.liveNet
      = examples.httpDialer.Dial "tcp" "10.1.2.3:22" examples.liveNet ∧
    ∃ r, examples.httpDialer.Dial "tcp" "example.org:80" examples.liveNet = some r ∧
      ∀ e, e ∈ callsSince examples.liveNet r.2.2 → e.isConnect = true →
        e.destination = some "10.0.0.9:3128" :=
  HTTP_Dial_ignores_addr examples.httpDialer "tcp" "example.org:80" "10.1.2.3:22"
    examples.liveNet

theorem SOCKS5_flag_reset_only_by_Reconnect_witness :
    (examples.socksDialer.Dial "tcp" "example.org:80" examples.liveNet).2.1.isConnected = true ∧
    (SOCKS5ProxyDialer.applyAll
      (examples.socksDialer.Dial "tcp" "example.org:80" examples.liveNet).2
      [Op.SetTimeout 5, Op.Dial "tcp" "example.org:81", Op.SetCredentials "u" "p"]
      ).1.isConnected = true :=
  have h := SOCKS5_flag_reset_only_by_Reconnect examples.socksDialer examples.liveNet
  have h1 := (h.1 "tcp" "example.org:80" examples.quiet rfl).1
  ⟨h1, (SOCKS5_flag_reset_only_by_Reconnect
    (examples.socksDialer.Dial "tcp" "example.org:80" examples.liveNet).2.1
    (examples.socksDialer.Dial "tcp" "example.org:80" examples.liveNet).2.2).2.2.1
    [Op.SetTimeout 5, Op.Dial "tcp" "example.org:81", Op.SetCredentials "u" "p"]
    (by decide) h1⟩

end proxy

namespace proxy

/-! ### The two loops, attempt by attempt -/

/-- One pass through the loop of the SOCKS5 dialer: return with the connection of the
attempt, or sleep a second and go round. -/
theorem socks_loop_step (d : SOCKS5ProxyDialer) (network addr : String) (left : Nat)
    (w : Net) :
    SOCKS5ProxyDialer.dialLoop network addr (left + 1) d w
      = match (d.attempt network addr w).1 with
        | some c =>
          (Except.ok c, { d with isConnected := true, conn := some c },
            (d.attempt network addr w).2)
        | none =>
          SOCKS5ProxyDialer.dialLoop network addr left d
            ((d.attempt network addr w).2.Sleep second) := by
  rw [SOCKS5ProxyDialer.dialLoop]
  unfold SOCKS5ProxyDialer.attempt
  simp only [Net.SOCKS5, Net.socksDial]
  cases w.socksOutcome w.socksCalls with
  | some e => rfl
  | none =>
    simp only
    cases (w.connectOutcome w.connects).1 with
    | error e => rfl
    | ok c => rfl

/-- An attempt of the SOCKS5 dialer makes calls of which exactly one opens an attempt and
none is a sleep. -/
theorem socks_attempt_calls (d : SOCKS5ProxyDialer) (network addr : String) (w : Net) :
    ∃ evs, (d.attempt network addr w).2.trace = w.trace ++ evs ∧
      evs.countP NetEvent.startsAttempt = 1 ∧ evs.countP (NetEvent.isSleep second) = 0 := by
  unfold SOCKS5ProxyDialer.attempt
  simp only [Net.SOCKS5, Net.socksDial]
  cases w.socksOutcome w.socksCalls with
  | some e => exact ⟨[NetEvent.socks5 network d.proxyAddr d.username d.password], rfl, rfl, rfl⟩
  | none =>
    simp only
    cases (w.connectOutcome w.connects).1 with
    | error e =>
      exact ⟨[NetEvent.socks5 network d.proxyAddr d.username d.password,
        NetEvent.socksDial network d.proxyAddr addr w.now],
        by simp, rfl, rfl⟩
    | ok c =>
      exact ⟨[NetEvent.socks5 network d.proxyAddr d.username d.password,
        NetEvent.socksDial network d.proxyAddr addr w.now],
        by simp, rfl, rfl⟩

theorem socks_attemptWorld_shift (d : SOCKS5ProxyDialer) (network addr : String) (w : Net)
    (k : Nat) :
    d.attemptWorld network addr w (k + 1)
      = d.attemptWorld network addr ((d.attempt network addr w).2.Sleep second) k := by
  induction k with
  | zero => rfl
  | succ k ih => rw [SOCKS5ProxyDialer.attemptWorld, ih]; rfl

theorem socks_outcome_shift (d : SOCKS5ProxyDialer) (network addr : String) (w : Net)
    (k : Nat) :
    d.outcome network addr w (k + 1)
      = d.outcome network addr ((d.attempt network addr w).2.Sleep second) k := by
  unfold SOCKS5ProxyDialer.outcome
  rw [socks_attemptWorld_shift]

theorem socks_sleep_trace (d : SOCKS5ProxyDialer) (network addr : String) (w : Net)
    (evs : List NetEvent) (h : (d.attempt network addr w).2.trace = w.trace ++ evs) :
    ((d.attempt network addr w).2.Sleep second).trace
      = w.trace ++ (evs ++ [NetEvent.sleep second]) := by
  simp [Net.Sleep, h]

/-- All `n` attempts left to the SOCKS5 dialer fail: it returns the exhaustion error after
`n` attempts and `n` sleeps of one second. -/
theorem socks_shape_exhausted (d : SOCKS5ProxyDialer) (network addr : String) :
    ∀ (n : Nat) (w : Net), (∀ k, k < n → d.outcome network addr w k = none) →
      (SOCKS5ProxyDialer.dialLoop network addr n d w).1 = Except.error errExhausted ∧
      ∃ evs, (SOCKS5ProxyDialer.dialLoop network addr n d w).2.2.trace = w.trace ++ evs ∧
        evs.countP NetEvent.startsAttempt = n ∧ evs.countP (NetEvent.isSleep second) = n := by
  intro n
  induction n with
  | zero =>
    intro w _
    exact ⟨rfl, [], (List.append_nil _).symm, rfl, rfl⟩
  | succ n ih =>
    intro w h
    have h0 : (d.attempt network addr w).1 = none := h 0 (Nat.succ_pos n)
    obtain ⟨i1, evs1, i2, i3, i4⟩ := ih ((d.attempt network addr w).2.Sleep second)
      (fun k hk => by rw [← socks_outcome_shift]; exact h (k + 1) (Nat.succ_lt_succ hk))
    obtain ⟨evs, e1, e2, e3⟩ := socks_attempt_calls d network addr w
    rw [socks_loop_step, h0]
    simp only
    refine ⟨i1, evs ++ [NetEvent.sleep second] ++ evs1, ?_, ?_, ?_⟩
    · rw [i2, socks_sleep_trace d network addr w evs e1]
      simp only [List.append_assoc]
    · simp only [List.countP_append, e2, i3]
      simp [NetEvent.startsAttempt]
      omega
    · simp only [List.countP_append, e3, i4]
      simp [NetEvent.isSleep]
      omega

/-- Attempt `m + 1` is the first attempt of the SOCKS5 dialer that succeeds: it returns the
connection after `m + 1` attempts and `m` sleeps of one second. -/
theorem socks_shape_ok (d : SOCKS5ProxyDialer) (network addr : String) (c : Conn) :
    ∀ (m left : Nat) (w : Net), (∀ k, k < m → d.outcome network addr w k = none) →
      d.outcome network addr w m = some c →
      (SOCKS5ProxyDialer.dialLoop network addr (left + 1 + m) d w).1 = Except.ok c ∧
      ∃ evs, (SOCKS5ProxyDialer.dialLoop network addr (left + 1 + m) d w).2.2.trace
          = w.trace ++ evs ∧
        evs.countP NetEvent.startsAttempt = m + 1 ∧
        evs.countP (NetEvent.isSleep second) = m := by
  intro m
  induction m with
  | zero =>
    intro left w _ hc
    have h0 : (d.attempt network addr w).1 = some c := hc
    obtain ⟨evs, e1, e2, e3⟩ := socks_attempt_calls d network addr w
    rw [Nat.add_zero, socks_loop_step, h0]
    exact ⟨rfl, evs, e1, e2, e3⟩
  | succ m ih =>
    intro left w h hc
    have h0 : (d.attempt network addr w).1 = none := h 0 (Nat.succ_pos m)
    obtain ⟨i1, evs1, i2, i3, i4⟩ := ih left ((d.attempt network addr w).2.Sleep second)
      (fun k hk => by rw [← socks_outcome_shift]; exact h (k + 1) (Nat.succ_lt_succ hk))
      (by rw [← socks_outcome_shift]; exact hc)
    obtain ⟨evs, e1, e2, e3⟩ := socks_attempt_calls d network addr w
    rw [← Nat.add_assoc, socks_loop_step, h0]
    simp only
    refine ⟨i1, evs ++ [NetEvent.sleep second] ++ evs1, ?_, ?_, ?_⟩
    · rw [i2, socks_sleep_trace d network addr w evs e1]
      simp only [List.append_assoc]
    · simp only [List.countP_append, e2, i3]
      simp [NetEvent.startsAttempt]
      omega
    · simp only [List.countP_append, e3, i4]
      simp [NetEvent.isSleep]
      omega

end proxy

namespace proxy

theorem http_outcome_eq (d : HTTPProxyDialer) (network : String) (w : Net) (k : Nat) :
    d.outcome network w k
      = match (w.connectOutcome (w.connects + k)).1 with
        | Except.ok c => some c
        | Except.error _ => none := by
  unfold HTTPProxyDialer.outcome
  rw [failedWorld_eq]
  rfl

theorem http_outcome_none (d : HTTPProxyDialer) (network : String) (w : Net) (k : Nat)
    (h : d.outcome network w k = none) : connectFails w k = true := by
  rw [http_outcome_eq] at h
  unfold connectFails
  cases hc : (w.connectOutcome (w.connects + k)).1 with
  | error e => rfl
  | ok c => rw [hc] at h; exact Option.noConfusion h

theorem http_outcome_some (d : HTTPProxyDialer) (network : String) (w : Net) (k : Nat)
    (c : Conn) (h : d.outcome network w k = some c) :
    (w.connectOutcome (w.connects + k)).1 = Except.ok c := by
  rw [http_outcome_eq] at h
  cases hc : (w.connectOutcome (w.connects + k)).1 with
  | error e => rw [hc] at h; exact Option.noConfusion h
  | ok c1 =>
    rw [hc] at h
    simp only [Option.some.injEq] at h
    rw [h]

theorem countP_startsAttempt_retryCalls (network address : String) (timeout : Int) (w : Net)
    (k : Nat) :
    (retryCalls network address timeout w k).countP NetEvent.startsAttempt = k := by
  induction k with
  | zero => rfl
  | succ k ih =>
    rw [retryCalls, List.countP_append, ih]
    simp [List.countP_cons, NetEvent.startsAttempt]

/-- Attempt `m + 1` is the first attempt of the HTTP dialer that succeeds, and the deadline
has not elapsed when it starts: the dialer returns the connection after `m + 1` attempts
and `m` sleeps of one second. -/
theorem http_shape_ok (d : HTTPProxyDialer) (network addr : String) (w : Net) (m : Nat)
    (c : Conn) (hm : m < 3)
    (hf : ∀ j, j < m → d.outcome network w j = none)
    (hc : d.outcome network w m = some c)
    (hd : attemptStart w m < w.now + d.timeout) :
    ∃ r, d.Dial network addr w = some r ∧ r.1 = Except.ok c ∧
      attemptsSince w r.2.2 = m + 1 ∧ delaysSince w r.2.2 = m := by
  have hstep := http_loop_first_ok network (w.now + d.timeout) m (2 - m) d w c hm
    (fun j hj => http_outcome_none d network w j (hf j hj))
    (http_outcome_some d network w m c hc) hd
  have hfu : 2 - m + 1 + m = maxRetries := by unfold maxRetries; omega
  rw [hfu] at hstep
  refine ⟨_, hstep, rfl, ?_, ?_⟩
  · unfold attemptsSince
    rw [callsSince_append w _ _ (List.append_assoc _ _ _), List.countP_append,
      countP_startsAttempt_retryCalls]
    rfl
  · unfold delaysSince
    rw [callsSince_append w _ _ (List.append_assoc _ _ _), List.countP_append,
      (countP_retryCalls _ _ _ _ _).2]
    rfl

/-- All three attempts of the HTTP dialer fail, and the deadline has not elapsed when the
third starts: the dialer returns the exhaustion error after 3 attempts and 2 sleeps of one
second. -/
theorem http_shape_exhausted (d : HTTPProxyDialer) (network addr : String) (w : Net)
    (hf : ∀ j, j < 3 → d.outcome network w j = none)
    (hd : attemptStart w 2 < w.now + d.timeout) :
    ∃ r, d.Dial network addr w = some r ∧ r.1 = Except.error errExhausted ∧
      attemptsSince w r.2.2 = 3 ∧ delaysSince w r.2.2 = 2 := by
  have hstep := http_loop_exhausted network (w.now + d.timeout) 0 d w
    (fun j hj => http_outcome_none d network w j (hf j hj)) hd
  refine ⟨_, hstep, rfl, ?_, ?_⟩
  · unfold attemptsSince
    rw [callsSince_append w _ _ (List.append_assoc _ _ _), List.countP_append,
      countP_startsAttempt_retryCalls]
    rfl
  · unfold delaysSince
    rw [callsSince_append w _ _ (List.append_assoc _ _ _), List.countP_append,
      (countP_retryCalls _ _ _ _ _).2]
    rfl

/-- The shape of a SOCKS5 `Dial` whose attempt `m + 1` is the first to succeed. -/
theorem socks_Dial_ok (d : SOCKS5ProxyDialer) (network addr : String) (w : Net) (m : Nat)
    (c : Conn) (hm : m < 3)
    (hf : ∀ j, j < m → d.outcome network addr w j = none)
    (hc : d.outcome network addr w m = some c) :
    (d.Dial network addr w).1 = Except.ok c ∧
    attemptsSince w (d.Dial network addr w).2.2 = m + 1 ∧
    delaysSince w (d.Dial network addr w).2.2 = m := by
  have hfu : maxRetries = 2 - m + 1 + m := by unfold maxRetries; omega
  unfold SOCKS5ProxyDialer.Dial
  rw [hfu]
  obtain ⟨h1, evs, h2, h3, h4⟩ := socks_shape_ok d network addr c m (2 - m) w hf hc
  refine ⟨h1, ?_, ?_⟩
  · unfold attemptsSince
    rw [callsSince_append w _ _ h2]; exact h3
  · unfold delaysSince
    rw [callsSince_append w _ _ h2]; exact h4

/-- The shape of a SOCKS5 `Dial` whose three attempts fail. -/
theorem socks_Dial_exhausted (d : SOCKS5ProxyDialer) (network addr : String) (w : Net)
    (hf : ∀ j, j < 3 → d.outcome network addr w j = none) :
    (d.Dial network addr w).1 = Except.error errExhausted ∧
    attemptsSince w (d.Dial network addr w).2.2 = 3 ∧
    delaysSince w (d.Dial network addr w).2.2 = 3 := by
  unfold SOCKS5ProxyDialer.Dial
  obtain ⟨h1, evs, h2, h3, h4⟩ := socks_shape_exhausted d network addr maxRetries w hf
  refine ⟨h1, ?_, ?_⟩
  · unfold attemptsSince
    rw [callsSince_append w _ _ h2]; exact h3
  · unfold delaysSince
    rw [callsSince_append w _ _ h2]; exact h4

end proxy

namespace proxy

/-- Either all of the first three outcomes are failures, or there is a first success. -/
theorem first_success_or_none (o : Nat → Option Conn) :
    (∀ k, k < 3 → o k = none) ∨
    ∃ m c, m < 3 ∧ (∀ j, j < m → o j = none) ∧ o m = some c := by
  cases h0 : o 0 with
  | some c => exact Or.inr ⟨0, c, by decide, fun j hj => absurd hj (Nat.not_lt_zero j), h0⟩
  | none =>
    cases h1 : o 1 with
    | some c =>
      refine Or.inr ⟨1, c, by decide, ?_, h1⟩
      intro j hj
      obtain rfl : j = 0 := by omega
      exact h0
    | none =>
      cases h2 : o 2 with
      | some c =>
        refine Or.inr ⟨2, c, by decide, ?_, h2⟩
        intro j hj
        interval_cases j
        · exact h0
        · exact h1
      | none =>
        refine Or.inl ?_
        intro k hk
        interval_cases k
        · exact h0
        · exact h1
        · exact h2

/-- Where the two loops agree and where they part: for every sequence of per-attempt outcomes (success or failure) that
the attempts of `HTTPProxyDialer.Dial` and of `SOCKS5ProxyDialer.Dial` share, and with the
HTTP deadline not elapsed at the start of any attempt that is made, both dialers make the
same number of attempts and return success or exhaustion in the same cases; when an attempt
succeeds both have slept the same number of seconds before returning; on exhaustion the
HTTP dialer has slept twice and the SOCKS5 dialer three times. -/
theorem Dial_shapes_agree_up_to_last_delay (dh : HTTPProxyDialer) (ds : SOCKS5ProxyDialer)
    (network addr : String) (wh ws : Net)
    (hsame : ∀ k, k < 3 →
      (dh.outcome network wh k).isSome = (ds.outcome network addr ws k).isSome)
    (hdl : ∀ k, k < 3 → (∀ j, j < k → dh.outcome network wh j = none) →
      attemptStart wh k < wh.now + dh.timeout) :
    ∃ rh, dh.Dial network addr wh = some rh ∧
      attemptsSince wh rh.2.2 = attemptsSince ws (ds.Dial network addr ws).2.2 ∧
      ((∃ c, rh.1 = Except.ok c) ↔ ∃ c, (ds.Dial network addr ws).1 = Except.ok c) ∧
      ((∃ c, rh.1 = Except.ok c) →
        delaysSince wh rh.2.2 = delaysSince ws (ds.Dial network addr ws).2.2) ∧
      ((¬ ∃ c, rh.1 = Except.ok c) →
        rh.1 = Except.error errExhausted ∧
        (ds.Dial network addr ws).1 = Except.error errExhausted ∧
        attemptsSince wh rh.2.2 = 3 ∧
        delaysSince wh rh.2.2 = 2 ∧
        delaysSince ws (ds.Dial network addr ws).2.2 = 3) := by
  have hnone : ∀ k, k < 3 → dh.outcome network wh k = none →
      ds.outcome network addr ws k = none := by
    intro k hk h
    have := hsame k hk
    rw [h] at this
    exact Option.not_isSome_iff_eq_none.mp (by rw [← this]; simp)
  rcases first_success_or_none (dh.outcome network wh) with hall | ⟨m, c, hm, hf, hc⟩
  · obtain ⟨rh, h1, h2, h3, h4⟩ := http_shape_exhausted dh network addr wh hall
      (hdl 2 (by decide) (fun j hj => hall j (by omega)))
    obtain ⟨s1, s2, s3⟩ := socks_Dial_exhausted ds network addr ws
      (fun j hj => hnone j hj (hall j hj))
    have hno : ¬ ∃ c, rh.1 = Except.ok c := by
      rintro ⟨c, hc⟩
      rw [h2] at hc
      exact Except.noConfusion hc
    have hno2 : ¬ ∃ c, (ds.Dial network addr ws).1 = Except.ok c := by
      rintro ⟨c, hc⟩
      rw [s1] at hc
      exact Except.noConfusion hc
    refine ⟨rh, h1, by rw [h3, s2], ⟨fun h => absurd h hno, fun h => absurd h hno2⟩,
      fun h => absurd h hno, fun _ => ⟨h2, s1, h3, h4, s3⟩⟩
  · obtain ⟨rh, h1, h2, h3, h4⟩ := http_shape_ok dh network addr wh m c hm hf hc (hdl m hm hf)
    have hs : ∃ c1, ds.outcome network addr ws m = some c1 := by
      have := hsame m hm
      rw [hc] at this
      exact Option.isSome_iff_exists.mp (by rw [← this]; rfl)
    obtain ⟨c1, hc1⟩ := hs
    obtain ⟨s1, s2, s3⟩ := socks_Dial_ok ds network addr ws m c1 hm
      (fun j hj => hnone j (by omega) (hf j hj)) hc1
    refine ⟨rh, h1, by rw [h3, s2], ⟨fun _ => ⟨c1, s1⟩, fun _ => ⟨c, h2⟩⟩,
      fun _ => by rw [h4, s3], fun h => absurd ⟨c, h2⟩ h⟩

theorem Dial_shapes_agree_up_to_last_delay_witness :
    ∃ rh, examples.httpDialer.Dial "tcp" "example.org:80" examples.liveNet = some rh ∧
      attemptsSince examples.liveNet rh.2.2
        = attemptsSince examples.liveNet
            (examples.socksDialer.Dial "tcp" "example.org:80" examples.liveNet).2.2 ∧
      ((∃ c, rh.1 = Except.ok c) ↔
        ∃ c, (examples.socksDialer.Dial "tcp" "example.org:80" examples.liveNet).1
          = Except.ok c) ∧
      ((∃ c, rh.1 = Except.ok c) →
        delaysSince examples.liveNet rh.2.2
          = delaysSince examples.liveNet
              (examples.socksDialer.Dial "tcp" "example.org:80" examples.liveNet).2.2) ∧
      ((¬ ∃ c, rh.1 = Except.ok c) →
        rh.1 = Except.error errExhausted ∧
        (examples.socksDialer.Dial "tcp" "example.org:80" examples.liveNet).1
          = Except.error errExhausted ∧
        attemptsSince examples.liveNet rh.2.2 = 3 ∧
        delaysSince examples.liveNet rh.2.2 = 2 ∧
        delaysSince examples.liveNet
          (examples.socksDialer.Dial "tcp" "example.org:80" examples.liveNet).2.2 = 3) :=
  Dial_shapes_agree_up_to_last_delay examples.httpDialer examples.socksDialer "tcp"
    "example.org:80" examples.liveNet examples.liveNet
    (fun k hk => by interval_cases k <;> rfl)
    (fun k hk _ => by interval_cases k <;> decide)

end proxy

namespace proxy

/-- C11 (what the code does where the claim fails): whenever the three attempts of
`HTTPProxyDialer.Dial` and the three attempts of `SOCKS5ProxyDialer.Dial` all fail, and the
HTTP deadline has not elapsed when its third attempt starts, both dialers make 3 attempts
and return the exhaustion error, but the retry shapes differ: the HTTP dialer has slept
one second twice, between its attempts, and the SOCKS5 dialer three times, once more after
its last attempt. -/
theorem Dial_delays_differ_on_exhaustion (dh : HTTPProxyDialer) (ds : SOCKS5ProxyDialer)
    (network addr : String) (wh ws : Net)
    (hh : ∀ k, k < 3 → dh.outcome network wh k = none)
    (hs : ∀ k, k < 3 → ds.outcome network addr ws k = none)
    (hdl : attemptStart wh 2 < wh.now + dh.timeout) :
    ∃ rh, dh.Dial network addr wh = some rh ∧
      rh.1 = Except.error errExhausted ∧
      (ds.Dial network addr ws).1 = Except.error errExhausted ∧
      attemptsSince wh rh.2.2 = 3 ∧
      attemptsSince ws (ds.Dial network addr ws).2.2 = 3 ∧
      delaysSince wh rh.2.2 = 2 ∧
      delaysSince ws (ds.Dial network addr ws).2.2 = 3 ∧
      delaysSince wh rh.2.2 ≠ delaysSince ws (ds.Dial network addr ws).2.2 := by
  obtain ⟨rh, h1, h2, h3, h4⟩ := http_shape_exhausted dh network addr wh hh hdl
  obtain ⟨s1, s2, s3⟩ := socks_Dial_exhausted ds network addr ws hs
  refine ⟨rh, h1, h2, s1, h3, s2, h4, s3, ?_⟩
  rw [h4, s3]
  decide

theorem Dial_delays_differ_on_exhaustion_witness :
    (∀ k, k < 3 → examples.httpDialer.outcome "tcp" examples.deadNet k = none) ∧
    (∀ k, k < 3 →
      examples.socksDialer.outcome "tcp" "example.org:80" examples.deadNet k = none) ∧
    attemptStart examples.deadNet 2 < examples.deadNet.now + examples.httpDialer.timeout ∧
    ∃ rh, examples.httpDialer.Dial "tcp" "example.org:80" examples.deadNet = some rh ∧
      rh.1 = Except.error errExhausted ∧
      (examples.socksDialer.Dial "tcp" "example.org:80" examples.deadNet).1
        = Except.error errExhausted ∧
      attemptsSince examples.deadNet rh.2.2 = 3 ∧
      attemptsSince examples.deadNet
        (examples.socksDialer.Dial "tcp" "example.org:80" examples.deadNet).2.2 = 3 ∧
      delaysSince examples.deadNet rh.2.2 = 2 ∧
      delaysSince examples.deadNet
        (examples.socksDialer.Dial "tcp" "example.org:80" examples.deadNet).2.2 = 3 ∧
      delaysSince examples.deadNet rh.2.2
        ≠ delaysSince examples.deadNet
            (examples.socksDialer.Dial "tcp" "example.org:80" examples.deadNet).2.2 :=
  ⟨fun k hk => by interval_cases k <;> rfl,
    fun k hk => by interval_cases k <;> rfl,
    by decide,
    Dial_delays_differ_on_exhaustion examples.httpDialer examples.socksDialer "tcp"
      "example.org:80" examples.deadNet examples.deadNet
      (fun k hk => by interval_cases k <;> rfl)
      (fun k hk => by interval_cases k <;> rfl)
      (by decide)⟩

end proxy

/-! ### `GrabBanners` call by call: the invariants -/

/-- Every event keeps the slot accounting. -/
theorem Counted_step {σ : Type} (call : DialFn σ) (capacity : Nat) (spawn : String → Routine)
    (s s1 : Pool σ) (e : Move) (hinv : Pool.Counted capacity s)
    (hstep : Pool.step call capacity spawn s e = some s1) : Pool.Counted capacity s1 := by
  obtain ⟨hsem, hwg, hcap⟩ := hinv
  cases e with
  | dispatch =>
    simp only [Pool.step] at hstep
    cases hi : s.iter with
    | nil => rw [hi] at hstep; simp at hstep
    | cons ip rest =>
      rw [hi] at hstep
      simp only at hstep
      by_cases hlt : s.sem < capacity
      · rw [if_pos hlt] at hstep
        simp only [Option.some.injEq] at hstep
        subst hstep
        refine ⟨?_, ?_, ?_⟩
        · simp [hsem]
        · simp [hwg]
        · simp only [List.length_append, List.length_singleton]; omega
      · rw [if_neg hlt] at hstep; simp at hstep
  | call k =>
    simp only [Pool.step] at hstep
    cases hk : s.tasks.get? k with
    | none => rw [hk] at hstep; simp at hstep
    | some t =>
      obtain ⟨ip, p⟩ := t
      rw [hk] at hstep
      cases p with
      | done => simp at hstep
      | dial network addr next =>
        simp only [Option.some.injEq] at hstep
        subst hstep
        exact ⟨by simp [hsem], by simp [hwg], by simp only [List.length_set]; exact hcap⟩
      | log level message next =>
        simp only [Option.some.injEq] at hstep
        subst hstep
        exact ⟨by simp [hsem], by simp [hwg], by simp only [List.length_set]; exact hcap⟩
      | close c next =>
        simp only [Option.some.injEq] at hstep
        subst hstep
        exact ⟨by simp [hsem], by simp [hwg], by simp only [List.length_set]; exact hcap⟩
  | exit k =>
    simp only [Pool.step] at hstep
    cases hk : s.tasks.get? k with
    | none => rw [hk] at hstep; simp at hstep
    | some t =>
      obtain ⟨ip, p⟩ := t
      rw [hk] at hstep
      cases p with
      | done =>
        simp only [Option.some.injEq] at hstep
        subst hstep
        obtain ⟨_, h2⟩ := flatten_map_eraseIdx (fun _ : String × Routine => ([] : List Nat))
          (ip, Routine.done) rfl s.tasks k hk
        refine ⟨?_, ?_, ?_⟩
        · simp only; omega
        · simp only; omega
        · simp only; omega
      | dial network addr next => simp at hstep
      | log level message next => simp at hstep
      | close c next => simp at hstep

/-- The slot accounting holds in every state a schedule leads to. -/
theorem Counted_exec {σ : Type} (call : DialFn σ) (capacity : Nat) (spawn : String → Routine) :
    ∀ (es : List Move) (s s1 : Pool σ), Pool.Counted capacity s →
      Pool.exec call capacity spawn s es = some s1 → Pool.Counted capacity s1 := by
  intro es
  induction es with
  | nil =>
    intro s s1 hinv h
    simp only [Pool.exec, Option.some.injEq] at h
    subst h
    exact hinv
  | cons e es ih =>
    intro s s1 hinv h
    simp only [Pool.exec] at h
    cases hs : Pool.step call capacity spawn s e with
    | none => rw [hs] at h; simp at h
    | some s2 =>
      rw [hs] at h
      exact ih s2 s1 (Counted_step call capacity spawn s s2 e hinv hs) h

theorem Counted_init {σ : Type} (capacity : Nat) (ips : List String) (w : World σ) :
    Pool.Counted capacity (Pool.init ips w) :=
  ⟨rfl, rfl, Nat.zero_le _⟩

theorem DialsLeft_dial_inv {σ : Type} (call : DialFn σ) (addr network a : String) (n : Nat)
    (next : Except GoError Conn → Routine)
    (h : Routine.DialsLeft call addr n (Routine.dial network a next)) :
    network = "tcp" ∧ a = addr ∧ ∃ m, n = m + 1 ∧
      ∀ st : σ, Routine.DialsLeft call addr m (next (call st "tcp" addr).1) := by
  cases h with
  | dial hnext => exact ⟨rfl, rfl, _, rfl, hnext⟩

theorem DialsLeft_log_inv {σ : Type} (call : DialFn σ) (addr level message : String) (n : Nat)
    (next : Routine) (h : Routine.DialsLeft call addr n (Routine.log level message next)) :
    Routine.DialsLeft call addr n next := by
  cases h with
  | log hnext => exact hnext

theorem DialsLeft_close_inv {σ : Type} (call : DialFn σ) (addr : String) (c : Conn) (n : Nat)
    (next : Routine) (h : Routine.DialsLeft call addr n (Routine.close c next)) :
    Routine.DialsLeft call addr n next := by
  cases h with
  | close hnext => exact hnext

/-- Every event keeps the invariant of the dials and the deliveries. -/
theorem Pool_Inv_step {σ : Type} (call : DialFn σ) (capacity : Nat) (spawn : String → Routine)
    (addr : String → String) (expected : String → List (String × String))
    (good : String → Prop) (record : String → String × String) (ips : List String)
    (w0 : World σ)
    (hD : ∀ h, h ∈ ips → ∃ n, Routine.DialsLeft call (addr h) n (spawn h) ∧
      expected h = List.replicate n ("tcp", addr h))
    (hV : ∀ h, h ∈ ips → good h → Routine.Delivers call (record h) (spawn h))
    (s s1 : Pool σ) (e : Move)
    (hinv : Pool.Inv call addr expected good record ips w0 s)
    (hstep : Pool.step call capacity spawn s e = some s1) :
    Pool.Inv call addr expected good record ips w0 s1 := by
  obtain ⟨hc, disp, nd, hips, hdials, hperm, hdel⟩ := hinv
  cases e with
  | dispatch =>
    simp only [Pool.step] at hstep
    cases hi : s.iter with
    | nil => rw [hi] at hstep; simp at hstep
    | cons ip rest =>
      rw [hi] at hstep
      simp only at hstep
      by_cases hlt : s.sem < capacity
      · rw [if_pos hlt] at hstep
        simp only [Option.some.injEq] at hstep
        subst hstep
        have hmem : ip ∈ ips := by rw [hips, hi]; simp
        obtain ⟨n, hn, hexp⟩ := hD ip hmem
        refine ⟨?_, disp ++ [ip], nd, ?_, hdials, ?_, ?_⟩
        · intro t ht
          rcases List.mem_append.mp ht with ht | ht
          · exact hc t ht
          · rw [List.mem_singleton] at ht
            subst ht
            exact ⟨n, hn⟩
        · rw [hips, hi]; simp
        · simp only [List.map_append, List.flatten_append, List.map_cons, List.map_nil,
            List.flatten_cons, List.flatten_nil, List.append_nil]
          rw [pending_eq call (addr ip) w0.dstate ip hn, hexp, ← List.append_assoc]
          exact List.Perm.append_right _ hperm
        · intro h hh hg
          rcases List.mem_append.mp hh with hh | hh
          · rcases hdel h hh hg with hl | ⟨t, ht, htd⟩
            · exact Or.inl hl
            · exact Or.inr ⟨t, List.mem_append_left _ ht, htd⟩
          · rw [List.mem_singleton] at hh
            subst hh
            exact Or.inr ⟨(h, spawn h), List.mem_append_right _ (List.mem_singleton.mpr rfl),
              hV h hmem hg⟩
      · rw [if_neg hlt] at hstep; simp at hstep
  | call k =>
    simp only [Pool.step] at hstep
    cases hk : s.tasks.get? k with
    | none => rw [hk] at hstep; simp at hstep
    | some t =>
      obtain ⟨ip, p⟩ := t
      rw [hk] at hstep
      obtain ⟨n, hn⟩ := hc (ip, p) (mem_of_get? _ _ k hk)
      cases p with
      | done => simp at hstep
      | dial network a next =>
        simp only [Option.some.injEq] at hstep
        subst hstep
        simp only at hn
        obtain ⟨rfl, rfl, m, rfl, hnext⟩ := DialsLeft_dial_inv call (addr ip) _ _ n next hn
        · have hm := hnext s.world.dstate
          obtain ⟨hin, hor⟩ := mem_set_or_eq (ip, Routine.dial "tcp" (addr ip) next)
            (ip, next (call s.world.dstate "tcp" (addr ip)).1) s.tasks k hk
          refine ⟨?_, disp, nd ++ [("tcp", addr ip)], hips, ?_, ?_, ?_⟩
          · intro t ht
            rcases List.mem_or_eq_of_mem_set ht with ht | ht
            · exact hc t ht
            · subst ht
              exact ⟨m, hm⟩
          · simp only [World.dial, hdials, List.append_assoc]
          · have hp := flatten_map_set_cons (Pool.pending call w0.dstate) ("tcp", addr ip)
              (ip, Routine.dial "tcp" (addr ip) next)
              (ip, next (call s.world.dstate "tcp" (addr ip)).1)
              (by rw [pending_eq call (addr ip) w0.dstate ip (Routine.DialsLeft.dial hnext),
                    pending_eq call (addr ip) w0.dstate ip hm, List.replicate_succ])
              s.tasks k hk
            refine List.Perm.trans ?_ hperm
            rw [List.append_assoc]
            exact List.Perm.append_left _ hp.symm
          · intro h hh hg
            rcases hdel h hh hg with hl | ⟨t, ht, htd⟩
            · exact Or.inl hl
            · rcases hor t ht with ht1 | ht1
              · exact Or.inr ⟨t, ht1, htd⟩
              · subst ht1
                cases htd with
                | dial hall => exact Or.inr ⟨_, hin, hall s.world.dstate⟩
      | log level message next =>
        simp only [Option.some.injEq] at hstep
        subst hstep
        have hnext := DialsLeft_log_inv call (addr ip) level message n next hn
        · obtain ⟨hin, hor⟩ := mem_set_or_eq (ip, Routine.log level message next)
            (ip, next) s.tasks k hk
          refine ⟨?_, disp, nd, hips, hdials, ?_, ?_⟩
          · intro t ht
            rcases List.mem_or_eq_of_mem_set ht with ht | ht
            · exact hc t ht
            · subst ht
              exact ⟨n, hnext⟩
          · rw [flatten_map_set_same (Pool.pending call w0.dstate)
              (ip, Routine.log level message next) (ip, next)
              (by rw [pending_eq call (addr ip) w0.dstate ip (Routine.DialsLeft.log hnext),
                    pending_eq call (addr ip) w0.dstate ip hnext]) s.tasks k hk]
            exact hperm
          · intro h hh hg
            rcases hdel h hh hg with hl | ⟨t, ht, htd⟩
            · exact Or.inl (List.mem_append_left _ hl)
            · rcases hor t ht with ht1 | ht1
              · exact Or.inr ⟨t, ht1, htd⟩
              · subst ht1
                cases htd with
                | now => exact Or.inl (List.mem_append_right _ (List.mem_singleton.mpr rfl))
                | log hd => exact Or.inr ⟨_, hin, hd⟩
      | close c next =>
        simp only [Option.some.injEq] at hstep
        subst hstep
        have hnext := DialsLeft_close_inv call (addr ip) c n next hn
        · obtain ⟨hin, hor⟩ := mem_set_or_eq (ip, Routine.close c next)
            (ip, next) s.tasks k hk
          refine ⟨?_, disp, nd, hips, hdials, ?_, ?_⟩
          · intro t ht
            rcases List.mem_or_eq_of_mem_set ht with ht | ht
            · exact hc t ht
            · subst ht
              exact ⟨n, hnext⟩
          · rw [flatten_map_set_same (Pool.pending call w0.dstate)
              (ip, Routine.close c next) (ip, next)
              (by rw [pending_eq call (addr ip) w0.dstate ip (Routine.DialsLeft.close hnext),
                    pending_eq call (addr ip) w0.dstate ip hnext]) s.tasks k hk]
            exact hperm
          · intro h hh hg
            rcases hdel h hh hg with hl | ⟨t, ht, htd⟩
            · exact Or.inl hl
            · rcases hor t ht with ht1 | ht1
              · exact Or.inr ⟨t, ht1, htd⟩
              · subst ht1
                cases htd with
                | close hd => exact Or.inr ⟨_, hin, hd⟩
  | exit k =>
    simp only [Pool.step] at hstep
    cases hk : s.tasks.get? k with
    | none => rw [hk] at hstep; simp at hstep
    | some t =>
      obtain ⟨ip, p⟩ := t
      rw [hk] at hstep
      cases p with
      | done =>
        simp only [Option.some.injEq] at hstep
        subst hstep
        obtain ⟨h1, _⟩ := flatten_map_eraseIdx (Pool.pending call w0.dstate)
          (ip, Routine.done) rfl s.tasks k hk
        refine ⟨?_, disp, nd, hips, hdials, ?_, ?_⟩
        · intro t ht
          exact hc t (List.mem_of_mem_eraseIdx ht)
        · simp only [h1]; exact hperm
        · intro h hh hg
          rcases hdel h hh hg with hl | ⟨t, ht, htd⟩
          · exact Or.inl hl
          · rcases mem_eraseIdx_or_eq (ip, Routine.done) s.tasks k hk t ht with ht1 | ht1
            · exact Or.inr ⟨t, ht1, htd⟩
            · subst ht1
              cases htd
      | dial network a next => simp at hstep
      | log level message next => simp at hstep
      | close c next => simp at hstep

/-- The invariant of the dials and the deliveries holds in every state a schedule leads
to. -/
theorem Pool_Inv_exec {σ : Type} (call : DialFn σ) (capacity : Nat) (spawn : String → Routine)
    (addr : String → String) (expected : String → List (String × String))
    (good : String → Prop) (record : String → String × String) (ips : List String)
    (w0 : World σ)
    (hD : ∀ h, h ∈ ips → ∃ n, Routine.DialsLeft call (addr h) n (spawn h) ∧
      expected h = List.replicate n ("tcp", addr h))
    (hV : ∀ h, h ∈ ips → good h → Routine.Delivers call (record h) (spawn h)) :
    ∀ (es : List Move) (s s1 : Pool σ), Pool.Inv call addr expected good record ips w0 s →
      Pool.exec call capacity spawn s es = some s1 →
      Pool.Inv call addr expected good record ips w0 s1 := by
  intro es
  induction es with
  | nil =>
    intro s s1 hinv h
    simp only [Pool.exec, Option.some.injEq] at h
    subst h
    exact hinv
  | cons e es ih =>
    intro s s1 hinv h
    simp only [Pool.exec] at h
    cases hs : Pool.step call capacity spawn s e with
    | none => rw [hs] at h; simp at h
    | some s2 =>
      rw [hs] at h
      exact ih s2 s1
        (Pool_Inv_step call capacity spawn addr expected good record ips w0 hD hV s s2 e hinv hs)
        h

theorem Pool_Inv_init {σ : Type} (call : DialFn σ) (addr : String → String)
    (expected : String → List (String × String)) (good : String → Prop)
    (record : String → String × String) (ips : List String) (w0 : World σ) :
    Pool.Inv call addr expected good record ips w0 (Pool.init ips w0) := by
  refine ⟨?_, [], [], rfl, (List.append_nil _).symm, List.Perm.refl _, ?_⟩
  · intro t ht
    exact absurd ht (List.not_mem_nil _)
  · intro h hh
    exact absurd hh (List.not_mem_nil _)

/-- In a state where `GrabBanners` has returned, the dials made are those expected of the
hosts of the list, once each, and every good host has its record in the log. -/
theorem Pool_Inv_returned {σ : Type} (call : DialFn σ) (capacity : Nat)
    (addr : String → String) (expected : String → List (String × String))
    (good : String → Prop) (record : String → String × String) (ips : List String)
    (w0 : World σ) (s : Pool σ) (hcount : Pool.Counted capacity s)
    (hinv : Pool.Inv call addr expected good record ips w0 s)
    (hret : s.returned = true) :
    List.Perm (s.world.dials.drop w0.dials.length) (ips.map expected).flatten ∧
    ∀ h, h ∈ ips → good h → record h ∈ s.world.log := by
  obtain ⟨_, hwg, _⟩ := hcount
  obtain ⟨_, disp, nd, hips, hdials, hperm, hdel⟩ := hinv
  simp only [Pool.returned, Bool.and_eq_true, List.isEmpty_iff, beq_iff_eq] at hret
  have ht : s.tasks = [] := List.eq_nil_of_length_eq_zero (by omega)
  rw [hret.1, List.append_nil] at hips
  subst hips
  rw [ht] at hperm hdel
  simp only [List.map_nil, List.flatten_nil, List.append_nil] at hperm
  refine ⟨?_, ?_⟩
  · rw [hdials, List.drop_left]
    exact hperm
  · intro h hh hg
    rcases hdel h hh hg with hl | ⟨t, ht1, _⟩
    · exact hl
    · exact absurd ht1 (List.not_mem_nil _)

/-- With a capacity of at least one, no state a schedule leads to is stuck before
`GrabBanners` has returned. -/
theorem Pool_progress {σ : Type} (call : DialFn σ) (capacity : Nat) (spawn : String → Routine)
    (s : Pool σ) (hcap : 0 < capacity) (hcount : Pool.Counted capacity s)
    (hret : s.returned = false) :
    ∃ e s1, Pool.step call capacity spawn s e = some s1 := by
  obtain ⟨hsem, hwg, _⟩ := hcount
  cases ht : s.tasks with
  | nil =>
    rw [ht] at hsem hwg
    simp only [List.length_nil] at hsem hwg
    cases hi : s.iter with
    | nil => simp [Pool.returned, hi, hwg] at hret
    | cons ip rest =>
      refine ⟨Move.dispatch, Pool.mk rest (s.sem + 1) (s.wg + 1)
        (s.tasks ++ [(ip, spawn ip)]) s.world, ?_⟩
      simp only [Pool.step, hi]
      rw [if_pos (by omega)]
  | cons t ts =>
    obtain ⟨ip, p⟩ := t
    cases p with
    | done =>
      exact ⟨Move.exit 0, Pool.mk s.iter (s.sem - 1) (s.wg - 1) (s.tasks.eraseIdx 0) s.world,
        by simp [Pool.step, ht]⟩
    | dial network a next =>
      exact ⟨Move.call 0, Pool.mk s.iter s.sem s.wg
        (s.tasks.set 0 (ip, next (s.world.dial call network a).1))
        (s.world.dial call network a).2, by simp [Pool.step, ht]⟩
    | log level message next =>
      exact ⟨Move.call 0, Pool.mk s.iter s.sem s.wg (s.tasks.set 0 (ip, next))
        (s.world.Log level message), by simp [Pool.step, ht]⟩
    | close c next =>
      exact ⟨Move.call 0, Pool.mk s.iter s.sem s.wg (s.tasks.set 0 (ip, next))
        (s.world.Close c), by simp [Pool.step, ht]⟩

/-- A lone goroutine making its calls one after the other reaches its end, in the world
it leaves when run on its own. -/
theorem exec_calls {σ : Type} (call : DialFn σ) (capacity : Nat) (spawn : String → Routine)
    (rest : List String) (ip : String) (es : List Move) :
    ∀ (p : Routine) (w : World σ),
      Pool.exec call capacity spawn (Pool.mk rest 1 1 [(ip, p)] w)
          (List.replicate (Routine.calls call p w) (Move.call 0) ++ es)
        = Pool.exec call capacity spawn
            (Pool.mk rest 1 1 [(ip, Routine.done)] (Routine.run call p w)) es := by
  intro p
  induction p with
  | done => intro w; rfl
  | dial network a next ih =>
    intro w
    rw [Routine.calls, Routine.run, List.replicate_succ, List.cons_append, Pool.exec]
    exact ih _ _
  | log level message next ih =>
    intro w
    rw [Routine.calls, Routine.run, List.replicate_succ, List.cons_append, Pool.exec]
    exact ih _
  | close c next ih =>
    intro w
    rw [Routine.calls, Routine.run, List.replicate_succ, List.cons_append, Pool.exec]
    exact ih _

/-- With a capacity of at least one, letting the goroutine of each host run to its end
before the next host is dispatched is a schedule, and `GrabBanners` returns at its end. -/
theorem exec_solo {σ : Type} (call : DialFn σ) (capacity : Nat) (spawn : String → Routine)
    (hcap : 0 < capacity) :
    ∀ (ips : List String) (w : World σ),
      ∃ s, Pool.exec call capacity spawn (Pool.init ips w) (Pool.solo call spawn ips w) = some s ∧
        s.returned = true := by
  intro ips
  induction ips with
  | nil => intro w; exact ⟨_, rfl, rfl⟩
  | cons ip rest ih =>
    intro w
    obtain ⟨s, hs, hr⟩ := ih (Routine.run call (spawn ip) w)
    refine ⟨s, ?_, hr⟩
    have h1 : Pool.step call capacity spawn (Pool.init (ip :: rest) w) Move.dispatch
        = some (Pool.mk rest 1 1 [(ip, spawn ip)] w) := by
      simp only [Pool.step, Pool.init]
      rw [if_pos hcap]
      rfl
    rw [Pool.solo, Pool.exec, h1]
    simp only
    rw [exec_calls, Pool.exec]
    exact hs

namespace utils

/-! ### The goroutine of one host of `GrabBanners` -/

theorem DialsLeft_closeAll {σ : Type} (call : DialFn σ) (addr : String) (next : Routine)
    (h : Routine.DialsLeft call addr 0 next) :
    ∀ cs : List Conn, Routine.DialsLeft call addr 0 (closeAll cs next) := by
  intro cs
  induction cs with
  | nil => exact h
  | cons c cs ih => exact Routine.DialsLeft.close ih

theorem Delivers_closeAll {σ : Type} (call : DialFn σ) (rec : String × String)
    (next : Routine) (h : Routine.Delivers call rec next) :
    ∀ cs : List Conn, Routine.Delivers call rec (closeAll cs next) := by
  intro cs
  induction cs with
  | nil => exact h
  | cons c cs ih => exact Routine.Delivers.close ih

/-- At a host that fails at every attempt, whatever the dialer's state, the loop with `k`
iterations left makes exactly `k` more dials. -/
theorem DialsLeft_failing {σ : Type} (call : DialFn σ) (addr : String) (bufferSize : Nat)
    (after : String → Option GoError → List Conn → Routine)
    (hafter : ∀ b e d, Routine.DialsLeft call addr 0 (after b e d))
    (hfail : ∀ st : σ, attemptBanner call addr bufferSize st = none) :
    ∀ (k : Nat) (banner : String) (err : Option GoError) (deferred : List Conn),
      Routine.DialsLeft call addr k (grabLoopCalls addr bufferSize after k banner err deferred) := by
  intro k
  induction k with
  | zero => intro banner err deferred; exact hafter banner err deferred
  | succ k ih =>
    intro banner err deferred
    rw [grabLoopCalls]
    refine Routine.DialsLeft.dial ?_
    intro st
    have hf := hfail st
    unfold attemptBanner at hf
    cases hc : (call st "tcp" addr).1 with
    | error e => exact Routine.DialsLeft.log (ih banner err deferred)
    | ok conn =>
      rw [hc] at hf
      simp only at hf ⊢
      cases he : (conn.Read bufferSize).err with
      | none => rw [he] at hf; exact Option.noConfusion hf
      | some e =>
        rw [he] at hf
        simp only at hf ⊢
        by_cases hE : e.isEOF = true
        · rw [if_pos hE] at hf; exact Option.noConfusion hf
        · rw [if_neg hE]
          exact Routine.DialsLeft.log (ih banner err (conn :: deferred))

/-- At a host that yields the banner `b` at every attempt, whatever the dialer's state, the
loop with an iteration left makes exactly one more dial, and what follows the loop is
given the banner `b`. -/
theorem DialsLeft_yielding {σ : Type} (call : DialFn σ) (addr : String) (bufferSize : Nat)
    (after : String → Option GoError → List Conn → Routine) (b : String)
    (hafter : ∀ b e d, Routine.DialsLeft call addr 0 (after b e d))
    (hgood : ∀ st : σ, attemptBanner call addr bufferSize st = some b)
    (k : Nat) (banner : String) (err : Option GoError) (deferred : List Conn) :
    Routine.DialsLeft call addr 1
      (grabLoopCalls addr bufferSize after (k + 1) banner err deferred) := by
  rw [grabLoopCalls]
  refine Routine.DialsLeft.dial ?_
  intro st
  have hg := hgood st
  unfold attemptBanner at hg
  cases hc : (call st "tcp" addr).1 with
  | error e => rw [hc] at hg; exact Option.noConfusion hg
  | ok conn =>
    rw [hc] at hg
    simp only at hg ⊢
    cases he : (conn.Read bufferSize).err with
    | none => exact Routine.DialsLeft.log (hafter _ _ _)
    | some e =>
      rw [he] at hg
      simp only at hg ⊢
      by_cases hE : e.isEOF = true
      · rw [if_pos hE]
        exact Routine.DialsLeft.log (Routine.DialsLeft.log (hafter _ _ _))
      · rw [if_neg hE] at hg; exact Option.noConfusion hg

theorem Delivers_yielding {σ : Type} (call : DialFn σ) (addr : String) (bufferSize : Nat)
    (after : String → Option GoError → List Conn → Routine) (b : String)
    (rec : String × String) (err : Option GoError)
    (hafter : ∀ d, Routine.Delivers call rec (after b err d))
    (hgood : ∀ st : σ, attemptBanner call addr bufferSize st = some b)
    (k : Nat) (banner : String) (deferred : List Conn) :
    Routine.Delivers call rec
      (grabLoopCalls addr bufferSize after (k + 1) banner err deferred) := by
  rw [grabLoopCalls]
  refine Routine.Delivers.dial ?_
  intro st
  have hg := hgood st
  unfold attemptBanner at hg
  cases hc : (call st "tcp" addr).1 with
  | error e => rw [hc] at hg; exact Option.noConfusion hg
  | ok conn =>
    rw [hc] at hg
    simp only at hg ⊢
    cases he : (conn.Read bufferSize).err with
    | none =>
      rw [he] at hg
      simp only [Option.some.injEq] at hg
      rw [hg]
      exact Routine.Delivers.log (hafter _)
    | some e =>
      rw [he] at hg
      simp only at hg ⊢
      by_cases hE : e.isEOF = true
      · rw [if_pos hE] at hg ⊢
        simp only [Option.some.injEq] at hg
        rw [hg]
        exact Routine.Delivers.log (Routine.Delivers.log (hafter _))
      · rw [if_neg hE] at hg; exact Option.noConfusion hg

/-- The goroutine of a host that fails at every attempt makes exactly three dials. -/
theorem grabRoutine_failing {σ : Type} (call : DialFn σ) (port : Int) (bufferSize : Nat)
    (ip : String)
    (hfail : ∀ st : σ, attemptBanner call (hostPort ip port) bufferSize st = none) :
    Routine.DialsLeft call (hostPort ip port) 3 (grabRoutine port bufferSize ip) := by
  unfold grabRoutine GrabBannerCalls
  refine DialsLeft_failing call (hostPort ip port) bufferSize _ ?_ hfail maxRetries "" none []
  intro b e d
  apply DialsLeft_closeAll
  cases e with
  | none => exact Routine.DialsLeft.log Routine.DialsLeft.done
  | some e => exact Routine.DialsLeft.log Routine.DialsLeft.done

/-- The goroutine of a host that yields the banner `b` at every attempt makes exactly one
dial and delivers the record of `b`. -/
theorem grabRoutine_yielding {σ : Type} (call : DialFn σ) (port : Int) (bufferSize : Nat)
    (ip b : String)
    (hgood : ∀ st : σ, attemptBanner call (hostPort ip port) bufferSize st = some b) :
    Routine.DialsLeft call (hostPort ip port) 1 (grabRoutine port bufferSize ip) ∧
    Routine.Delivers call (InfoLevel, "Grabbed banner from " ++ ip ++ ": " ++ b)
      (grabRoutine port bufferSize ip) := by
  unfold grabRoutine GrabBannerCalls
  constructor
  · refine DialsLeft_yielding call (hostPort ip port) bufferSize _ b ?_ hgood 2 "" none []
    intro b e d
    apply DialsLeft_closeAll
    cases e with
    | none => exact Routine.DialsLeft.log Routine.DialsLeft.done
    | some e => exact Routine.DialsLeft.log Routine.DialsLeft.done
  · refine Delivers_yielding call (hostPort ip port) bufferSize _ b _ none ?_ hgood 2 "" []
    intro d
    exact Delivers_closeAll call _ _ Routine.Delivers.now d

/-- One call of `GrabBanner` for a host that yields the banner `b` at every attempt:
it returns `b` and no error after one dial. -/
theorem GrabBanner_yielding {σ : Type} (call : DialFn σ) (port : Int) (bufferSize : Nat)
    (ip b : String)
    (hgood : ∀ st : σ, attemptBanner call (hostPort ip port) bufferSize st = some b)
    (w : World σ) :
    (GrabBanner call ip port bufferSize w).1 = (b, none) ∧
    (GrabBanner call ip port bufferSize w).2.dials = w.dials ++ [("tcp", hostPort ip port)] := by
  obtain ⟨r1, r2, r3⟩ := grabLoop_first_good call (hostPort ip port) bufferSize b 0 maxRetries
    { world := w, banner := "", err := none, deferred := [] } (by decide)
    (fun j hj => absurd hj (Nat.not_lt_zero j)) (hgood w.dstate)
  constructor
  · simp only [GrabBanner, r2, r1]
  · simp only [GrabBanner, r2, foldl_Close_dials, r3]
    rfl

/-- One call of `GrabBanner` for a host that fails at every attempt makes three dials. -/
theorem GrabBanner_failing {σ : Type} (call : DialFn σ) (port : Int) (bufferSize : Nat)
    (ip : String)
    (hfail : ∀ st : σ, attemptBanner call (hostPort ip port) bufferSize st = none)
    (w : World σ) :
    (GrabBanner call ip port bufferSize w).2.dials
      = w.dials ++ List.replicate 3 ("tcp", hostPort ip port) := by
  obtain ⟨_, r2, r3⟩ := grabLoop_all_fail call (hostPort ip port) bufferSize maxRetries
    { world := w, banner := "", err := none, deferred := [] } (fun j _ => hfail _)
  simp only [GrabBanner, r2, foldl_Close_dials, r3]
  rfl

end utils

namespace utils

/-- C6: for every list of hosts and every dialer under which the host `bad` fails at every
attempt (dial or read) and every other host `h` of the list yields the banner `banner h`
at every attempt, whatever the dialer's state: `GrabBanners`, whose goroutines take turns
between their calls of the dialer and of the logger, (1) can always go on until it returns,
(2) is never stuck before it has returned, and whenever it has returned, under whatever
schedule, (3) it has made, up to their order, exactly the dials of one call of `GrabBanner`
per host of the list (one dial for a host that yields its banner, three for the host that
fails) and (4) for each host `h` of the list other than `bad` the record
"Grabbed banner from h: banner h" is in the log, `banner h` being what `GrabBanner` returns
for `h` alone; (5) `GrabBanner` alone makes those dials; (6) the goroutine of a host run on
its own is one call of `GrabBanner` followed by the record of its result. -/
theorem GrabBanners_delivers_every_good_host {σ : Type} (call : DialFn σ)
    (ips : List String) (port : Int) (bufferSize : Nat) (w : World σ)
    (bad : String) (banner : String → String)
    (hbad : ∀ st : σ, attemptBanner call (hostPort bad port) bufferSize st = none)
    (hgood : ∀ h, h ∈ ips → h ≠ bad →
      ∀ st : σ, attemptBanner call (hostPort h port) bufferSize st = some (banner h)) :
    (∃ s, GrabBanners call ips port bufferSize w
        (Pool.solo call (grabRoutine port bufferSize) ips w) = some s ∧
      s.returned = true) ∧
    (∀ es s, GrabBanners call ips port bufferSize w es = some s → s.returned = false →
      ∃ e s1, Pool.step call maxGoroutines (grabRoutine port bufferSize) s e = some s1) ∧
    (∀ es s, GrabBanners call ips port bufferSize w es = some s → s.returned = true →
      List.Perm (s.world.dials.drop w.dials.length) (ips.map (dialsFor port bad)).flatten ∧
      ∀ h, h ∈ ips → h ≠ bad →
        (∀ w1 : World σ, (GrabBanner call h port bufferSize w1).1 = (banner h, none)) ∧
        (InfoLevel, "Grabbed banner from " ++ h ++ ": " ++ banner h) ∈ s.world.log) ∧
    (∀ h, h ∈ ips → ∀ w1 : World σ,
      (GrabBanner call h port bufferSize w1).2.dials = w1.dials ++ dialsFor port bad h) ∧
    (∀ (h : String) (w1 : World σ),
      Routine.run call (grabRoutine port bufferSize h) w1 = grabTask call port bufferSize h w1) := by
  have hcap : 0 < maxGoroutines := by decide
  have hcount : ∀ es s, GrabBanners call ips port bufferSize w es = some s →
      Pool.Counted maxGoroutines s :=
    fun es s h => Counted_exec _ _ _ es _ s (Counted_init _ _ _) h
  have hD : ∀ h, h ∈ ips →
      ∃ n, Routine.DialsLeft call (hostPort h port) n (grabRoutine port bufferSize h) ∧
        dialsFor port bad h = List.replicate n ("tcp", hostPort h port) := by
    intro h hh
    by_cases hb : h = bad
    · subst hb
      exact ⟨3, grabRoutine_failing call port bufferSize h hbad, by simp [dialsFor]⟩
    · exact ⟨1, (grabRoutine_yielding call port bufferSize h (banner h) (hgood h hh hb)).1,
        by simp [dialsFor, hb]⟩
  have hV : ∀ h, h ∈ ips → h ≠ bad →
      Routine.Delivers call (InfoLevel, "Grabbed banner from " ++ h ++ ": " ++ banner h)
        (grabRoutine port bufferSize h) :=
    fun h hh hb => (grabRoutine_yielding call port bufferSize h (banner h) (hgood h hh hb)).2
  refine ⟨?_, ?_, ?_, ?_, ?_⟩
  · exact exec_solo call maxGoroutines (grabRoutine port bufferSize) hcap ips w
  · intro es s h hret
    exact Pool_progress call maxGoroutines _ s hcap (hcount es s h) hret
  · intro es s h hret
    have hinv := Pool_Inv_exec call maxGoroutines (grabRoutine port bufferSize)
      (fun h => hostPort h port) (dialsFor port bad) (fun h => h ≠ bad)
      (fun h => (InfoLevel, "Grabbed banner from " ++ h ++ ": " ++ banner h)) ips w hD hV
      es _ s (Pool_Inv_init _ _ _ _ _ _ _) h
    obtain ⟨h1, h2⟩ := Pool_Inv_returned call maxGoroutines _ _ _ _ ips w s (hcount es s h)
      hinv hret
    refine ⟨h1, ?_⟩
    intro h hh hb
    exact ⟨fun w1 => (GrabBanner_yielding call port bufferSize h (banner h) (hgood h hh hb) w1).1,
      h2 h hh hb⟩
  · intro h hh w1
    by_cases hb : h = bad
    · subst hb
      rw [GrabBanner_failing call port bufferSize h hbad w1]
      simp [dialsFor]
    · rw [(GrabBanner_yielding call port bufferSize h (banner h) (hgood h hh hb) w1).2]
      simp [dialsFor, hb]
  · intro h w1
    exact run_grabRoutine call port bufferSize h w1

theorem GrabBanners_delivers_every_good_host_witness :
    ∃ s, GrabBanners examples.oneDown ["10.0.0.1", "10.0.0.2", "10.0.0.3"] 22 64
        (World.fresh ())
        [Move.dispatch, Move.dispatch, Move.dispatch,
         Move.call 0, Move.call 1, Move.call 2, Move.call 0, Move.call 1, Move.call 2,
         Move.call 0, Move.call 1, Move.call 2, Move.call 0, Move.call 1, Move.call 2,
         Move.call 1, Move.call 1, Move.call 1,
         Move.exit 2, Move.exit 1, Move.exit 0] = some s ∧
      s.returned = true ∧
      s.world.dials
        = [("tcp", "10.0.0.1:22"), ("tcp", "10.0.0.2:22"), ("tcp", "10.0.0.3:22"),
           ("tcp", "10.0.0.2:22"), ("tcp", "10.0.0.2:22")] ∧
      List.Perm (s.world.dials.drop 0)
        ((["10.0.0.1", "10.0.0.2", "10.0.0.3"].map (dialsFor 22 "10.0.0.2")).flatten) ∧
      ("INFO", "Grabbed banner from 10.0.0.1: SSH-2.0") ∈ s.world.log ∧
      ("INFO", "Grabbed banner from 10.0.0.3: SSH-2.0") ∈ s.world.log := by
  have h := GrabBanners_delivers_every_good_host examples.oneDown
    ["10.0.0.1", "10.0.0.2", "10.0.0.3"] 22 64 (World.fresh ()) "10.0.0.2"
    (fun _ => "SSH-2.0") (fun _ => rfl)
    (by
      intro h hh hb st
      simp only [List.mem_cons, List.mem_singleton, List.not_mem_nil, or_false] at hh
      rcases hh with rfl | rfl | rfl
      · rfl
      · exact absurd rfl hb
      · rfl)
  obtain ⟨h1, h2⟩ := h.2.2.1
    [Move.dispatch, Move.dispatch, Move.dispatch,
     Move.call 0, Move.call 1, Move.call 2, Move.call 0, Move.call 1, Move.call 2,
     Move.call 0, Move.call 1, Move.call 2, Move.call 0, Move.call 1, Move.call 2,
     Move.call 1, Move.call 1, Move.call 1,
     Move.exit 2, Move.exit 1, Move.exit 0] _ rfl rfl
  exact ⟨_, rfl, rfl, rfl, h1,
    (h2 "10.0.0.1" (by decide) (by decide)).2, (h2 "10.0.0.3" (by decide) (by decide)).2⟩

end utils

/-- C7: in every state a schedule of `Scan` (with a concurrency limit of at least 1) or
of `GrabBanners` leads to, the goroutines in flight are at most the capacity of the slot
pool (`concurrentScans`, resp. 1000), and the pool holds exactly one token for each of
them.  A goroutine is started only after a slot was acquired: with the pool full the
dispatch cannot happen.  The body of a goroutine, whichever way it ends, leaves the
goroutine with its deferred calls to run and its slot held; the deferred calls release
exactly one slot.  The same holds of the goroutines of `GrabBanners`, which take turns
between their calls. -/
theorem in_flight_never_exceeds_capacity {σ : Type} (call : DialFn σ) (w : World σ) :
    (∀ (r : recon.Recon) (es : List Event) (s : Sched Int Int (World σ)),
      1 ≤ r.concurrentScans → r.Scan call w es = some s →
      (s.tasks.length : Int) ≤ r.concurrentScans ∧ s.sem = s.tasks.length) ∧
    (∀ (ips : List String) (port : Int) (bufferSize : Nat) (es : List Move) (s : Pool σ),
      utils.GrabBanners call ips port bufferSize w es = some s →
      s.tasks.length ≤ 1000 ∧ s.sem = s.tasks.length) ∧
    (∀ {ι τ ω : Type} (g : Gate ι τ ω) (s : Sched ι τ ω),
      g.capacity ≤ s.sem → g.step s Event.dispatch = none) ∧
    (∀ {ι τ ω : Type} (g : Gate ι τ ω) (s : Sched ι τ ω) (k : Nat) (x : τ),
      s.tasks.get? k = some (x, Phase.spawned) →
      ∃ s1, g.step s (Event.run k) = some s1 ∧
        s1.tasks = s.tasks.set k (x, Phase.returning) ∧ s1.sem = s.sem) ∧
    (∀ {ι τ ω : Type} (g : Gate ι τ ω) (s : Sched ι τ ω) (k : Nat) (x : τ),
      s.tasks.get? k = some (x, Phase.returning) →
      ∃ s1, g.step s (Event.exit k) = some s1 ∧
        s1.tasks = s.tasks.eraseIdx k ∧ s1.sem = s.sem - 1) ∧
    (∀ (capacity : Nat) (spawn : String → Routine) (s : Pool σ),
      capacity ≤ s.sem → Pool.step call capacity spawn s Move.dispatch = none) ∧
    (∀ (capacity : Nat) (spawn : String → Routine) (s s1 : Pool σ) (k : Nat),
      Pool.step call capacity spawn s (Move.call k) = some s1 →
      s1.tasks.length = s.tasks.length ∧ s1.sem = s.sem) ∧
    (∀ (capacity : Nat) (spawn : String → Routine) (s : Pool σ) (k : Nat) (ip : String),
      s.tasks.get? k = some (ip, Routine.done) →
      ∃ s1, Pool.step call capacity spawn s (Move.exit k) = some s1 ∧
        s1.tasks = s.tasks.eraseIdx k ∧ s1.sem = s.sem - 1) := by
  refine ⟨?_, ?_, ?_, ?_, ?_, ?_, ?_, ?_⟩
  · intro r es s hN h
    unfold recon.Recon.Scan at h
    rw [if_neg (by omega)] at h
    obtain ⟨h1, _, h3, _⟩ := Inv_exec _ _ _ es _ s (Inv_init _ _ _) h
    have h3 : s.tasks.length ≤ r.concurrentScans.toNat := h3
    exact ⟨by omega, h1⟩
  · intro ips port bufferSize es s h
    obtain ⟨h1, _, h3⟩ := Counted_exec _ _ _ es _ s (Counted_init _ _ _) h
    exact ⟨h3, h1⟩
  · intro ι τ ω g s h
    simp only [Gate.step]
    cases g.next s.iter with
    | none => rfl
    | some p =>
      simp only
      rw [if_neg (by omega)]
  · intro ι τ ω g s k x h
    exact ⟨Sched.mk s.iter s.sem s.wg (s.tasks.set k (x, Phase.returning)) (g.body x s.world),
      by simp only [Gate.step, h], rfl, rfl⟩
  · intro ι τ ω g s k x h
    exact ⟨Sched.mk s.iter (s.sem - 1) (s.wg - 1) (s.tasks.eraseIdx k) s.world,
      by simp only [Gate.step, h], rfl, rfl⟩
  · intro capacity spawn s h
    simp only [Pool.step]
    cases s.iter with
    | nil => rfl
    | cons ip rest =>
      simp only
      rw [if_neg (by omega)]
  · intro capacity spawn s s1 k h
    simp only [Pool.step] at h
    cases hk : s.tasks.get? k with
    | none => rw [hk] at h; simp at h
    | some t =>
      obtain ⟨ip, p⟩ := t
      rw [hk] at h
      cases p with
      | done => simp at h
      | dial network addr next =>
        simp only [Option.some.injEq] at h
        subst h
        exact ⟨by simp, rfl⟩
      | log level message next =>
        simp only [Option.some.injEq] at h
        subst h
        exact ⟨by simp, rfl⟩
      | close c next =>
        simp only [Option.some.injEq] at h
        subst h
        exact ⟨by simp, rfl⟩
  · intro capacity spawn s k ip h
    exact ⟨Pool.mk s.iter (s.sem - 1) (s.wg - 1) (s.tasks.eraseIdx k) s.world,
      by simp only [Pool.step, h], rfl, rfl⟩

theorem in_flight_never_exceeds_capacity_witness :
    ∃ s, examples.debugScan.Scan examples.onlyPort80 (World.fresh ())
        [Event.dispatch, Event.dispatch, Event.run 1, Event.dispatch] = some s ∧
      s.tasks.length = 3 ∧ ((s.tasks.length : Int) ≤ 10 ∧ s.sem = s.tasks.length) :=
  ⟨_, rfl, rfl,
    (in_flight_never_exceeds_capacity examples.onlyPort80 (World.fresh ())).1
      examples.debugScan [Event.dispatch, Event.dispatch, Event.run 1, Event.dispatch] _
      (by decide) rfl⟩

end Retcon
